import Mathlib

/-!
Verification of the planar-geometry kernel (points, bounding boxes, lines,
segments) against its specification.

The source is generic over an IEEE floating-point parameter `F`; all the
comparisons and the case analyses under study are exact, so the embedding
models `F` as exact rational arithmetic (`ℚ`).  The only float-specific
constant the code uses is `F::max_value()` (in `BBox::default`), embedded
below as the exact rational value of `f64::MAX`.
-/

/-- The largest finite value of the 64-bit float type, as an exact rational;
`F::min_value()` is its negation. -/
def maxValue : ℚ := (2 ^ 53 - 1) * 2 ^ 971

/-- 2-dimensional point / vector (`Pt` in `src/point.rs`). -/
structure Pt where
  x : ℚ
  y : ℚ
deriving DecidableEq

/-- Vector addition (`impl Add for Pt`). -/
def Pt.add (a b : Pt) : Pt := ⟨a.x + b.x, a.y + b.y⟩

/-- Vector subtraction (`impl Sub for Pt`). -/
def Pt.sub (a b : Pt) : Pt := ⟨a.x - b.x, a.y - b.y⟩

/-- Cross product (`impl Mul for Pt`): signed magnitude of the 3D cross product. -/
def Pt.cross (a b : Pt) : ℚ := a.x * b.y - a.y * b.x

/-- Right-hand perpendicular vector (`Pt::right`). -/
def Pt.right (a : Pt) : Pt := ⟨a.y, -a.x⟩

/-- Componentwise minimum (`Pt::with_min`). -/
def Pt.with_min (a b : Pt) : Pt := ⟨min a.x b.x, min a.y b.y⟩

/-- Componentwise maximum (`Pt::with_max`). -/
def Pt.with_max (a b : Pt) : Pt := ⟨max a.x b.x, max a.y b.y⟩

/-- Position relative to a bounding box (`Bounds` in `src/bbox.rs`). -/
inductive Bounds where
  | Within
  | Below
  | BelowLeft
  | Left
  | AboveLeft
  | Above
  | AboveRight
  | Right
  | BelowRight
deriving DecidableEq

/-- Axis-aligned bounding box (`BBox` in `src/bbox.rs`); `pt0`/`pt1` are
`pts[0]` (minimum corner) and `pts[1]` (maximum corner). -/
structure BBox where
  pt0 : Pt
  pt1 : Pt
deriving DecidableEq

/-- The default (empty) box: `min > max` so that no bounds are valid
(`impl Default for BBox`). -/
def BBox.default : BBox := ⟨⟨maxValue, maxValue⟩, ⟨-maxValue, -maxValue⟩⟩

/-- Extend a box to include one point (`BBox::include_pt`). -/
def BBox.include_pt (b : BBox) (p : Pt) : BBox :=
  ⟨b.pt0.with_min p, b.pt1.with_max p⟩

/-- Create a box from a sequence of points (`BBox::new`): fold `include_pt`
over the default box. -/
def BBox.new (pts : List Pt) : BBox := pts.foldl BBox.include_pt BBox.default

/-- Minimum X value (`BBox::x_min`). -/
def BBox.x_min (b : BBox) : ℚ := b.pt0.x

/-- Maximum X value (`BBox::x_max`). -/
def BBox.x_max (b : BBox) : ℚ := b.pt1.x

/-- Minimum Y value (`BBox::y_min`). -/
def BBox.y_min (b : BBox) : ℚ := b.pt0.y

/-- Maximum Y value (`BBox::y_max`). -/
def BBox.y_max (b : BBox) : ℚ := b.pt1.y

/-- Classify a coordinate pair against a box (`BBox::check`). -/
def BBox.check (b : BBox) (x y : ℚ) : Bounds :=
  let xo : Ordering := if x < b.x_min then .lt else if x > b.x_max then .gt else .eq
  let yo : Ordering := if y < b.y_min then .lt else if y > b.y_max then .gt else .eq
  match xo, yo with
  | .eq, .eq => .Within
  | .lt, .lt => .BelowLeft
  | .lt, .eq => .Left
  | .lt, .gt => .AboveLeft
  | .eq, .gt => .Above
  | .gt, .gt => .AboveRight
  | .gt, .eq => .Right
  | .gt, .lt => .BelowRight
  | .eq, .lt => .Below

/-- A point is bounded by a box iff it classifies `Within`
(`impl Bounded for Pt`). -/
def Pt.bounded_by (p : Pt) (b : BBox) : Bool :=
  decide (b.check p.x p.y = Bounds.Within)

/-- Interval-overlap test of a box against a box (`impl Bounded for BBox`). -/
def BBox.bounded_by (s b : BBox) : Bool :=
  decide (s.x_min ≤ b.x_max) && decide (s.x_max ≥ b.x_min) &&
  decide (s.y_min ≤ b.y_max) && decide (s.y_max ≥ b.y_min)

/-- A line given by two points (`Line` in `src/line.rs`). -/
structure Line where
  p0 : Pt
  p1 : Pt
deriving DecidableEq

/-- The point where two infinite lines intersect (`Line::intersection`). -/
def Line.intersection (l r : Line) : Option Pt :=
  let v0 := l.p1.sub l.p0
  let v1 := r.p1.sub r.p0
  let den := v0.cross v1
  if den ≠ 0 then
    let v2 := l.p0.sub r.p0
    let num := v1.cross v2
    let u := num / den
    some ⟨l.p0.x + u * v0.x, l.p0.y + u * v0.y⟩
  else
    none

/-- Orthogonal projection of a point onto a line (`Line::project`).  The
source unwraps the inner intersection; the fallible inner step is modelled
by returning the optional intersection itself. -/
def Line.project (l : Line) (pt : Pt) : Option Pt :=
  let perp := (l.p1.sub l.p0).right
  l.intersection ⟨pt, ⟨pt.x + perp.x, pt.y + perp.y⟩⟩

/-- A segment of a line between two endpoints (`Seg` in `src/segment.rs`). -/
structure Seg where
  p0 : Pt
  p1 : Pt
deriving DecidableEq

/-- The point where two segments intersect (`Seg::intersection`): the
infinite-line intersection filtered by containment in the bounding box of
the second segment's endpoints. -/
def Seg.intersection (s r : Seg) : Option Pt :=
  ((Line.mk s.p0 s.p1).intersection (Line.mk r.p0 r.p1)).filter
    (fun p => p.bounded_by (BBox.new [r.p0, r.p1]))

/-- Whether two segments intersect (`Seg::intersects`). -/
def Seg.intersects (s r : Seg) : Bool := (s.intersection r).isSome

/-- Edge on the X min side (`BBox::x_min_edge`). -/
def BBox.x_min_edge (b : BBox) : Seg := ⟨⟨b.x_min, b.y_min⟩, ⟨b.x_min, b.y_max⟩⟩

/-- Edge on the X max side (`BBox::x_max_edge`). -/
def BBox.x_max_edge (b : BBox) : Seg := ⟨⟨b.x_max, b.y_min⟩, ⟨b.x_max, b.y_max⟩⟩

/-- Edge on the Y min side (`BBox::y_min_edge`). -/
def BBox.y_min_edge (b : BBox) : Seg := ⟨⟨b.x_min, b.y_min⟩, ⟨b.x_max, b.y_min⟩⟩

/-- Edge on the Y max side (`BBox::y_max_edge`). -/
def BBox.y_max_edge (b : BBox) : Seg := ⟨⟨b.x_min, b.y_max⟩, ⟨b.x_max, b.y_max⟩⟩

/-- Box-overlap test for segments (`impl Bounded for Seg` in
`src/segment.rs`, the later revision); the source's or-patterns are expanded
into the same first-match order, with pairs consumed by earlier arms
omitted. -/
def Seg.bounded_by (s : Seg) (bbox : BBox) : Bool :=
  match bbox.check s.p0.x s.p0.y, bbox.check s.p1.x s.p1.y with
  | .Within, _ | _, .Within => true
  | .Left, .Right => true
  | .Right, .Left => true
  | .Below, .Above => true
  | .Above, .Below => true
  | .Left, .Left | .Left, .BelowLeft | .Left, .AboveLeft
  | .BelowLeft, .Left | .BelowLeft, .BelowLeft | .BelowLeft, .AboveLeft
  | .AboveLeft, .Left | .AboveLeft, .BelowLeft | .AboveLeft, .AboveLeft => false
  | .Right, .Right | .Right, .BelowRight | .Right, .AboveRight
  | .BelowRight, .Right | .BelowRight, .BelowRight | .BelowRight, .AboveRight
  | .AboveRight, .Right | .AboveRight, .BelowRight | .AboveRight, .AboveRight => false
  | .Below, .Below | .Below, .BelowLeft | .Below, .BelowRight
  | .BelowLeft, .Below | .BelowLeft, .BelowRight
  | .BelowRight, .Below | .BelowRight, .BelowLeft => false
  | .Above, .Above | .Above, .AboveLeft | .Above, .AboveRight
  | .AboveLeft, .Above | .AboveLeft, .AboveRight
  | .AboveRight, .Above | .AboveRight, .AboveLeft => false
  | .Left, _ | _, .Left => s.intersects bbox.x_min_edge
  | .Right, _ | _, .Right => s.intersects bbox.x_max_edge
  | .BelowLeft, _ | _, .BelowLeft =>
      s.intersects bbox.x_min_edge || s.intersects bbox.y_min_edge
  | .AboveLeft, _ | _, .AboveLeft =>
      s.intersects bbox.x_min_edge || s.intersects bbox.y_max_edge
  | .BelowRight, _ | _, .BelowRight =>
      s.intersects bbox.x_max_edge || s.intersects bbox.y_min_edge
  | .AboveRight, _ | _, .AboveRight =>
      s.intersects bbox.x_max_edge || s.intersects bbox.y_max_edge

/-- Box-overlap test for segments, earlier revision
(`impl Bounded for Seg` in `src/line.rs`): same trivial accept/reject arms,
but the fallback is a single-edge test keyed on left/right side groups. -/
def Seg.bounded_by_old (s : Seg) (bbox : BBox) : Bool :=
  match bbox.check s.p0.x s.p0.y, bbox.check s.p1.x s.p1.y with
  | .Within, _ | _, .Within => true
  | .Left, .Right => true
  | .Right, .Left => true
  | .Below, .Above => true
  | .Above, .Below => true
  | .Left, .Left | .Left, .BelowLeft | .Left, .AboveLeft
  | .BelowLeft, .Left | .BelowLeft, .BelowLeft | .BelowLeft, .AboveLeft
  | .AboveLeft, .Left | .AboveLeft, .BelowLeft | .AboveLeft, .AboveLeft => false
  | .Right, .Right | .Right, .BelowRight | .Right, .AboveRight
  | .BelowRight, .Right | .BelowRight, .BelowRight | .BelowRight, .AboveRight
  | .AboveRight, .Right | .AboveRight, .BelowRight | .AboveRight, .AboveRight => false
  | .Below, .Below | .Below, .BelowLeft | .Below, .BelowRight
  | .BelowLeft, .Below | .BelowLeft, .BelowRight
  | .BelowRight, .Below | .BelowRight, .BelowLeft => false
  | .Above, .Above | .Above, .AboveLeft | .Above, .AboveRight
  | .AboveLeft, .Above | .AboveLeft, .AboveRight
  | .AboveRight, .Above | .AboveRight, .AboveLeft => false
  | .Left, _ | .BelowLeft, _ | .AboveLeft, _
  | _, .Left | _, .BelowLeft | _, .AboveLeft =>
      s.intersects ⟨⟨bbox.x_min, bbox.y_min⟩, ⟨bbox.x_min, bbox.y_max⟩⟩
  | .Right, _ | .BelowRight, _ | .AboveRight, _
  | _, .Right | _, .BelowRight | _, .AboveRight =>
      s.intersects ⟨⟨bbox.x_max, bbox.y_min⟩, ⟨bbox.x_max, bbox.y_max⟩⟩

/-- First block of `Seg::clip`: clip against the x-min edge. -/
def Seg.clip_x_min (s : Seg) (bbox : BBox) : Seg :=
  match s.intersection bbox.x_min_edge with
  | some p =>
    if s.p0.x < bbox.x_min then ⟨p, s.p1⟩
    else if s.p1.x < bbox.x_min then ⟨s.p0, p⟩
    else s
  | none => s

/-- Second block of `Seg::clip`: clip against the x-max edge. -/
def Seg.clip_x_max (s : Seg) (bbox : BBox) : Seg :=
  match s.intersection bbox.x_max_edge with
  | some p =>
    if s.p0.x > bbox.x_max then ⟨p, s.p1⟩
    else if s.p1.x > bbox.x_max then ⟨s.p0, p⟩
    else s
  | none => s

/-- Third block of `Seg::clip`: clip against the y-min edge. -/
def Seg.clip_y_min (s : Seg) (bbox : BBox) : Seg :=
  match s.intersection bbox.y_min_edge with
  | some p =>
    if s.p0.y < bbox.y_min then ⟨p, s.p1⟩
    else if s.p1.y < bbox.y_min then ⟨s.p0, p⟩
    else s
  | none => s

/-- Fourth block of `Seg::clip`: clip against the y-max edge. -/
def Seg.clip_y_max (s : Seg) (bbox : BBox) : Seg :=
  match s.intersection bbox.y_max_edge with
  | some p =>
    if s.p0.y > bbox.y_max then ⟨p, s.p1⟩
    else if s.p1.y > bbox.y_max then ⟨s.p0, p⟩
    else s
  | none => s

/-- Clip a segment with a bounding box (`Seg::clip`): reject via
`bounded_by`, then run the four edge-clipping blocks in source order. -/
def Seg.clip (s : Seg) (bbox : BBox) : Option Seg :=
  if !(s.bounded_by bbox) then none
  else some ((((s.clip_x_min bbox).clip_x_max bbox).clip_y_min bbox).clip_y_max bbox)

/-- Modelled from the spec: `Line::canonical` is absent from the source files
under study, so it is reconstructed from the specification text.  The line is
intersected with the four fixed reference lines `x = 0`, `x = 1`, `y = 0`,
`y = 1`; a line through the origin is re-anchored with `x = 1`; a horizontal
line (meets `x = 0` but not `y = 0`) is re-anchored with `x = 1`; a vertical
line (meets `y = 0` but not `x = 0`) is re-anchored with `y = 1`; all
reference intersections failing is the unreachable case, modelled as `none`. -/
def Line.canonical (l : Line) : Option Line :=
  let px0 := l.intersection ⟨⟨0, 0⟩, ⟨0, 1⟩⟩
  let py0 := l.intersection ⟨⟨0, 0⟩, ⟨1, 0⟩⟩
  match px0, py0 with
  | some a, some b =>
    if a = b then (l.intersection ⟨⟨1, 0⟩, ⟨1, 1⟩⟩).map (fun c => ⟨a, c⟩)
    else some ⟨a, b⟩
  | some a, none => (l.intersection ⟨⟨1, 0⟩, ⟨1, 1⟩⟩).map (fun c => ⟨a, c⟩)
  | none, some b => (l.intersection ⟨⟨0, 1⟩, ⟨1, 1⟩⟩).map (fun c => ⟨b, c⟩)
  | none, none => none

/-! ### Validity predicates -/

/-- A box is valid when its minimum corner is componentwise at most its
maximum corner (the invariant of boxes built from at least one point). -/
def BBox.Valid (b : BBox) : Prop := b.x_min ≤ b.x_max ∧ b.y_min ≤ b.y_max

/-- A coordinate is representable in the modelled float type. -/
def InRangeQ (q : ℚ) : Prop := -maxValue ≤ q ∧ q ≤ maxValue

/-- Both coordinates of a point are representable. -/
def Pt.InRange (p : Pt) : Prop := InRangeQ p.x ∧ InRangeQ p.y

/-- All four extents of a box are representable. -/
def BBox.InRange (b : BBox) : Prop :=
  InRangeQ b.x_min ∧ InRangeQ b.x_max ∧ InRangeQ b.y_min ∧ InRangeQ b.y_max

theorem maxValue_pos : 0 < maxValue := by norm_num [maxValue]

/-! ### Characterization of region classification -/

theorem BBox.check_eq_Within (b : BBox) (x y : ℚ) :
    b.check x y = Bounds.Within ↔
      (b.x_min ≤ x ∧ x ≤ b.x_max) ∧ (b.y_min ≤ y ∧ y ≤ b.y_max) := by
  unfold BBox.check
  split_ifs <;> simp_all

theorem BBox.check_eq_Left (b : BBox) (x y : ℚ) :
    b.check x y = Bounds.Left ↔ x < b.x_min ∧ (b.y_min ≤ y ∧ y ≤ b.y_max) := by
  unfold BBox.check
  split_ifs <;> simp_all

theorem BBox.check_eq_Right (b : BBox) (x y : ℚ) :
    b.check x y = Bounds.Right ↔
      (b.x_min ≤ x ∧ b.x_max < x) ∧ (b.y_min ≤ y ∧ y ≤ b.y_max) := by
  unfold BBox.check
  split_ifs <;> simp_all

theorem BBox.check_eq_Below (b : BBox) (x y : ℚ) :
    b.check x y = Bounds.Below ↔ (b.x_min ≤ x ∧ x ≤ b.x_max) ∧ y < b.y_min := by
  unfold BBox.check
  split_ifs <;> simp_all

theorem BBox.check_eq_Above (b : BBox) (x y : ℚ) :
    b.check x y = Bounds.Above ↔
      (b.x_min ≤ x ∧ x ≤ b.x_max) ∧ (b.y_min ≤ y ∧ b.y_max < y) := by
  unfold BBox.check
  split_ifs <;> simp_all

theorem BBox.check_eq_BelowLeft (b : BBox) (x y : ℚ) :
    b.check x y = Bounds.BelowLeft ↔ x < b.x_min ∧ y < b.y_min := by
  unfold BBox.check
  split_ifs <;> simp_all

theorem BBox.check_eq_AboveLeft (b : BBox) (x y : ℚ) :
    b.check x y = Bounds.AboveLeft ↔ x < b.x_min ∧ (b.y_min ≤ y ∧ b.y_max < y) := by
  unfold BBox.check
  split_ifs <;> simp_all

theorem BBox.check_eq_BelowRight (b : BBox) (x y : ℚ) :
    b.check x y = Bounds.BelowRight ↔ (b.x_min ≤ x ∧ b.x_max < x) ∧ y < b.y_min := by
  unfold BBox.check
  split_ifs <;> simp_all

theorem BBox.check_eq_AboveRight (b : BBox) (x y : ℚ) :
    b.check x y = Bounds.AboveRight ↔
      (b.x_min ≤ x ∧ b.x_max < x) ∧ (b.y_min ≤ y ∧ b.y_max < y) := by
  unfold BBox.check
  split_ifs <;> simp_all

theorem Pt.bounded_by_eq_true (p : Pt) (b : BBox) :
    (p.bounded_by b = true) ↔ b.check p.x p.y = Bounds.Within := by
  simp [Pt.bounded_by]

/-! ### The bounding box of a pair of in-range points -/

theorem BBox.new_pair (a b : Pt) :
    BBox.new [a, b] =
      ⟨⟨min (min maxValue a.x) b.x, min (min maxValue a.y) b.y⟩,
       ⟨max (max (-maxValue) a.x) b.x, max (max (-maxValue) a.y) b.y⟩⟩ := rfl

theorem BBox.new_pair_in_range (a b : Pt) (ha : a.InRange) (hb : b.InRange) :
    BBox.new [a, b] =
      ⟨⟨min a.x b.x, min a.y b.y⟩, ⟨max a.x b.x, max a.y b.y⟩⟩ := by
  obtain ⟨⟨hax1, hax2⟩, hay1, hay2⟩ := ha
  obtain ⟨⟨hbx1, hbx2⟩, hby1, hby2⟩ := hb
  rw [BBox.new_pair]
  rw [min_eq_right hax2, min_eq_right hay2, max_eq_right hax1, max_eq_right hay1]

/-! ### Infinite-line intersection: closed form and geometric facts -/

theorem Line.intersection_eq_ite (l r : Line) :
    l.intersection r =
      if (l.p1.sub l.p0).cross (r.p1.sub r.p0) = 0 then none
      else
        some ⟨l.p0.x + (r.p1.sub r.p0).cross (l.p0.sub r.p0) /
                (l.p1.sub l.p0).cross (r.p1.sub r.p0) * (l.p1.sub l.p0).x,
              l.p0.y + (r.p1.sub r.p0).cross (l.p0.sub r.p0) /
                (l.p1.sub l.p0).cross (r.p1.sub r.p0) * (l.p1.sub l.p0).y⟩ := by
  unfold Line.intersection
  by_cases h : (l.p1.sub l.p0).cross (r.p1.sub r.p0) = 0 <;> simp [h]

theorem Line.intersection_self (l : Line) : l.intersection l = none := by
  rw [Line.intersection_eq_ite, if_pos]
  unfold Pt.cross
  ring

/-- The y-coordinate at abscissa `c` of the line through `P` and `Q`. -/
def yAt (P Q : Pt) (c : ℚ) : ℚ := P.y + (c - P.x) / (Q.x - P.x) * (Q.y - P.y)

/-- The x-coordinate at ordinate `c` of the line through `P` and `Q`. -/
def xAt (P Q : Pt) (c : ℚ) : ℚ := P.x + (c - P.y) / (Q.y - P.y) * (Q.x - P.x)

/-- Intersection of an arbitrary line with the line of a vertical segment. -/
theorem Line.intersection_vertical (P Q : Pt) (c e0 e1 : ℚ) :
    Line.intersection ⟨P, Q⟩ ⟨⟨c, e0⟩, ⟨c, e1⟩⟩ =
      if P.x = Q.x ∨ e0 = e1 then none else some ⟨c, yAt P Q c⟩ := by
  rw [Line.intersection_eq_ite]
  simp only [Pt.sub, Pt.cross, yAt]
  have hden : (Q.x - P.x) * (e1 - e0) - (Q.y - P.y) * (c - c) = (Q.x - P.x) * (e1 - e0) := by
    ring
  rw [hden]
  by_cases h1 : P.x = Q.x
  · rw [if_pos, if_pos (Or.inl h1)]
    rw [h1]
    ring_nf
  · by_cases h2 : e0 = e1
    · rw [if_pos, if_pos (Or.inr h2)]
      rw [h2]
      ring_nf
    · have hx : Q.x - P.x ≠ 0 := sub_ne_zero.mpr (Ne.symm h1)
      have he : e1 - e0 ≠ 0 := sub_ne_zero.mpr (Ne.symm h2)
      rw [if_neg (mul_ne_zero hx he), if_neg (by tauto)]
      have h3 : (e1 - e0) * (c - e0) - (c - c) * (P.y - e0) = (e1 - e0) * (c - e0) := by ring
      congr 1
      refine congrArg₂ Pt.mk ?_ ?_ <;> field_simp <;> ring

/-- Intersection of an arbitrary line with the line of a horizontal segment. -/
theorem Line.intersection_horizontal (P Q : Pt) (c e0 e1 : ℚ) :
    Line.intersection ⟨P, Q⟩ ⟨⟨e0, c⟩, ⟨e1, c⟩⟩ =
      if P.y = Q.y ∨ e0 = e1 then none else some ⟨xAt P Q c, c⟩ := by
  rw [Line.intersection_eq_ite]
  simp only [Pt.sub, Pt.cross, xAt]
  have hden : (Q.x - P.x) * (c - c) - (Q.y - P.y) * (e1 - e0) = -((Q.y - P.y) * (e1 - e0)) := by
    ring
  rw [hden]
  by_cases h1 : P.y = Q.y
  · rw [if_pos, if_pos (Or.inl h1)]
    rw [h1]
    ring_nf
  · by_cases h2 : e0 = e1
    · rw [if_pos, if_pos (Or.inr h2)]
      rw [h2]
      ring_nf
    · have hy : Q.y - P.y ≠ 0 := sub_ne_zero.mpr (Ne.symm h1)
      have he : e1 - e0 ≠ 0 := sub_ne_zero.mpr (Ne.symm h2)
      rw [if_neg (by simpa using mul_ne_zero hy he), if_neg (by tauto)]
      congr 1
      refine congrArg₂ Pt.mk ?_ ?_ <;> field_simp <;> ring

theorem Pt.eq_of_coords {a b : Pt} (h1 : a.x = b.x) (h2 : a.y = b.y) : a = b := by
  cases a
  cases b
  cases h1
  cases h2
  rfl

/-! ### Collinearity -/

/-- `A` lies on the infinite line through `P` and `Q`. -/
def onL (P Q A : Pt) : Prop := (Q.sub P).cross (A.sub P) = 0

theorem onL_left (P Q : Pt) : onL P Q P := by
  simp [onL, Pt.sub, Pt.cross]

theorem onL_right (P Q : Pt) : onL P Q Q := by
  simp [onL, Pt.sub, Pt.cross]
  ring

/-- A zero cross product with a nonzero vector yields a scalar multiple. -/
theorem cross_eq_zero_decomp (v w : Pt) (hv : ¬(v.x = 0 ∧ v.y = 0))
    (h : v.cross w = 0) : ∃ t : ℚ, w.x = t * v.x ∧ w.y = t * v.y := by
  unfold Pt.cross at h
  by_cases hx : v.x = 0
  · have hy : v.y ≠ 0 := fun hy => hv ⟨hx, hy⟩
    refine ⟨w.y / v.y, ?_, by field_simp⟩
    have hwx : v.y * w.x = 0 := by rw [hx] at h; linarith
    rcases mul_eq_zero.mp hwx with h' | h'
    · exact absurd h' hy
    · rw [h', hx]; ring
  · refine ⟨w.x / v.x, by field_simp, ?_⟩
    field_simp
    linarith [h]

/-- Two distinct points of a line re-span the same line. -/
theorem onL_trans (P Q A B C : Pt) (hA : onL P Q A) (hB : onL P Q B)
    (hAB : A ≠ B) (hC : onL A B C) : onL P Q C := by
  by_cases hPQ : (Q.sub P).x = 0 ∧ (Q.sub P).y = 0
  · simp [onL, Pt.cross, hPQ.1, hPQ.2]
  · obtain ⟨a, hax, hay⟩ := cross_eq_zero_decomp _ _ hPQ hA
    obtain ⟨b, hbx, hby⟩ := cross_eq_zero_decomp _ _ hPQ hB
    simp only [onL, Pt.sub, Pt.cross] at hC ⊢
    simp only [Pt.sub] at hax hay hbx hby
    have e1 : B.x - A.x = (b - a) * (Q.x - P.x) := by linear_combination hbx - hax
    have e2 : B.y - A.y = (b - a) * (Q.y - P.y) := by linear_combination hby - hay
    have hab : b - a ≠ 0 := by
      intro h0
      apply hAB
      refine Pt.eq_of_coords ?_ ?_
      · linear_combination - e1 - (Q.x - P.x) * h0
      · linear_combination - e2 - (Q.y - P.y) * h0
    have h2 : (b - a) * ((Q.x - P.x) * (C.y - A.y) - (Q.y - P.y) * (C.x - A.x)) = 0 := by
      linear_combination hC - (C.y - A.y) * e1 + (C.x - A.x) * e2
    have hKey : (Q.x - P.x) * (C.y - A.y) - (Q.y - P.y) * (C.x - A.x) = 0 := by
      rcases mul_eq_zero.mp h2 with h' | h'
      · exact absurd h' hab
      · exact h'
    linear_combination hKey + (Q.x - P.x) * hay - (Q.y - P.y) * hax

/-- On a non-vertical line, a point's ordinate is determined by its abscissa. -/
theorem onL_yAt (P Q A : Pt) (h : onL P Q A) (hx : P.x ≠ Q.x) :
    A.y = yAt P Q A.x := by
  unfold onL Pt.sub Pt.cross at h
  simp only at h
  have hne : Q.x - P.x ≠ 0 := sub_ne_zero.mpr (Ne.symm hx)
  unfold yAt
  field_simp
  linarith [h]

/-- On a non-horizontal line, a point's abscissa is determined by its ordinate. -/
theorem onL_xAt (P Q A : Pt) (h : onL P Q A) (hy : P.y ≠ Q.y) :
    A.x = xAt P Q A.y := by
  unfold onL Pt.sub Pt.cross at h
  simp only at h
  have hne : Q.y - P.y ≠ 0 := sub_ne_zero.mpr (Ne.symm hy)
  unfold xAt
  field_simp
  linarith [h]

/-- The vertical-crossing point lies on the line. -/
theorem yAt_mem (P Q : Pt) (c : ℚ) (hx : P.x ≠ Q.x) : onL P Q ⟨c, yAt P Q c⟩ := by
  unfold onL Pt.sub Pt.cross yAt
  simp only
  have hne : Q.x - P.x ≠ 0 := sub_ne_zero.mpr (Ne.symm hx)
  field_simp
  ring

/-- The horizontal-crossing point lies on the line. -/
theorem xAt_mem (P Q : Pt) (c : ℚ) (hy : P.y ≠ Q.y) : onL P Q ⟨xAt P Q c, c⟩ := by
  unfold onL Pt.sub Pt.cross xAt
  simp only
  have hne : Q.y - P.y ≠ 0 := sub_ne_zero.mpr (Ne.symm hy)
  field_simp
  ring

/-- Two distinct points of a non-vertical line compute the same crossing ordinate. -/
theorem yAt_congr (P Q A B : Pt) (hA : onL P Q A) (hB : onL P Q B)
    (hPQ : P.x ≠ Q.x) (hAB : A.x ≠ B.x) (c : ℚ) : yAt A B c = yAt P Q c := by
  have hya := onL_yAt P Q A hA hPQ
  have hyb := onL_yAt P Q B hB hPQ
  have h1 : Q.x - P.x ≠ 0 := sub_ne_zero.mpr (Ne.symm hPQ)
  have h2 : B.x - A.x ≠ 0 := sub_ne_zero.mpr (Ne.symm hAB)
  unfold yAt at hya hyb ⊢
  rw [hya, hyb]
  field_simp
  ring

/-- Two distinct points of a non-horizontal line compute the same crossing abscissa. -/
theorem xAt_congr (P Q A B : Pt) (hA : onL P Q A) (hB : onL P Q B)
    (hPQ : P.y ≠ Q.y) (hAB : A.y ≠ B.y) (c : ℚ) : xAt A B c = xAt P Q c := by
  have hxa := onL_xAt P Q A hA hPQ
  have hxb := onL_xAt P Q B hB hPQ
  have h1 : Q.y - P.y ≠ 0 := sub_ne_zero.mpr (Ne.symm hPQ)
  have h2 : B.y - A.y ≠ 0 := sub_ne_zero.mpr (Ne.symm hAB)
  unfold xAt at hxa hxb ⊢
  rw [hxa, hxb]
  field_simp
  ring

/-- Points of a vertical line share their abscissa. -/
theorem onL_vertical (P Q A : Pt) (h : onL P Q A) (hx : P.x = Q.x)
    (hPQ : P ≠ Q) : A.x = P.x := by
  unfold onL Pt.sub Pt.cross at h
  simp only at h
  have hy : Q.y - P.y ≠ 0 := by
    intro h0
    exact hPQ (Pt.eq_of_coords hx.symm (by linarith) |>.symm)
  have : (Q.y - P.y) * (A.x - P.x) = 0 := by rw [hx] at h ⊢; linarith
  rcases mul_eq_zero.mp this with h' | h'
  · exact absurd h' hy
  · linarith

/-- Points of a horizontal line share their ordinate. -/
theorem onL_horizontal (P Q A : Pt) (h : onL P Q A) (hy : P.y = Q.y)
    (hPQ : P ≠ Q) : A.y = P.y := by
  unfold onL Pt.sub Pt.cross at h
  simp only at h
  have hx : Q.x - P.x ≠ 0 := by
    intro h0
    exact hPQ (Pt.eq_of_coords (by linarith) hy.symm |>.symm)
  have : (Q.x - P.x) * (A.y - P.y) = 0 := by rw [hy] at h ⊢; linarith
  rcases mul_eq_zero.mp this with h' | h'
  · exact absurd h' hx
  · linarith

/-! ### Interpolation bounds along a line -/

theorem between_of_prod_nonpos {u p q : ℚ} (h : (u - p) * (u - q) ≤ 0) :
    min p q ≤ u ∧ u ≤ max p q := by
  rcases mul_nonpos_iff.mp h with ⟨h1, h2⟩ | ⟨h1, h2⟩
  · exact ⟨le_trans (min_le_left p q) (by linarith), le_trans (by linarith) (le_max_right p q)⟩
  · exact ⟨le_trans (min_le_right p q) (by linarith), le_trans (by linarith) (le_max_left p q)⟩

/-- The ordinate of a line at an abscissa between two of its points is between
their ordinates. -/
theorem yAt_between (a b : Pt) (hab : a.x ≠ b.x) (c : ℚ)
    (h1 : min a.x b.x ≤ c) (h2 : c ≤ max a.x b.x) :
    min a.y b.y ≤ yAt a b c ∧ yAt a b c ≤ max a.y b.y := by
  have hne : b.x - a.x ≠ 0 := sub_ne_zero.mpr (Ne.symm hab)
  set t : ℚ := (c - a.x) / (b.x - a.x) with ht
  have hy : yAt a b c = a.y + t * (b.y - a.y) := by unfold yAt; ring
  have ht01 : 0 ≤ t ∧ t ≤ 1 := by
    rcases lt_or_gt_of_ne hab with h | h
    · rw [min_eq_left h.le] at h1
      rw [max_eq_right h.le] at h2
      constructor
      · exact div_nonneg (by linarith) (by linarith)
      · rw [div_le_one (by linarith)]
        linarith
    · rw [min_eq_right h.le] at h1
      rw [max_eq_left h.le] at h2
      constructor
      · rw [ht, div_nonneg_iff]
        right
        constructor <;> linarith
      · rw [ht, div_le_one_iff]
        right
        right
        constructor <;> linarith
  apply between_of_prod_nonpos
  have hexp : (yAt a b c - a.y) * (yAt a b c - b.y) = t * (t - 1) * (b.y - a.y) ^ 2 := by
    rw [hy]
    ring
  rw [hexp]
  nlinarith [mul_nonneg (mul_nonneg ht01.1 (by linarith [ht01.2] : (0:ℚ) ≤ 1 - t))
    (sq_nonneg (b.y - a.y))]

/-- The abscissa of a line at an ordinate between two of its points is between
their abscissas. -/
theorem xAt_between (a b : Pt) (hab : a.y ≠ b.y) (c : ℚ)
    (h1 : min a.y b.y ≤ c) (h2 : c ≤ max a.y b.y) :
    min a.x b.x ≤ xAt a b c ∧ xAt a b c ≤ max a.x b.x := by
  have hne : b.y - a.y ≠ 0 := sub_ne_zero.mpr (Ne.symm hab)
  set t : ℚ := (c - a.y) / (b.y - a.y) with ht
  have hy : xAt a b c = a.x + t * (b.x - a.x) := by unfold xAt; ring
  have ht01 : 0 ≤ t ∧ t ≤ 1 := by
    rcases lt_or_gt_of_ne hab with h | h
    · rw [min_eq_left h.le] at h1
      rw [max_eq_right h.le] at h2
      constructor
      · exact div_nonneg (by linarith) (by linarith)
      · rw [div_le_one (by linarith)]
        linarith
    · rw [min_eq_right h.le] at h1
      rw [max_eq_left h.le] at h2
      constructor
      · rw [ht, div_nonneg_iff]
        right
        constructor <;> linarith
      · rw [ht, div_le_one_iff]
        right
        right
        constructor <;> linarith
  apply between_of_prod_nonpos
  have hexp : (xAt a b c - a.x) * (xAt a b c - b.x) = t * (t - 1) * (b.x - a.x) ^ 2 := by
    rw [hy]
    ring
  rw [hexp]
  nlinarith [mul_nonneg (mul_nonneg ht01.1 (by linarith [ht01.2] : (0:ℚ) ≤ 1 - t))
    (sq_nonneg (b.x - a.x))]

/-! ### Segment-edge intersection characterizations -/

theorem Seg.intersection_eq_some_iff (s r : Seg) (p : Pt) :
    s.intersection r = some p ↔
      (Line.mk s.p0 s.p1).intersection (Line.mk r.p0 r.p1) = some p ∧
        p.bounded_by (BBox.new [r.p0, r.p1]) = true := by
  unfold Seg.intersection
  rcases h : (Line.mk s.p0 s.p1).intersection (Line.mk r.p0 r.p1) with _ | q
  · simp [Option.filter]
  · simp [Option.filter]
    constructor
    · rintro ⟨h1, rfl⟩
      exact ⟨rfl, h1⟩
    · rintro ⟨rfl, h2⟩
      exact ⟨h2, rfl⟩

theorem Line.intersection_onL (l r : Line) (p : Pt)
    (h : l.intersection r = some p) : onL l.p0 l.p1 p := by
  rw [Line.intersection_eq_ite] at h
  split_ifs at h with hden
  have hp := Option.some.inj h
  rw [← hp]
  unfold onL Pt.sub Pt.cross
  simp only
  ring

theorem Seg.intersection_point_onL (s r : Seg) (p : Pt)
    (h : s.intersection r = some p) : onL s.p0 s.p1 p := by
  have h' := (Seg.intersection_eq_some_iff s r p).mp h
  exact Line.intersection_onL _ _ _ h'.1

theorem Seg.intersection_degenerate (s r : Seg) (h : s.p0 = s.p1) :
    s.intersection r = none := by
  unfold Seg.intersection
  rw [Line.intersection_eq_ite, if_pos]
  · rfl
  · rw [h]
    simp [Pt.sub, Pt.cross]

theorem Seg.intersection_x_min_edge (s : Seg) (b : BBox) (hv : b.Valid) (hr : b.InRange) :
    s.intersection b.x_min_edge =
      if s.p0.x = s.p1.x ∨ b.y_min = b.y_max then none
      else if b.y_min ≤ yAt s.p0 s.p1 b.x_min ∧ yAt s.p0 s.p1 b.x_min ≤ b.y_max
        then some ⟨b.x_min, yAt s.p0 s.p1 b.x_min⟩
        else none := by
  obtain ⟨hvx, hvy⟩ := hv
  obtain ⟨hr1, hr2, hr3, hr4⟩ := hr
  unfold Seg.intersection BBox.x_min_edge
  rw [show (Line.mk s.p0 s.p1).intersection
        (Line.mk ⟨b.x_min, b.y_min⟩ ⟨b.x_min, b.y_max⟩) =
      if s.p0.x = s.p1.x ∨ b.y_min = b.y_max then none
      else some ⟨b.x_min, yAt s.p0 s.p1 b.x_min⟩
    from Line.intersection_vertical s.p0 s.p1 b.x_min b.y_min b.y_max]
  by_cases hc : s.p0.x = s.p1.x ∨ b.y_min = b.y_max
  · rw [if_pos hc, if_pos hc]
    rfl
  · rw [if_neg hc, if_neg hc]
    have hbb : BBox.new [(⟨b.x_min, b.y_min⟩ : Pt), ⟨b.x_min, b.y_max⟩] =
        ⟨⟨b.x_min, b.y_min⟩, ⟨b.x_min, b.y_max⟩⟩ := by
      rw [BBox.new_pair_in_range ⟨b.x_min, b.y_min⟩ ⟨b.x_min, b.y_max⟩
        ⟨hr1, hr3⟩ ⟨hr1, hr4⟩]
      simp only [min_self, max_self]
      congr 1 <;> refine Pt.eq_of_coords rfl ?_
      · exact min_eq_left hvy
      · exact max_eq_right hvy
    rw [hbb]
    simp only [Option.filter]
    have hpred : (Pt.bounded_by ⟨b.x_min, yAt s.p0 s.p1 b.x_min⟩
        ⟨⟨b.x_min, b.y_min⟩, ⟨b.x_min, b.y_max⟩⟩ = true) ↔
        (b.y_min ≤ yAt s.p0 s.p1 b.x_min ∧ yAt s.p0 s.p1 b.x_min ≤ b.y_max) := by
      rw [Pt.bounded_by_eq_true, BBox.check_eq_Within]
      simp only [BBox.x_min, BBox.x_max, BBox.y_min, BBox.y_max]
      constructor
      · tauto
      · intro hh
        exact ⟨⟨le_refl _, le_refl _⟩, hh⟩
    split_ifs with h1 h2 h2
    · rfl
    · exact absurd (hpred.mp h1) h2
    · exact absurd (hpred.mpr h2) h1
    · rfl

theorem Seg.intersection_x_max_edge (s : Seg) (b : BBox) (hv : b.Valid) (hr : b.InRange) :
    s.intersection b.x_max_edge =
      if s.p0.x = s.p1.x ∨ b.y_min = b.y_max then none
      else if b.y_min ≤ yAt s.p0 s.p1 b.x_max ∧ yAt s.p0 s.p1 b.x_max ≤ b.y_max
        then some ⟨b.x_max, yAt s.p0 s.p1 b.x_max⟩
        else none := by
  obtain ⟨hvx, hvy⟩ := hv
  obtain ⟨hr1, hr2, hr3, hr4⟩ := hr
  unfold Seg.intersection BBox.x_max_edge
  rw [show (Line.mk s.p0 s.p1).intersection
        (Line.mk ⟨b.x_max, b.y_min⟩ ⟨b.x_max, b.y_max⟩) =
      if s.p0.x = s.p1.x ∨ b.y_min = b.y_max then none
      else some ⟨b.x_max, yAt s.p0 s.p1 b.x_max⟩
    from Line.intersection_vertical s.p0 s.p1 b.x_max b.y_min b.y_max]
  by_cases hc : s.p0.x = s.p1.x ∨ b.y_min = b.y_max
  · rw [if_pos hc, if_pos hc]
    rfl
  · rw [if_neg hc, if_neg hc]
    have hbb : BBox.new [(⟨b.x_max, b.y_min⟩ : Pt), ⟨b.x_max, b.y_max⟩] =
        ⟨⟨b.x_max, b.y_min⟩, ⟨b.x_max, b.y_max⟩⟩ := by
      rw [BBox.new_pair_in_range ⟨b.x_max, b.y_min⟩ ⟨b.x_max, b.y_max⟩
        ⟨hr2, hr3⟩ ⟨hr2, hr4⟩]
      simp only [min_self, max_self]
      congr 1 <;> refine Pt.eq_of_coords rfl ?_
      · exact min_eq_left hvy
      · exact max_eq_right hvy
    rw [hbb]
    simp only [Option.filter]
    have hpred : (Pt.bounded_by ⟨b.x_max, yAt s.p0 s.p1 b.x_max⟩
        ⟨⟨b.x_max, b.y_min⟩, ⟨b.x_max, b.y_max⟩⟩ = true) ↔
        (b.y_min ≤ yAt s.p0 s.p1 b.x_max ∧ yAt s.p0 s.p1 b.x_max ≤ b.y_max) := by
      rw [Pt.bounded_by_eq_true, BBox.check_eq_Within]
      simp only [BBox.x_min, BBox.x_max, BBox.y_min, BBox.y_max]
      constructor
      · tauto
      · intro hh
        exact ⟨⟨le_refl _, le_refl _⟩, hh⟩
    split_ifs with h1 h2 h2
    · rfl
    · exact absurd (hpred.mp h1) h2
    · exact absurd (hpred.mpr h2) h1
    · rfl

theorem Seg.intersection_y_min_edge (s : Seg) (b : BBox) (hv : b.Valid) (hr : b.InRange) :
    s.intersection b.y_min_edge =
      if s.p0.y = s.p1.y ∨ b.x_min = b.x_max then none
      else if b.x_min ≤ xAt s.p0 s.p1 b.y_min ∧ xAt s.p0 s.p1 b.y_min ≤ b.x_max
        then some ⟨xAt s.p0 s.p1 b.y_min, b.y_min⟩
        else none := by
  obtain ⟨hvx, hvy⟩ := hv
  obtain ⟨hr1, hr2, hr3, hr4⟩ := hr
  unfold Seg.intersection BBox.y_min_edge
  rw [show (Line.mk s.p0 s.p1).intersection
        (Line.mk ⟨b.x_min, b.y_min⟩ ⟨b.x_max, b.y_min⟩) =
      if s.p0.y = s.p1.y ∨ b.x_min = b.x_max then none
      else some ⟨xAt s.p0 s.p1 b.y_min, b.y_min⟩
    from Line.intersection_horizontal s.p0 s.p1 b.y_min b.x_min b.x_max]
  by_cases hc : s.p0.y = s.p1.y ∨ b.x_min = b.x_max
  · rw [if_pos hc, if_pos hc]
    rfl
  · rw [if_neg hc, if_neg hc]
    have hbb : BBox.new [(⟨b.x_min, b.y_min⟩ : Pt), ⟨b.x_max, b.y_min⟩] =
        ⟨⟨b.x_min, b.y_min⟩, ⟨b.x_max, b.y_min⟩⟩ := by
      rw [BBox.new_pair_in_range ⟨b.x_min, b.y_min⟩ ⟨b.x_max, b.y_min⟩
        ⟨hr1, hr3⟩ ⟨hr2, hr3⟩]
      simp only [min_self, max_self]
      congr 1 <;> refine Pt.eq_of_coords ?_ rfl
      · exact min_eq_left hvx
      · exact max_eq_right hvx
    rw [hbb]
    simp only [Option.filter]
    have hpred : (Pt.bounded_by ⟨xAt s.p0 s.p1 b.y_min, b.y_min⟩
        ⟨⟨b.x_min, b.y_min⟩, ⟨b.x_max, b.y_min⟩⟩ = true) ↔
        (b.x_min ≤ xAt s.p0 s.p1 b.y_min ∧ xAt s.p0 s.p1 b.y_min ≤ b.x_max) := by
      rw [Pt.bounded_by_eq_true, BBox.check_eq_Within]
      simp only [BBox.x_min, BBox.x_max, BBox.y_min, BBox.y_max]
      constructor
      · tauto
      · intro hh
        exact ⟨hh, le_refl _, le_refl _⟩
    split_ifs with h1 h2 h2
    · rfl
    · exact absurd (hpred.mp h1) h2
    · exact absurd (hpred.mpr h2) h1
    · rfl

theorem Seg.intersection_y_max_edge (s : Seg) (b : BBox) (hv : b.Valid) (hr : b.InRange) :
    s.intersection b.y_max_edge =
      if s.p0.y = s.p1.y ∨ b.x_min = b.x_max then none
      else if b.x_min ≤ xAt s.p0 s.p1 b.y_max ∧ xAt s.p0 s.p1 b.y_max ≤ b.x_max
        then some ⟨xAt s.p0 s.p1 b.y_max, b.y_max⟩
        else none := by
  obtain ⟨hvx, hvy⟩ := hv
  obtain ⟨hr1, hr2, hr3, hr4⟩ := hr
  unfold Seg.intersection BBox.y_max_edge
  rw [show (Line.mk s.p0 s.p1).intersection
        (Line.mk ⟨b.x_min, b.y_max⟩ ⟨b.x_max, b.y_max⟩) =
      if s.p0.y = s.p1.y ∨ b.x_min = b.x_max then none
      else some ⟨xAt s.p0 s.p1 b.y_max, b.y_max⟩
    from Line.intersection_horizontal s.p0 s.p1 b.y_max b.x_min b.x_max]
  by_cases hc : s.p0.y = s.p1.y ∨ b.x_min = b.x_max
  · rw [if_pos hc, if_pos hc]
    rfl
  · rw [if_neg hc, if_neg hc]
    have hbb : BBox.new [(⟨b.x_min, b.y_max⟩ : Pt), ⟨b.x_max, b.y_max⟩] =
        ⟨⟨b.x_min, b.y_max⟩, ⟨b.x_max, b.y_max⟩⟩ := by
      rw [BBox.new_pair_in_range ⟨b.x_min, b.y_max⟩ ⟨b.x_max, b.y_max⟩
        ⟨hr1, hr4⟩ ⟨hr2, hr4⟩]
      simp only [min_self, max_self]
      congr 1 <;> refine Pt.eq_of_coords ?_ rfl
      · exact min_eq_left hvx
      · exact max_eq_right hvx
    rw [hbb]
    simp only [Option.filter]
    have hpred : (Pt.bounded_by ⟨xAt s.p0 s.p1 b.y_max, b.y_max⟩
        ⟨⟨b.x_min, b.y_max⟩, ⟨b.x_max, b.y_max⟩⟩ = true) ↔
        (b.x_min ≤ xAt s.p0 s.p1 b.y_max ∧ xAt s.p0 s.p1 b.y_max ≤ b.x_max) := by
      rw [Pt.bounded_by_eq_true, BBox.check_eq_Within]
      simp only [BBox.x_min, BBox.x_max, BBox.y_min, BBox.y_max]
      constructor
      · tauto
      · intro hh
        exact ⟨hh, le_refl _, le_refl _⟩
    split_ifs with h1 h2 h2
    · rfl
    · exact absurd (hpred.mp h1) h2
    · exact absurd (hpred.mpr h2) h1
    · rfl

theorem Seg.intersection_x_min_some_within (s : Seg) (b : BBox)
    (hv : b.Valid) (hr : b.InRange) (p : Pt)
    (h : s.intersection b.x_min_edge = some p) : b.check p.x p.y = Bounds.Within := by
  rw [Seg.intersection_x_min_edge s b hv hr] at h
  split_ifs at h with h1 h2
  rcases Option.some.inj h with rfl
  rw [BBox.check_eq_Within]
  exact ⟨⟨le_refl _, hv.1⟩, h2⟩

theorem Seg.intersection_x_max_some_within (s : Seg) (b : BBox)
    (hv : b.Valid) (hr : b.InRange) (p : Pt)
    (h : s.intersection b.x_max_edge = some p) : b.check p.x p.y = Bounds.Within := by
  rw [Seg.intersection_x_max_edge s b hv hr] at h
  split_ifs at h with h1 h2
  rcases Option.some.inj h with rfl
  rw [BBox.check_eq_Within]
  exact ⟨⟨hv.1, le_refl _⟩, h2⟩

theorem Seg.intersection_y_min_some_within (s : Seg) (b : BBox)
    (hv : b.Valid) (hr : b.InRange) (p : Pt)
    (h : s.intersection b.y_min_edge = some p) : b.check p.x p.y = Bounds.Within := by
  rw [Seg.intersection_y_min_edge s b hv hr] at h
  split_ifs at h with h1 h2
  rcases Option.some.inj h with rfl
  rw [BBox.check_eq_Within]
  exact ⟨h2, ⟨le_refl _, hv.2⟩⟩

theorem Seg.intersection_y_max_some_within (s : Seg) (b : BBox)
    (hv : b.Valid) (hr : b.InRange) (p : Pt)
    (h : s.intersection b.y_max_edge = some p) : b.check p.x p.y = Bounds.Within := by
  rw [Seg.intersection_y_max_edge s b hv hr] at h
  split_ifs at h with h1 h2
  rcases Option.some.inj h with rfl
  rw [BBox.check_eq_Within]
  exact ⟨h2, ⟨hv.2, le_refl _⟩⟩

/-! ### Tag groups and the overlap-test elimination principle -/

theorem BBox.check_left_group (b : BBox) (x y : ℚ) (h : x < b.x_min) :
    b.check x y = Bounds.Left ∨ b.check x y = Bounds.BelowLeft ∨
      b.check x y = Bounds.AboveLeft := by
  unfold BBox.check
  split_ifs <;> simp_all

theorem BBox.check_right_group (b : BBox) (x y : ℚ) (h1 : b.x_min ≤ x) (h2 : b.x_max < x) :
    b.check x y = Bounds.Right ∨ b.check x y = Bounds.BelowRight ∨
      b.check x y = Bounds.AboveRight := by
  unfold BBox.check
  split_ifs <;> simp_all
  all_goals linarith

theorem BBox.check_below_group (b : BBox) (x y : ℚ) (h : y < b.y_min) :
    b.check x y = Bounds.Below ∨ b.check x y = Bounds.BelowLeft ∨
      b.check x y = Bounds.BelowRight := by
  unfold BBox.check
  split_ifs <;> simp_all

theorem BBox.check_above_group (b : BBox) (x y : ℚ) (h1 : b.y_min ≤ y) (h2 : b.y_max < y) :
    b.check x y = Bounds.Above ∨ b.check x y = Bounds.AboveLeft ∨
      b.check x y = Bounds.AboveRight := by
  unfold BBox.check
  split_ifs <;> simp_all
  all_goals linarith

theorem Seg.bounded_not_both_left (s : Seg) (b : BBox) (h : s.bounded_by b = true) :
    ¬(s.p0.x < b.x_min ∧ s.p1.x < b.x_min) := by
  rintro ⟨h0, h1⟩
  rcases BBox.check_left_group b s.p0.x s.p0.y h0 with hc0 | hc0 | hc0 <;>
    rcases BBox.check_left_group b s.p1.x s.p1.y h1 with hc1 | hc1 | hc1 <;>
    simp [Seg.bounded_by, hc0, hc1] at h

theorem Seg.bounded_not_both_right (s : Seg) (b : BBox) (hv : b.Valid)
    (h : s.bounded_by b = true) :
    ¬(b.x_max < s.p0.x ∧ b.x_max < s.p1.x) := by
  rintro ⟨h0, h1⟩
  rcases BBox.check_right_group b s.p0.x s.p0.y (le_trans hv.1 h0.le) h0 with hc0 | hc0 | hc0 <;>
    rcases BBox.check_right_group b s.p1.x s.p1.y (le_trans hv.1 h1.le) h1 with hc1 | hc1 | hc1 <;>
    simp [Seg.bounded_by, hc0, hc1] at h

theorem Seg.bounded_not_both_below (s : Seg) (b : BBox) (h : s.bounded_by b = true) :
    ¬(s.p0.y < b.y_min ∧ s.p1.y < b.y_min) := by
  rintro ⟨h0, h1⟩
  rcases BBox.check_below_group b s.p0.x s.p0.y h0 with hc0 | hc0 | hc0 <;>
    rcases BBox.check_below_group b s.p1.x s.p1.y h1 with hc1 | hc1 | hc1 <;>
    simp [Seg.bounded_by, hc0, hc1] at h

theorem Seg.bounded_not_both_above (s : Seg) (b : BBox) (hv : b.Valid)
    (h : s.bounded_by b = true) :
    ¬(b.y_max < s.p0.y ∧ b.y_max < s.p1.y) := by
  rintro ⟨h0, h1⟩
  rcases BBox.check_above_group b s.p0.x s.p0.y (le_trans hv.2 h0.le) h0 with hc0 | hc0 | hc0 <;>
    rcases BBox.check_above_group b s.p1.x s.p1.y (le_trans hv.2 h1.le) h1 with hc1 | hc1 | hc1 <;>
    simp [Seg.bounded_by, hc0, hc1] at h

set_option maxHeartbeats 1000000 in
theorem Seg.bounded_true_elim (s : Seg) (b : BBox) (h : s.bounded_by b = true) :
    b.check s.p0.x s.p0.y = Bounds.Within ∨ b.check s.p1.x s.p1.y = Bounds.Within ∨
    (b.check s.p0.x s.p0.y = Bounds.Left ∧ b.check s.p1.x s.p1.y = Bounds.Right) ∨
    (b.check s.p0.x s.p0.y = Bounds.Right ∧ b.check s.p1.x s.p1.y = Bounds.Left) ∨
    (b.check s.p0.x s.p0.y = Bounds.Below ∧ b.check s.p1.x s.p1.y = Bounds.Above) ∨
    (b.check s.p0.x s.p0.y = Bounds.Above ∧ b.check s.p1.x s.p1.y = Bounds.Below) ∨
    s.intersects b.x_min_edge = true ∨ s.intersects b.x_max_edge = true ∨
    s.intersects b.y_min_edge = true ∨ s.intersects b.y_max_edge = true := by
  unfold Seg.bounded_by at h
  generalize b.check s.p0.x s.p0.y = t0 at h ⊢
  generalize b.check s.p1.x s.p1.y = t1 at h ⊢
  cases t0 <;> cases t1 <;> (try simp at h) <;>
    first
      | exact Or.inl rfl
      | exact Or.inr (Or.inl rfl)
      | exact Or.inr (Or.inr (Or.inl ⟨rfl, rfl⟩))
      | exact Or.inr (Or.inr (Or.inr (Or.inl ⟨rfl, rfl⟩)))
      | exact Or.inr (Or.inr (Or.inr (Or.inr (Or.inl ⟨rfl, rfl⟩))))
      | exact Or.inr (Or.inr (Or.inr (Or.inr (Or.inr (Or.inl ⟨rfl, rfl⟩)))))
      | exact Or.inr (Or.inr (Or.inr (Or.inr (Or.inr (Or.inr (Or.inl h))))))
      | exact Or.inr (Or.inr (Or.inr (Or.inr (Or.inr (Or.inr (Or.inr (Or.inl h)))))))
      | exact Or.inr (Or.inr (Or.inr (Or.inr (Or.inr (Or.inr (Or.inr (Or.inr (Or.inl h))))))))
      | exact Or.inr (Or.inr (Or.inr (Or.inr (Or.inr (Or.inr (Or.inr (Or.inr (Or.inr h))))))))
      | (rcases h with h | h <;>
          first
            | exact Or.inr (Or.inr (Or.inr (Or.inr (Or.inr (Or.inr (Or.inl h))))))
            | exact Or.inr (Or.inr (Or.inr (Or.inr (Or.inr (Or.inr (Or.inr (Or.inl h)))))))
            | exact Or.inr (Or.inr (Or.inr (Or.inr (Or.inr (Or.inr (Or.inr (Or.inr (Or.inl h))))))))
            | exact Or.inr (Or.inr (Or.inr (Or.inr (Or.inr (Or.inr (Or.inr (Or.inr (Or.inr h)))))))))

/-! ### Crossing predicates on the segment's infinite line -/

/-- The segment's line is non-vertical and meets the vertical line `x = c`
within the box's y-extent. -/
def CrossV (s : Seg) (b : BBox) (c : ℚ) : Prop :=
  s.p0.x ≠ s.p1.x ∧ b.y_min ≤ yAt s.p0 s.p1 c ∧ yAt s.p0 s.p1 c ≤ b.y_max

/-- The segment's line is non-horizontal and meets the horizontal line `y = c`
within the box's x-extent. -/
def CrossH (s : Seg) (b : BBox) (c : ℚ) : Prop :=
  s.p0.y ≠ s.p1.y ∧ b.x_min ≤ xAt s.p0 s.p1 c ∧ xAt s.p0 s.p1 c ≤ b.x_max

theorem Seg.intersects_x_min_iff (s : Seg) (b : BBox) (hv : b.Valid) (hr : b.InRange)
    (hyy : b.y_min ≠ b.y_max) :
    s.intersects b.x_min_edge = true ↔ CrossV s b b.x_min := by
  unfold Seg.intersects
  rw [Seg.intersection_x_min_edge s b hv hr]
  split_ifs with h1 h2
  · simp only [Option.isSome_none, Bool.false_eq_true, false_iff]
    rintro ⟨ha, _⟩
    exact ha (h1.resolve_right hyy)
  · simp only [Option.isSome_some, true_iff]
    exact ⟨(not_or.mp h1).1, h2⟩
  · simp only [Option.isSome_none, Bool.false_eq_true, false_iff]
    rintro ⟨_, hb⟩
    exact h2 hb

theorem Seg.intersects_x_max_iff (s : Seg) (b : BBox) (hv : b.Valid) (hr : b.InRange)
    (hyy : b.y_min ≠ b.y_max) :
    s.intersects b.x_max_edge = true ↔ CrossV s b b.x_max := by
  unfold Seg.intersects
  rw [Seg.intersection_x_max_edge s b hv hr]
  split_ifs with h1 h2
  · simp only [Option.isSome_none, Bool.false_eq_true, false_iff]
    rintro ⟨ha, _⟩
    exact ha (h1.resolve_right hyy)
  · simp only [Option.isSome_some, true_iff]
    exact ⟨(not_or.mp h1).1, h2⟩
  · simp only [Option.isSome_none, Bool.false_eq_true, false_iff]
    rintro ⟨_, hb⟩
    exact h2 hb

theorem Seg.intersects_y_min_iff (s : Seg) (b : BBox) (hv : b.Valid) (hr : b.InRange)
    (hxx : b.x_min ≠ b.x_max) :
    s.intersects b.y_min_edge = true ↔ CrossH s b b.y_min := by
  unfold Seg.intersects
  rw [Seg.intersection_y_min_edge s b hv hr]
  split_ifs with h1 h2
  · simp only [Option.isSome_none, Bool.false_eq_true, false_iff]
    rintro ⟨ha, _⟩
    exact ha (h1.resolve_right hxx)
  · simp only [Option.isSome_some, true_iff]
    exact ⟨(not_or.mp h1).1, h2⟩
  · simp only [Option.isSome_none, Bool.false_eq_true, false_iff]
    rintro ⟨_, hb⟩
    exact h2 hb

theorem Seg.intersects_y_max_iff (s : Seg) (b : BBox) (hv : b.Valid) (hr : b.InRange)
    (hxx : b.x_min ≠ b.x_max) :
    s.intersects b.y_max_edge = true ↔ CrossH s b b.y_max := by
  unfold Seg.intersects
  rw [Seg.intersection_y_max_edge s b hv hr]
  split_ifs with h1 h2
  · simp only [Option.isSome_none, Bool.false_eq_true, false_iff]
    rintro ⟨ha, _⟩
    exact ha (h1.resolve_right hxx)
  · simp only [Option.isSome_some, true_iff]
    exact ⟨(not_or.mp h1).1, h2⟩
  · simp only [Option.isSome_none, Bool.false_eq_true, false_iff]
    rintro ⟨_, hb⟩
    exact h2 hb

/-! ### Determinacy of coordinates along a line -/

theorem onL_same_x (P Q A B : Pt) (hA : onL P Q A) (hB : onL P Q B)
    (hAB : A ≠ B) (h : A.x = B.x) : P.x = Q.x := by
  by_contra hne
  have h1 := onL_yAt P Q A hA hne
  have h2 := onL_yAt P Q B hB hne
  exact hAB (Pt.eq_of_coords h (by rw [h1, h2, h]))

theorem onL_same_y (P Q A B : Pt) (hA : onL P Q A) (hB : onL P Q B)
    (hAB : A ≠ B) (h : A.y = B.y) : P.y = Q.y := by
  by_contra hne
  have h1 := onL_xAt P Q A hA hne
  have h2 := onL_xAt P Q B hB hne
  exact hAB (Pt.eq_of_coords (by rw [h1, h2, h]) h)

/-! ### Per-edge clip stage facts -/

theorem Seg.clip_x_min_eq_some (s : Seg) (b : BBox) (p : Pt)
    (h : s.intersection b.x_min_edge = some p) :
    s.clip_x_min b = if s.p0.x < b.x_min then ⟨p, s.p1⟩
      else if s.p1.x < b.x_min then ⟨s.p0, p⟩ else s := by
  unfold Seg.clip_x_min
  rw [h]

theorem Seg.clip_x_min_eq_none (s : Seg) (b : BBox)
    (h : s.intersection b.x_min_edge = none) : s.clip_x_min b = s := by
  unfold Seg.clip_x_min
  rw [h]

theorem Seg.clip_x_min_p0_cases (s : Seg) (b : BBox) :
    (s.clip_x_min b).p0 = s.p0 ∨
      (s.intersection b.x_min_edge = some ((s.clip_x_min b).p0) ∧ s.p0.x < b.x_min) := by
  rcases h : s.intersection b.x_min_edge with _ | p
  · rw [Seg.clip_x_min_eq_none s b h]
    exact Or.inl rfl
  · rw [Seg.clip_x_min_eq_some s b p h]
    split_ifs with c1 c2
    · exact Or.inr ⟨rfl, c1⟩
    · exact Or.inl rfl
    · exact Or.inl rfl

theorem Seg.clip_x_min_p1_cases (s : Seg) (b : BBox) :
    (s.clip_x_min b).p1 = s.p1 ∨
      (s.intersection b.x_min_edge = some ((s.clip_x_min b).p1) ∧ s.p1.x < b.x_min ∧
        ¬(s.p0.x < b.x_min)) := by
  rcases h : s.intersection b.x_min_edge with _ | p
  · rw [Seg.clip_x_min_eq_none s b h]
    exact Or.inl rfl
  · rw [Seg.clip_x_min_eq_some s b p h]
    split_ifs with c1 c2
    · exact Or.inl rfl
    · exact Or.inr ⟨rfl, c2, c1⟩
    · exact Or.inl rfl

theorem Seg.clip_x_min_stuck_p0 (s : Seg) (b : BBox) (hv : b.Valid) (hr : b.InRange)
    (hlt : s.p0.x < b.x_min) (heq : (s.clip_x_min b).p0 = s.p0) :
    s.intersection b.x_min_edge = none := by
  rcases h : s.intersection b.x_min_edge with _ | p
  · rfl
  · exfalso
    rw [Seg.clip_x_min_eq_some s b p h, if_pos hlt] at heq
    have hps : p = s.p0 := heq
    have hw := Seg.intersection_x_min_some_within s b hv hr p h
    rw [BBox.check_eq_Within] at hw
    rw [hps] at hw
    exact absurd hlt (not_lt.mpr hw.1.1)

theorem Seg.clip_x_min_stuck_p1 (s : Seg) (b : BBox) (hv : b.Valid) (hr : b.InRange)
    (hlt : s.p1.x < b.x_min) (hge : ¬(s.p0.x < b.x_min))
    (heq : (s.clip_x_min b).p1 = s.p1) :
    s.intersection b.x_min_edge = none := by
  rcases h : s.intersection b.x_min_edge with _ | p
  · rfl
  · exfalso
    rw [Seg.clip_x_min_eq_some s b p h, if_neg hge, if_pos hlt] at heq
    have hps : p = s.p1 := heq
    have hw := Seg.intersection_x_min_some_within s b hv hr p h
    rw [BBox.check_eq_Within] at hw
    rw [hps] at hw
    exact absurd hlt (not_lt.mpr hw.1.1)

theorem Seg.clip_x_min_noop (s : Seg) (b : BBox)
    (h0 : ¬(s.p0.x < b.x_min)) (h1 : ¬(s.p1.x < b.x_min)) :
    s.clip_x_min b = s := by
  rcases h : s.intersection b.x_min_edge with _ | p
  · exact Seg.clip_x_min_eq_none s b h
  · rw [Seg.clip_x_min_eq_some s b p h, if_neg h0, if_neg h1]

theorem Seg.clip_x_min_nonviol (s : Seg) (b : BBox) (hv : b.Valid) (hr : b.InRange)
    (p : Pt) (hsome : s.intersection b.x_min_edge = some p)
    (hnb : ¬(s.p0.x < b.x_min ∧ s.p1.x < b.x_min)) :
    ¬((s.clip_x_min b).p0.x < b.x_min) ∧ ¬((s.clip_x_min b).p1.x < b.x_min) := by
  have hw := Seg.intersection_x_min_some_within s b hv hr p hsome
  rw [BBox.check_eq_Within] at hw
  rw [Seg.clip_x_min_eq_some s b p hsome]
  split_ifs with c1 c2
  · refine ⟨fun hc => ?_, fun hc => hnb ⟨c1, hc⟩⟩
    exact absurd hc (not_lt.mpr hw.1.1)
  · refine ⟨c1, fun hc => ?_⟩
    exact absurd hc (not_lt.mpr hw.1.1)
  · exact ⟨c1, c2⟩

theorem Seg.clip_x_max_eq_some (s : Seg) (b : BBox) (p : Pt)
    (h : s.intersection b.x_max_edge = some p) :
    s.clip_x_max b = if s.p0.x > b.x_max then ⟨p, s.p1⟩
      else if s.p1.x > b.x_max then ⟨s.p0, p⟩ else s := by
  unfold Seg.clip_x_max
  rw [h]

theorem Seg.clip_x_max_eq_none (s : Seg) (b : BBox)
    (h : s.intersection b.x_max_edge = none) : s.clip_x_max b = s := by
  unfold Seg.clip_x_max
  rw [h]

theorem Seg.clip_x_max_p0_cases (s : Seg) (b : BBox) :
    (s.clip_x_max b).p0 = s.p0 ∨
      (s.intersection b.x_max_edge = some ((s.clip_x_max b).p0) ∧ s.p0.x > b.x_max) := by
  rcases h : s.intersection b.x_max_edge with _ | p
  · rw [Seg.clip_x_max_eq_none s b h]
    exact Or.inl rfl
  · rw [Seg.clip_x_max_eq_some s b p h]
    split_ifs with c1 c2
    · exact Or.inr ⟨rfl, c1⟩
    · exact Or.inl rfl
    · exact Or.inl rfl

theorem Seg.clip_x_max_p1_cases (s : Seg) (b : BBox) :
    (s.clip_x_max b).p1 = s.p1 ∨
      (s.intersection b.x_max_edge = some ((s.clip_x_max b).p1) ∧ s.p1.x > b.x_max ∧
        ¬(s.p0.x > b.x_max)) := by
  rcases h : s.intersection b.x_max_edge with _ | p
  · rw [Seg.clip_x_max_eq_none s b h]
    exact Or.inl rfl
  · rw [Seg.clip_x_max_eq_some s b p h]
    split_ifs with c1 c2
    · exact Or.inl rfl
    · exact Or.inr ⟨rfl, c2, c1⟩
    · exact Or.inl rfl

theorem Seg.clip_x_max_stuck_p0 (s : Seg) (b : BBox) (hv : b.Valid) (hr : b.InRange)
    (hlt : s.p0.x > b.x_max) (heq : (s.clip_x_max b).p0 = s.p0) :
    s.intersection b.x_max_edge = none := by
  rcases h : s.intersection b.x_max_edge with _ | p
  · rfl
  · exfalso
    rw [Seg.clip_x_max_eq_some s b p h, if_pos hlt] at heq
    have hps : p = s.p0 := heq
    have hw := Seg.intersection_x_max_some_within s b hv hr p h
    rw [BBox.check_eq_Within] at hw
    rw [hps] at hw
    exact absurd hlt (not_lt.mpr hw.1.2)

theorem Seg.clip_x_max_stuck_p1 (s : Seg) (b : BBox) (hv : b.Valid) (hr : b.InRange)
    (hlt : s.p1.x > b.x_max) (hge : ¬(s.p0.x > b.x_max))
    (heq : (s.clip_x_max b).p1 = s.p1) :
    s.intersection b.x_max_edge = none := by
  rcases h : s.intersection b.x_max_edge with _ | p
  · rfl
  · exfalso
    rw [Seg.clip_x_max_eq_some s b p h, if_neg hge, if_pos hlt] at heq
    have hps : p = s.p1 := heq
    have hw := Seg.intersection_x_max_some_within s b hv hr p h
    rw [BBox.check_eq_Within] at hw
    rw [hps] at hw
    exact absurd hlt (not_lt.mpr hw.1.2)

theorem Seg.clip_x_max_noop (s : Seg) (b : BBox)
    (h0 : ¬(s.p0.x > b.x_max)) (h1 : ¬(s.p1.x > b.x_max)) :
    s.clip_x_max b = s := by
  rcases h : s.intersection b.x_max_edge with _ | p
  · exact Seg.clip_x_max_eq_none s b h
  · rw [Seg.clip_x_max_eq_some s b p h, if_neg h0, if_neg h1]

theorem Seg.clip_x_max_nonviol (s : Seg) (b : BBox) (hv : b.Valid) (hr : b.InRange)
    (p : Pt) (hsome : s.intersection b.x_max_edge = some p)
    (hnb : ¬(s.p0.x > b.x_max ∧ s.p1.x > b.x_max)) :
    ¬((s.clip_x_max b).p0.x > b.x_max) ∧ ¬((s.clip_x_max b).p1.x > b.x_max) := by
  have hw := Seg.intersection_x_max_some_within s b hv hr p hsome
  rw [BBox.check_eq_Within] at hw
  rw [Seg.clip_x_max_eq_some s b p hsome]
  split_ifs with c1 c2
  · refine ⟨fun hc => ?_, fun hc => hnb ⟨c1, hc⟩⟩
    exact absurd hc (not_lt.mpr hw.1.2)
  · refine ⟨c1, fun hc => ?_⟩
    exact absurd hc (not_lt.mpr hw.1.2)
  · exact ⟨c1, c2⟩

theorem Seg.clip_y_min_eq_some (s : Seg) (b : BBox) (p : Pt)
    (h : s.intersection b.y_min_edge = some p) :
    s.clip_y_min b = if s.p0.y < b.y_min then ⟨p, s.p1⟩
      else if s.p1.y < b.y_min then ⟨s.p0, p⟩ else s := by
  unfold Seg.clip_y_min
  rw [h]

theorem Seg.clip_y_min_eq_none (s : Seg) (b : BBox)
    (h : s.intersection b.y_min_edge = none) : s.clip_y_min b = s := by
  unfold Seg.clip_y_min
  rw [h]

theorem Seg.clip_y_min_p0_cases (s : Seg) (b : BBox) :
    (s.clip_y_min b).p0 = s.p0 ∨
      (s.intersection b.y_min_edge = some ((s.clip_y_min b).p0) ∧ s.p0.y < b.y_min) := by
  rcases h : s.intersection b.y_min_edge with _ | p
  · rw [Seg.clip_y_min_eq_none s b h]
    exact Or.inl rfl
  · rw [Seg.clip_y_min_eq_some s b p h]
    split_ifs with c1 c2
    · exact Or.inr ⟨rfl, c1⟩
    · exact Or.inl rfl
    · exact Or.inl rfl

theorem Seg.clip_y_min_p1_cases (s : Seg) (b : BBox) :
    (s.clip_y_min b).p1 = s.p1 ∨
      (s.intersection b.y_min_edge = some ((s.clip_y_min b).p1) ∧ s.p1.y < b.y_min ∧
        ¬(s.p0.y < b.y_min)) := by
  rcases h : s.intersection b.y_min_edge with _ | p
  · rw [Seg.clip_y_min_eq_none s b h]
    exact Or.inl rfl
  · rw [Seg.clip_y_min_eq_some s b p h]
    split_ifs with c1 c2
    · exact Or.inl rfl
    · exact Or.inr ⟨rfl, c2, c1⟩
    · exact Or.inl rfl

theorem Seg.clip_y_min_stuck_p0 (s : Seg) (b : BBox) (hv : b.Valid) (hr : b.InRange)
    (hlt : s.p0.y < b.y_min) (heq : (s.clip_y_min b).p0 = s.p0) :
    s.intersection b.y_min_edge = none := by
  rcases h : s.intersection b.y_min_edge with _ | p
  · rfl
  · exfalso
    rw [Seg.clip_y_min_eq_some s b p h, if_pos hlt] at heq
    have hps : p = s.p0 := heq
    have hw := Seg.intersection_y_min_some_within s b hv hr p h
    rw [BBox.check_eq_Within] at hw
    rw [hps] at hw
    exact absurd hlt (not_lt.mpr hw.2.1)

theorem Seg.clip_y_min_stuck_p1 (s : Seg) (b : BBox) (hv : b.Valid) (hr : b.InRange)
    (hlt : s.p1.y < b.y_min) (hge : ¬(s.p0.y < b.y_min))
    (heq : (s.clip_y_min b).p1 = s.p1) :
    s.intersection b.y_min_edge = none := by
  rcases h : s.intersection b.y_min_edge with _ | p
  · rfl
  · exfalso
    rw [Seg.clip_y_min_eq_some s b p h, if_neg hge, if_pos hlt] at heq
    have hps : p = s.p1 := heq
    have hw := Seg.intersection_y_min_some_within s b hv hr p h
    rw [BBox.check_eq_Within] at hw
    rw [hps] at hw
    exact absurd hlt (not_lt.mpr hw.2.1)

theorem Seg.clip_y_min_noop (s : Seg) (b : BBox)
    (h0 : ¬(s.p0.y < b.y_min)) (h1 : ¬(s.p1.y < b.y_min)) :
    s.clip_y_min b = s := by
  rcases h : s.intersection b.y_min_edge with _ | p
  · exact Seg.clip_y_min_eq_none s b h
  · rw [Seg.clip_y_min_eq_some s b p h, if_neg h0, if_neg h1]

theorem Seg.clip_y_min_nonviol (s : Seg) (b : BBox) (hv : b.Valid) (hr : b.InRange)
    (p : Pt) (hsome : s.intersection b.y_min_edge = some p)
    (hnb : ¬(s.p0.y < b.y_min ∧ s.p1.y < b.y_min)) :
    ¬((s.clip_y_min b).p0.y < b.y_min) ∧ ¬((s.clip_y_min b).p1.y < b.y_min) := by
  have hw := Seg.intersection_y_min_some_within s b hv hr p hsome
  rw [BBox.check_eq_Within] at hw
  rw [Seg.clip_y_min_eq_some s b p hsome]
  split_ifs with c1 c2
  · refine ⟨fun hc => ?_, fun hc => hnb ⟨c1, hc⟩⟩
    exact absurd hc (not_lt.mpr hw.2.1)
  · refine ⟨c1, fun hc => ?_⟩
    exact absurd hc (not_lt.mpr hw.2.1)
  · exact ⟨c1, c2⟩

theorem Seg.clip_y_max_eq_some (s : Seg) (b : BBox) (p : Pt)
    (h : s.intersection b.y_max_edge = some p) :
    s.clip_y_max b = if s.p0.y > b.y_max then ⟨p, s.p1⟩
      else if s.p1.y > b.y_max then ⟨s.p0, p⟩ else s := by
  unfold Seg.clip_y_max
  rw [h]

theorem Seg.clip_y_max_eq_none (s : Seg) (b : BBox)
    (h : s.intersection b.y_max_edge = none) : s.clip_y_max b = s := by
  unfold Seg.clip_y_max
  rw [h]

theorem Seg.clip_y_max_p0_cases (s : Seg) (b : BBox) :
    (s.clip_y_max b).p0 = s.p0 ∨
      (s.intersection b.y_max_edge = some ((s.clip_y_max b).p0) ∧ s.p0.y > b.y_max) := by
  rcases h : s.intersection b.y_max_edge with _ | p
  · rw [Seg.clip_y_max_eq_none s b h]
    exact Or.inl rfl
  · rw [Seg.clip_y_max_eq_some s b p h]
    split_ifs with c1 c2
    · exact Or.inr ⟨rfl, c1⟩
    · exact Or.inl rfl
    · exact Or.inl rfl

theorem Seg.clip_y_max_p1_cases (s : Seg) (b : BBox) :
    (s.clip_y_max b).p1 = s.p1 ∨
      (s.intersection b.y_max_edge = some ((s.clip_y_max b).p1) ∧ s.p1.y > b.y_max ∧
        ¬(s.p0.y > b.y_max)) := by
  rcases h : s.intersection b.y_max_edge with _ | p
  · rw [Seg.clip_y_max_eq_none s b h]
    exact Or.inl rfl
  · rw [Seg.clip_y_max_eq_some s b p h]
    split_ifs with c1 c2
    · exact Or.inl rfl
    · exact Or.inr ⟨rfl, c2, c1⟩
    · exact Or.inl rfl

theorem Seg.clip_y_max_stuck_p0 (s : Seg) (b : BBox) (hv : b.Valid) (hr : b.InRange)
    (hlt : s.p0.y > b.y_max) (heq : (s.clip_y_max b).p0 = s.p0) :
    s.intersection b.y_max_edge = none := by
  rcases h : s.intersection b.y_max_edge with _ | p
  · rfl
  · exfalso
    rw [Seg.clip_y_max_eq_some s b p h, if_pos hlt] at heq
    have hps : p = s.p0 := heq
    have hw := Seg.intersection_y_max_some_within s b hv hr p h
    rw [BBox.check_eq_Within] at hw
    rw [hps] at hw
    exact absurd hlt (not_lt.mpr hw.2.2)

theorem Seg.clip_y_max_stuck_p1 (s : Seg) (b : BBox) (hv : b.Valid) (hr : b.InRange)
    (hlt : s.p1.y > b.y_max) (hge : ¬(s.p0.y > b.y_max))
    (heq : (s.clip_y_max b).p1 = s.p1) :
    s.intersection b.y_max_edge = none := by
  rcases h : s.intersection b.y_max_edge with _ | p
  · rfl
  · exfalso
    rw [Seg.clip_y_max_eq_some s b p h, if_neg hge, if_pos hlt] at heq
    have hps : p = s.p1 := heq
    have hw := Seg.intersection_y_max_some_within s b hv hr p h
    rw [BBox.check_eq_Within] at hw
    rw [hps] at hw
    exact absurd hlt (not_lt.mpr hw.2.2)

theorem Seg.clip_y_max_noop (s : Seg) (b : BBox)
    (h0 : ¬(s.p0.y > b.y_max)) (h1 : ¬(s.p1.y > b.y_max)) :
    s.clip_y_max b = s := by
  rcases h : s.intersection b.y_max_edge with _ | p
  · exact Seg.clip_y_max_eq_none s b h
  · rw [Seg.clip_y_max_eq_some s b p h, if_neg h0, if_neg h1]

theorem Seg.clip_y_max_nonviol (s : Seg) (b : BBox) (hv : b.Valid) (hr : b.InRange)
    (p : Pt) (hsome : s.intersection b.y_max_edge = some p)
    (hnb : ¬(s.p0.y > b.y_max ∧ s.p1.y > b.y_max)) :
    ¬((s.clip_y_max b).p0.y > b.y_max) ∧ ¬((s.clip_y_max b).p1.y > b.y_max) := by
  have hw := Seg.intersection_y_max_some_within s b hv hr p hsome
  rw [BBox.check_eq_Within] at hw
  rw [Seg.clip_y_max_eq_some s b p hsome]
  split_ifs with c1 c2
  · refine ⟨fun hc => ?_, fun hc => hnb ⟨c1, hc⟩⟩
    exact absurd hc (not_lt.mpr hw.2.2)
  · refine ⟨c1, fun hc => ?_⟩
    exact absurd hc (not_lt.mpr hw.2.2)
  · exact ⟨c1, c2⟩

/-! ### Transfer of crossing information between segments of one line -/

theorem crossV_none_transfer_x_min (s r : Seg) (b : BBox) (hv : b.Valid) (hr : b.InRange)
    (hdeg : b.y_min ≠ b.y_max) (h0 : onL s.p0 s.p1 r.p0) (h1 : onL s.p0 s.p1 r.p1)
    (hrd : r.p0 ≠ r.p1) (hnone : r.intersection b.x_min_edge = none) :
    ¬ CrossV s b b.x_min := by
  rw [Seg.intersection_x_min_edge r b hv hr] at hnone
  rintro ⟨hsx, hy1, hy2⟩
  split_ifs at hnone with c1 c2
  · rcases c1 with c1 | c1
    · exact hsx (onL_same_x s.p0 s.p1 r.p0 r.p1 h0 h1 hrd c1)
    · exact hdeg c1
  · apply c2
    rw [yAt_congr s.p0 s.p1 r.p0 r.p1 h0 h1 hsx (not_or.mp c1).1]
    exact ⟨hy1, hy2⟩

theorem crossV_none_transfer_x_max (s r : Seg) (b : BBox) (hv : b.Valid) (hr : b.InRange)
    (hdeg : b.y_min ≠ b.y_max) (h0 : onL s.p0 s.p1 r.p0) (h1 : onL s.p0 s.p1 r.p1)
    (hrd : r.p0 ≠ r.p1) (hnone : r.intersection b.x_max_edge = none) :
    ¬ CrossV s b b.x_max := by
  rw [Seg.intersection_x_max_edge r b hv hr] at hnone
  rintro ⟨hsx, hy1, hy2⟩
  split_ifs at hnone with c1 c2
  · rcases c1 with c1 | c1
    · exact hsx (onL_same_x s.p0 s.p1 r.p0 r.p1 h0 h1 hrd c1)
    · exact hdeg c1
  · apply c2
    rw [yAt_congr s.p0 s.p1 r.p0 r.p1 h0 h1 hsx (not_or.mp c1).1]
    exact ⟨hy1, hy2⟩

theorem crossH_none_transfer_y_min (s r : Seg) (b : BBox) (hv : b.Valid) (hr : b.InRange)
    (hdeg : b.x_min ≠ b.x_max) (h0 : onL s.p0 s.p1 r.p0) (h1 : onL s.p0 s.p1 r.p1)
    (hrd : r.p0 ≠ r.p1) (hnone : r.intersection b.y_min_edge = none) :
    ¬ CrossH s b b.y_min := by
  rw [Seg.intersection_y_min_edge r b hv hr] at hnone
  rintro ⟨hsx, hy1, hy2⟩
  split_ifs at hnone with c1 c2
  · rcases c1 with c1 | c1
    · exact hsx (onL_same_y s.p0 s.p1 r.p0 r.p1 h0 h1 hrd c1)
    · exact hdeg c1
  · apply c2
    rw [xAt_congr s.p0 s.p1 r.p0 r.p1 h0 h1 hsx (not_or.mp c1).1]
    exact ⟨hy1, hy2⟩

theorem crossH_none_transfer_y_max (s r : Seg) (b : BBox) (hv : b.Valid) (hr : b.InRange)
    (hdeg : b.x_min ≠ b.x_max) (h0 : onL s.p0 s.p1 r.p0) (h1 : onL s.p0 s.p1 r.p1)
    (hrd : r.p0 ≠ r.p1) (hnone : r.intersection b.y_max_edge = none) :
    ¬ CrossH s b b.y_max := by
  rw [Seg.intersection_y_max_edge r b hv hr] at hnone
  rintro ⟨hsx, hy1, hy2⟩
  split_ifs at hnone with c1 c2
  · rcases c1 with c1 | c1
    · exact hsx (onL_same_y s.p0 s.p1 r.p0 r.p1 h0 h1 hrd c1)
    · exact hdeg c1
  · apply c2
    rw [xAt_congr s.p0 s.p1 r.p0 r.p1 h0 h1 hsx (not_or.mp c1).1]
    exact ⟨hy1, hy2⟩

/-! ### Crossing bounds derived from two points of the line -/

theorem yAt_between_onL (s : Seg) (a b : Pt) (ha : onL s.p0 s.p1 a) (hb : onL s.p0 s.p1 b)
    (hnv : s.p0.x ≠ s.p1.x) (hab : a.x ≠ b.x) (c : ℚ)
    (h1 : min a.x b.x ≤ c) (h2 : c ≤ max a.x b.x) :
    min a.y b.y ≤ yAt s.p0 s.p1 c ∧ yAt s.p0 s.p1 c ≤ max a.y b.y := by
  have h := yAt_between a b hab c h1 h2
  rwa [yAt_congr s.p0 s.p1 a b ha hb hnv hab c] at h

theorem xAt_between_onL (s : Seg) (a b : Pt) (ha : onL s.p0 s.p1 a) (hb : onL s.p0 s.p1 b)
    (hnh : s.p0.y ≠ s.p1.y) (hab : a.y ≠ b.y) (c : ℚ)
    (h1 : min a.y b.y ≤ c) (h2 : c ≤ max a.y b.y) :
    min a.x b.x ≤ xAt s.p0 s.p1 c ∧ xAt s.p0 s.p1 c ≤ max a.x b.x := by
  have h := xAt_between a b hab c h1 h2
  rwa [xAt_congr s.p0 s.p1 a b ha hb hnh hab c] at h

theorem onL_ne_x (s : Seg) (A B : Pt) (hA : onL s.p0 s.p1 A) (hB : onL s.p0 s.p1 B)
    (hnd : s.p0 ≠ s.p1) (h : A.x ≠ B.x) : s.p0.x ≠ s.p1.x := by
  intro hveq
  apply h
  rw [onL_vertical s.p0 s.p1 A hA hveq hnd, onL_vertical s.p0 s.p1 B hB hveq hnd]

theorem onL_ne_y (s : Seg) (A B : Pt) (hA : onL s.p0 s.p1 A) (hB : onL s.p0 s.p1 B)
    (hnd : s.p0 ≠ s.p1) (h : A.y ≠ B.y) : s.p0.y ≠ s.p1.y := by
  intro hheq
  apply h
  rw [onL_horizontal s.p0 s.p1 A hA hheq hnd, onL_horizontal s.p0 s.p1 B hB hheq hnd]

/-- Core geometric fact behind clip containment: when some point `w` of the
segment's line lies in the closed box, an endpoint `o` of the segment cannot
classify outside the box while every edge crossing implicated by its
violations is missing. -/
theorem geo_core (s : Seg) (b : BBox) (hv : b.Valid) (hnd : s.p0 ≠ s.p1) (o w : Pt)
    (hoL : onL s.p0 s.p1 o) (hwL : onL s.p0 s.p1 w)
    (hwx : b.x_min ≤ w.x ∧ w.x ≤ b.x_max) (hwy : b.y_min ≤ w.y ∧ w.y ≤ b.y_max)
    (ho : b.check o.x o.y ≠ Bounds.Within)
    (nx0 : o.x < b.x_min → ¬ CrossV s b b.x_min)
    (nx1 : b.x_max < o.x → ¬ CrossV s b b.x_max)
    (ny0 : o.y < b.y_min → ¬ CrossH s b b.y_min)
    (ny1 : b.y_max < o.y → ¬ CrossH s b b.y_max) : False := by
  have hvx := hv.1
  have hvy := hv.2
  rcases lt_or_le o.x b.x_min with hx | hx
  · have hox : o.x ≠ w.x := by
      intro hh
      rw [hh] at hx
      exact absurd hx (not_lt.mpr hwx.1)
    have hnv : s.p0.x ≠ s.p1.x := onL_ne_x s o w hoL hwL hnd hox
    have hq := yAt_between_onL s o w hoL hwL hnv hox b.x_min
      (le_trans (min_le_left _ _) hx.le) (le_trans hwx.1 (le_max_right _ _))
    rcases lt_or_le o.y b.y_min with hy | hy
    · by_cases hq1 : b.y_min ≤ yAt s.p0 s.p1 b.x_min
      · exact nx0 hx ⟨hnv, hq1, le_trans hq.2 (max_le (le_trans hy.le hvy) hwy.2)⟩
      · push_neg at hq1
        have hgL := yAt_mem s.p0 s.p1 b.x_min hnv
        have hgy : (⟨b.x_min, yAt s.p0 s.p1 b.x_min⟩ : Pt).y ≠ w.y := by
          intro hh
          have hh2 : yAt s.p0 s.p1 b.x_min = w.y := hh
          rw [hh2] at hq1
          exact absurd hq1 (not_lt.mpr hwy.1)
        have hnh : s.p0.y ≠ s.p1.y := onL_ne_y s _ w hgL hwL hnd hgy
        have hxa := xAt_between_onL s ⟨b.x_min, yAt s.p0 s.p1 b.x_min⟩ w hgL hwL hnh hgy
          b.y_min (le_trans (min_le_left _ _) hq1.le) (le_trans hwy.1 (le_max_right _ _))
        exact ny0 hy ⟨hnh, le_trans (le_min (le_refl b.x_min) hwx.1) hxa.1,
          le_trans hxa.2 (max_le hvx hwx.2)⟩
    · rcases le_or_lt o.y b.y_max with hy2 | hy2
      · exact nx0 hx ⟨hnv, le_trans (le_min hy hwy.1) hq.1, le_trans hq.2 (max_le hy2 hwy.2)⟩
      · by_cases hq1 : yAt s.p0 s.p1 b.x_min ≤ b.y_max
        · exact nx0 hx ⟨hnv, le_trans (le_min (le_trans hvy hy2.le) hwy.1) hq.1, hq1⟩
        · push_neg at hq1
          have hgL := yAt_mem s.p0 s.p1 b.x_min hnv
          have hgy : (⟨b.x_min, yAt s.p0 s.p1 b.x_min⟩ : Pt).y ≠ w.y := by
            intro hh
            have hh2 : yAt s.p0 s.p1 b.x_min = w.y := hh
            rw [hh2] at hq1
            exact absurd hq1 (not_lt.mpr hwy.2)
          have hnh : s.p0.y ≠ s.p1.y := onL_ne_y s _ w hgL hwL hnd hgy
          have hxa := xAt_between_onL s ⟨b.x_min, yAt s.p0 s.p1 b.x_min⟩ w hgL hwL hnh hgy
            b.y_max (le_trans (min_le_right _ _) hwy.2) (le_trans hq1.le (le_max_left _ _))
          exact ny1 hy2 ⟨hnh, le_trans (le_min (le_refl b.x_min) hwx.1) hxa.1,
            le_trans hxa.2 (max_le hvx hwx.2)⟩
  · rcases lt_or_le b.x_max o.x with hx2 | hx2
    · have hox : o.x ≠ w.x := by
        intro hh
        rw [hh] at hx2
        exact absurd hx2 (not_lt.mpr hwx.2)
      have hnv : s.p0.x ≠ s.p1.x := onL_ne_x s o w hoL hwL hnd hox
      have hq := yAt_between_onL s o w hoL hwL hnv hox b.x_max
        (le_trans (min_le_right _ _) hwx.2) (le_trans hx2.le (le_max_left _ _))
      rcases lt_or_le o.y b.y_min with hy | hy
      · by_cases hq1 : b.y_min ≤ yAt s.p0 s.p1 b.x_max
        · exact nx1 hx2 ⟨hnv, hq1, le_trans hq.2 (max_le (le_trans hy.le hvy) hwy.2)⟩
        · push_neg at hq1
          have hgL := yAt_mem s.p0 s.p1 b.x_max hnv
          have hgy : (⟨b.x_max, yAt s.p0 s.p1 b.x_max⟩ : Pt).y ≠ w.y := by
            intro hh
            have hh2 : yAt s.p0 s.p1 b.x_max = w.y := hh
            rw [hh2] at hq1
            exact absurd hq1 (not_lt.mpr hwy.1)
          have hnh : s.p0.y ≠ s.p1.y := onL_ne_y s _ w hgL hwL hnd hgy
          have hxa := xAt_between_onL s ⟨b.x_max, yAt s.p0 s.p1 b.x_max⟩ w hgL hwL hnh hgy
            b.y_min (le_trans (min_le_left _ _) hq1.le) (le_trans hwy.1 (le_max_right _ _))
          exact ny0 hy ⟨hnh, le_trans (le_min hvx hwx.1) hxa.1,
            le_trans hxa.2 (max_le (le_refl b.x_max) hwx.2)⟩
      · rcases le_or_lt o.y b.y_max with hy2 | hy2
        · exact nx1 hx2 ⟨hnv, le_trans (le_min hy hwy.1) hq.1, le_trans hq.2 (max_le hy2 hwy.2)⟩
        · by_cases hq1 : yAt s.p0 s.p1 b.x_max ≤ b.y_max
          · exact nx1 hx2 ⟨hnv, le_trans (le_min (le_trans hvy hy2.le) hwy.1) hq.1, hq1⟩
          · push_neg at hq1
            have hgL := yAt_mem s.p0 s.p1 b.x_max hnv
            have hgy : (⟨b.x_max, yAt s.p0 s.p1 b.x_max⟩ : Pt).y ≠ w.y := by
              intro hh
              have hh2 : yAt s.p0 s.p1 b.x_max = w.y := hh
              rw [hh2] at hq1
              exact absurd hq1 (not_lt.mpr hwy.2)
            have hnh : s.p0.y ≠ s.p1.y := onL_ne_y s _ w hgL hwL hnd hgy
            have hxa := xAt_between_onL s ⟨b.x_max, yAt s.p0 s.p1 b.x_max⟩ w hgL hwL hnh hgy
              b.y_max (le_trans (min_le_right _ _) hwy.2) (le_trans hq1.le (le_max_left _ _))
            exact ny1 hy2 ⟨hnh, le_trans (le_min hvx hwx.1) hxa.1,
              le_trans hxa.2 (max_le (le_refl b.x_max) hwx.2)⟩
    · rcases lt_or_le o.y b.y_min with hy | hy
      · have hoy : o.y ≠ w.y := by
          intro hh
          rw [hh] at hy
          exact absurd hy (not_lt.mpr hwy.1)
        have hnh : s.p0.y ≠ s.p1.y := onL_ne_y s o w hoL hwL hnd hoy
        have hxa := xAt_between_onL s o w hoL hwL hnh hoy b.y_min
          (le_trans (min_le_left _ _) hy.le) (le_trans hwy.1 (le_max_right _ _))
        exact ny0 hy ⟨hnh, le_trans (le_min hx hwx.1) hxa.1,
          le_trans hxa.2 (max_le hx2 hwx.2)⟩
      · rcases le_or_lt o.y b.y_max with hy2 | hy2
        · exact ho (by rw [BBox.check_eq_Within]; exact ⟨⟨hx, hx2⟩, hy, hy2⟩)
        · have hoy : o.y ≠ w.y := by
            intro hh
            rw [hh] at hy2
            exact absurd hy2 (not_lt.mpr hwy.2)
          have hnh : s.p0.y ≠ s.p1.y := onL_ne_y s o w hoL hwL hnd hoy
          have hxa := xAt_between_onL s o w hoL hwL hnh hoy b.y_max
            (le_trans (min_le_right _ _) hwy.2) (le_trans hy2.le (le_max_left _ _))
          exact ny1 hy2 ⟨hnh, le_trans (le_min hx hwx.1) hxa.1,
            le_trans hxa.2 (max_le hx2 hwx.2)⟩

/-- The contradiction driving clip containment: an endpoint of a segment that
passes the overlap test cannot classify outside a positive-extent box while
the edge crossings implicated by its violations are all missing. -/
theorem mainGeom (s : Seg) (b : BBox) (hv : b.Valid) (hr : b.InRange)
    (hsx : b.x_min < b.x_max) (hsy : b.y_min < b.y_max) (hnd : s.p0 ≠ s.p1)
    (h : s.bounded_by b = true) (o A : Pt)
    (hOA : (o = s.p0 ∧ A = s.p1) ∨ (o = s.p1 ∧ A = s.p0))
    (ho : b.check o.x o.y ≠ Bounds.Within)
    (nx0 : o.x < b.x_min → ¬ CrossV s b b.x_min)
    (nx1 : b.x_max < o.x → ¬ CrossV s b b.x_max)
    (ny0 : o.y < b.y_min → ¬ CrossH s b b.y_min)
    (ny1 : b.y_max < o.y → ¬ CrossH s b b.y_max) : False := by
  have hoL : onL s.p0 s.p1 o := by
    rcases hOA with ⟨h1, _⟩ | ⟨h1, _⟩ <;> rw [h1]
    · exact onL_left _ _
    · exact onL_right _ _
  have hAL : onL s.p0 s.p1 A := by
    rcases hOA with ⟨_, h2⟩ | ⟨_, h2⟩ <;> rw [h2]
    · exact onL_right _ _
    · exact onL_left _ _
  rcases Seg.bounded_true_elim s b h with hW | hW | hP | hP | hP | hP | hI | hI | hI | hI
  · rcases hOA with ⟨h1, h2⟩ | ⟨h1, h2⟩
    · exact ho (h1 ▸ hW)
    · rw [BBox.check_eq_Within] at hW
      exact geo_core s b hv hnd o A hoL hAL (by rw [h2]; exact hW.1)
        (by rw [h2]; exact hW.2) ho nx0 nx1 ny0 ny1
  · rcases hOA with ⟨h1, h2⟩ | ⟨h1, h2⟩
    · rw [BBox.check_eq_Within] at hW
      exact geo_core s b hv hnd o A hoL hAL (by rw [h2]; exact hW.1)
        (by rw [h2]; exact hW.2) ho nx0 nx1 ny0 ny1
    · exact ho (h1 ▸ hW)
  · -- (Left, Right)
    rw [BBox.check_eq_Left] at hP
    rw [BBox.check_eq_Right] at hP
    rcases hOA with ⟨h1, h2⟩ | ⟨h1, h2⟩
    · -- o is the Left endpoint
      obtain ⟨hoxl, hoy⟩ : o.x < b.x_min ∧ (b.y_min ≤ o.y ∧ o.y ≤ b.y_max) := by
        rw [h1]; exact hP.1
      obtain ⟨hAxr, hAy⟩ : (b.x_min ≤ A.x ∧ b.x_max < A.x) ∧
          (b.y_min ≤ A.y ∧ A.y ≤ b.y_max) := by
        rw [h2]; exact hP.2
      have hox : o.x ≠ A.x := fun hh => absurd (hh ▸ hoxl) (not_lt.mpr hAxr.1)
      have hnv : s.p0.x ≠ s.p1.x := onL_ne_x s o A hoL hAL hnd hox
      have hq := yAt_between_onL s o A hoL hAL hnv hox b.x_min
        (le_trans (min_le_left _ _) hoxl.le) (le_trans hAxr.1 (le_max_right _ _))
      exact nx0 hoxl ⟨hnv, le_trans (le_min hoy.1 hAy.1) hq.1,
        le_trans hq.2 (max_le hoy.2 hAy.2)⟩
    · -- o is the Right endpoint
      obtain ⟨hoxr, hoy⟩ : (b.x_min ≤ o.x ∧ b.x_max < o.x) ∧
          (b.y_min ≤ o.y ∧ o.y ≤ b.y_max) := by
        rw [h1]; exact hP.2
      obtain ⟨hAxl, hAy⟩ : A.x < b.x_min ∧ (b.y_min ≤ A.y ∧ A.y ≤ b.y_max) := by
        rw [h2]; exact hP.1
      have hox : o.x ≠ A.x := fun hh => absurd (hh ▸ hoxr.2) (not_lt.mpr (le_trans hAxl.le hv.1))
      have hnv : s.p0.x ≠ s.p1.x := onL_ne_x s o A hoL hAL hnd hox
      have hq := yAt_between_onL s o A hoL hAL hnv hox b.x_max
        (le_trans (min_le_right _ _) (le_trans hAxl.le hv.1)) (le_trans hoxr.2.le (le_max_left _ _))
      exact nx1 hoxr.2 ⟨hnv, le_trans (le_min hoy.1 hAy.1) hq.1,
        le_trans hq.2 (max_le hoy.2 hAy.2)⟩
  · -- (Right, Left)
    rw [BBox.check_eq_Right] at hP
    rw [BBox.check_eq_Left] at hP
    rcases hOA with ⟨h1, h2⟩ | ⟨h1, h2⟩
    · obtain ⟨hoxr, hoy⟩ : (b.x_min ≤ o.x ∧ b.x_max < o.x) ∧
          (b.y_min ≤ o.y ∧ o.y ≤ b.y_max) := by
        rw [h1]; exact hP.1
      obtain ⟨hAxl, hAy⟩ : A.x < b.x_min ∧ (b.y_min ≤ A.y ∧ A.y ≤ b.y_max) := by
        rw [h2]; exact hP.2
      have hox : o.x ≠ A.x := fun hh => absurd (hh ▸ hoxr.2) (not_lt.mpr (le_trans hAxl.le hv.1))
      have hnv : s.p0.x ≠ s.p1.x := onL_ne_x s o A hoL hAL hnd hox
      have hq := yAt_between_onL s o A hoL hAL hnv hox b.x_max
        (le_trans (min_le_right _ _) (le_trans hAxl.le hv.1)) (le_trans hoxr.2.le (le_max_left _ _))
      exact nx1 hoxr.2 ⟨hnv, le_trans (le_min hoy.1 hAy.1) hq.1,
        le_trans hq.2 (max_le hoy.2 hAy.2)⟩
    · obtain ⟨hoxl, hoy⟩ : o.x < b.x_min ∧ (b.y_min ≤ o.y ∧ o.y ≤ b.y_max) := by
        rw [h1]; exact hP.2
      obtain ⟨hAxr, hAy⟩ : (b.x_min ≤ A.x ∧ b.x_max < A.x) ∧
          (b.y_min ≤ A.y ∧ A.y ≤ b.y_max) := by
        rw [h2]; exact hP.1
      have hox : o.x ≠ A.x := fun hh => absurd (hh ▸ hoxl) (not_lt.mpr hAxr.1)
      have hnv : s.p0.x ≠ s.p1.x := onL_ne_x s o A hoL hAL hnd hox
      have hq := yAt_between_onL s o A hoL hAL hnv hox b.x_min
        (le_trans (min_le_left _ _) hoxl.le) (le_trans hAxr.1 (le_max_right _ _))
      exact nx0 hoxl ⟨hnv, le_trans (le_min hoy.1 hAy.1) hq.1,
        le_trans hq.2 (max_le hoy.2 hAy.2)⟩
  · -- (Below, Above)
    rw [BBox.check_eq_Below] at hP
    rw [BBox.check_eq_Above] at hP
    rcases hOA with ⟨h1, h2⟩ | ⟨h1, h2⟩
    · obtain ⟨hox, hoyb⟩ : (b.x_min ≤ o.x ∧ o.x ≤ b.x_max) ∧ o.y < b.y_min := by
        rw [h1]; exact hP.1
      obtain ⟨hAx, hAya⟩ : (b.x_min ≤ A.x ∧ A.x ≤ b.x_max) ∧
          (b.y_min ≤ A.y ∧ b.y_max < A.y) := by
        rw [h2]; exact hP.2
      have hoy : o.y ≠ A.y := fun hh => absurd (hh ▸ hoyb) (not_lt.mpr hAya.1)
      have hnh : s.p0.y ≠ s.p1.y := onL_ne_y s o A hoL hAL hnd hoy
      have hq := xAt_between_onL s o A hoL hAL hnh hoy b.y_min
        (le_trans (min_le_left _ _) hoyb.le) (le_trans hAya.1 (le_max_right _ _))
      exact ny0 hoyb ⟨hnh, le_trans (le_min hox.1 hAx.1) hq.1,
        le_trans hq.2 (max_le hox.2 hAx.2)⟩
    · obtain ⟨hox, hoya⟩ : (b.x_min ≤ o.x ∧ o.x ≤ b.x_max) ∧
          (b.y_min ≤ o.y ∧ b.y_max < o.y) := by
        rw [h1]; exact hP.2
      obtain ⟨hAx, hAyb⟩ : (b.x_min ≤ A.x ∧ A.x ≤ b.x_max) ∧ A.y < b.y_min := by
        rw [h2]; exact hP.1
      have hoy : o.y ≠ A.y := fun hh => absurd (hh ▸ hoya.2) (not_lt.mpr (le_trans hAyb.le hv.2))
      have hnh : s.p0.y ≠ s.p1.y := onL_ne_y s o A hoL hAL hnd hoy
      have hq := xAt_between_onL s o A hoL hAL hnh hoy b.y_max
        (le_trans (min_le_right _ _) (le_trans hAyb.le hv.2)) (le_trans hoya.2.le (le_max_left _ _))
      exact ny1 hoya.2 ⟨hnh, le_trans (le_min hox.1 hAx.1) hq.1,
        le_trans hq.2 (max_le hox.2 hAx.2)⟩
  · -- (Above, Below)
    rw [BBox.check_eq_Above] at hP
    rw [BBox.check_eq_Below] at hP
    rcases hOA with ⟨h1, h2⟩ | ⟨h1, h2⟩
    · obtain ⟨hox, hoya⟩ : (b.x_min ≤ o.x ∧ o.x ≤ b.x_max) ∧
          (b.y_min ≤ o.y ∧ b.y_max < o.y) := by
        rw [h1]; exact hP.1
      obtain ⟨hAx, hAyb⟩ : (b.x_min ≤ A.x ∧ A.x ≤ b.x_max) ∧ A.y < b.y_min := by
        rw [h2]; exact hP.2
      have hoy : o.y ≠ A.y := fun hh => absurd (hh ▸ hoya.2) (not_lt.mpr (le_trans hAyb.le hv.2))
      have hnh : s.p0.y ≠ s.p1.y := onL_ne_y s o A hoL hAL hnd hoy
      have hq := xAt_between_onL s o A hoL hAL hnh hoy b.y_max
        (le_trans (min_le_right _ _) (le_trans hAyb.le hv.2)) (le_trans hoya.2.le (le_max_left _ _))
      exact ny1 hoya.2 ⟨hnh, le_trans (le_min hox.1 hAx.1) hq.1,
        le_trans hq.2 (max_le hox.2 hAx.2)⟩
    · obtain ⟨hox, hoyb⟩ : (b.x_min ≤ o.x ∧ o.x ≤ b.x_max) ∧ o.y < b.y_min := by
        rw [h1]; exact hP.2
      obtain ⟨hAx, hAya⟩ : (b.x_min ≤ A.x ∧ A.x ≤ b.x_max) ∧
          (b.y_min ≤ A.y ∧ b.y_max < A.y) := by
        rw [h2]; exact hP.1
      have hoy : o.y ≠ A.y := fun hh => absurd (hh ▸ hoyb) (not_lt.mpr hAya.1)
      have hnh : s.p0.y ≠ s.p1.y := onL_ne_y s o A hoL hAL hnd hoy
      have hq := xAt_between_onL s o A hoL hAL hnh hoy b.y_min
        (le_trans (min_le_left _ _) hoyb.le) (le_trans hAya.1 (le_max_right _ _))
      exact ny0 hoyb ⟨hnh, le_trans (le_min hox.1 hAx.1) hq.1,
        le_trans hq.2 (max_le hox.2 hAx.2)⟩
  · have hc := (Seg.intersects_x_min_iff s b hv hr hsy.ne).mp hI
    exact geo_core s b hv hnd o ⟨b.x_min, yAt s.p0 s.p1 b.x_min⟩ hoL
      (yAt_mem s.p0 s.p1 b.x_min hc.1) ⟨le_refl _, hv.1⟩ hc.2 ho nx0 nx1 ny0 ny1
  · have hc := (Seg.intersects_x_max_iff s b hv hr hsy.ne).mp hI
    exact geo_core s b hv hnd o ⟨b.x_max, yAt s.p0 s.p1 b.x_max⟩ hoL
      (yAt_mem s.p0 s.p1 b.x_max hc.1) ⟨hv.1, le_refl _⟩ hc.2 ho nx0 nx1 ny0 ny1
  · have hc := (Seg.intersects_y_min_iff s b hv hr hsx.ne).mp hI
    exact geo_core s b hv hnd o ⟨xAt s.p0 s.p1 b.y_min, b.y_min⟩ hoL
      (xAt_mem s.p0 s.p1 b.y_min hc.1) hc.2 ⟨le_refl _, hv.2⟩ ho nx0 nx1 ny0 ny1
  · have hc := (Seg.intersects_y_max_iff s b hv hr hsx.ne).mp hI
    exact geo_core s b hv hnd o ⟨xAt s.p0 s.p1 b.y_max, b.y_max⟩ hoL
      (xAt_mem s.p0 s.p1 b.y_max hc.1) hc.2 ⟨hv.2, le_refl _⟩ ho nx0 nx1 ny0 ny1

/-! ### Stage stability facts -/

theorem Seg.clip_x_min_within_p0 (s : Seg) (b : BBox)
    (hw : b.check s.p0.x s.p0.y = Bounds.Within) : (s.clip_x_min b).p0 = s.p0 := by
  rcases Seg.clip_x_min_p0_cases s b with h | ⟨_, hc⟩
  · exact h
  · exfalso
    rw [BBox.check_eq_Within] at hw
    exact absurd hc (not_lt.mpr hw.1.1)

theorem Seg.clip_x_min_within_p1 (s : Seg) (b : BBox)
    (hw : b.check s.p1.x s.p1.y = Bounds.Within) : (s.clip_x_min b).p1 = s.p1 := by
  rcases Seg.clip_x_min_p1_cases s b with h | ⟨_, hc, _⟩
  · exact h
  · exfalso
    rw [BBox.check_eq_Within] at hw
    exact absurd hc (not_lt.mpr hw.1.1)

theorem Seg.clip_x_min_degenerate (s : Seg) (b : BBox) (h : s.p0 = s.p1) :
    s.clip_x_min b = s :=
  Seg.clip_x_min_eq_none s b (Seg.intersection_degenerate s _ h)

theorem Seg.clip_x_max_within_p0 (s : Seg) (b : BBox)
    (hw : b.check s.p0.x s.p0.y = Bounds.Within) : (s.clip_x_max b).p0 = s.p0 := by
  rcases Seg.clip_x_max_p0_cases s b with h | ⟨_, hc⟩
  · exact h
  · exfalso
    rw [BBox.check_eq_Within] at hw
    exact absurd hc (not_lt.mpr hw.1.2)

theorem Seg.clip_x_max_within_p1 (s : Seg) (b : BBox)
    (hw : b.check s.p1.x s.p1.y = Bounds.Within) : (s.clip_x_max b).p1 = s.p1 := by
  rcases Seg.clip_x_max_p1_cases s b with h | ⟨_, hc, _⟩
  · exact h
  · exfalso
    rw [BBox.check_eq_Within] at hw
    exact absurd hc (not_lt.mpr hw.1.2)

theorem Seg.clip_x_max_degenerate (s : Seg) (b : BBox) (h : s.p0 = s.p1) :
    s.clip_x_max b = s :=
  Seg.clip_x_max_eq_none s b (Seg.intersection_degenerate s _ h)

theorem Seg.clip_y_min_within_p0 (s : Seg) (b : BBox)
    (hw : b.check s.p0.x s.p0.y = Bounds.Within) : (s.clip_y_min b).p0 = s.p0 := by
  rcases Seg.clip_y_min_p0_cases s b with h | ⟨_, hc⟩
  · exact h
  · exfalso
    rw [BBox.check_eq_Within] at hw
    exact absurd hc (not_lt.mpr hw.2.1)

theorem Seg.clip_y_min_within_p1 (s : Seg) (b : BBox)
    (hw : b.check s.p1.x s.p1.y = Bounds.Within) : (s.clip_y_min b).p1 = s.p1 := by
  rcases Seg.clip_y_min_p1_cases s b with h | ⟨_, hc, _⟩
  · exact h
  · exfalso
    rw [BBox.check_eq_Within] at hw
    exact absurd hc (not_lt.mpr hw.2.1)

theorem Seg.clip_y_min_degenerate (s : Seg) (b : BBox) (h : s.p0 = s.p1) :
    s.clip_y_min b = s :=
  Seg.clip_y_min_eq_none s b (Seg.intersection_degenerate s _ h)

theorem Seg.clip_y_max_within_p0 (s : Seg) (b : BBox)
    (hw : b.check s.p0.x s.p0.y = Bounds.Within) : (s.clip_y_max b).p0 = s.p0 := by
  rcases Seg.clip_y_max_p0_cases s b with h | ⟨_, hc⟩
  · exact h
  · exfalso
    rw [BBox.check_eq_Within] at hw
    exact absurd hc (not_lt.mpr hw.2.2)

theorem Seg.clip_y_max_within_p1 (s : Seg) (b : BBox)
    (hw : b.check s.p1.x s.p1.y = Bounds.Within) : (s.clip_y_max b).p1 = s.p1 := by
  rcases Seg.clip_y_max_p1_cases s b with h | ⟨_, hc, _⟩
  · exact h
  · exfalso
    rw [BBox.check_eq_Within] at hw
    exact absurd hc (not_lt.mpr hw.2.2)

theorem Seg.clip_y_max_degenerate (s : Seg) (b : BBox) (h : s.p0 = s.p1) :
    s.clip_y_max b = s :=
  Seg.clip_y_max_eq_none s b (Seg.intersection_degenerate s _ h)

/-! ### Stage invariants -/

theorem Seg.clip_x_min_inv (s r : Seg) (b : BBox) (hv : b.Valid) (hreg : b.InRange)
    (O0 : onL s.p0 s.p1 r.p0) (O1 : onL s.p0 s.p1 r.p1) :
    onL s.p0 s.p1 ((r.clip_x_min b).p0) ∧ onL s.p0 s.p1 ((r.clip_x_min b).p1) ∧
      ((r.clip_x_min b).p0 = r.p0 ∨
        b.check ((r.clip_x_min b).p0).x ((r.clip_x_min b).p0).y = Bounds.Within) ∧
      ((r.clip_x_min b).p1 = r.p1 ∨
        b.check ((r.clip_x_min b).p1).x ((r.clip_x_min b).p1).y = Bounds.Within) := by
  by_cases hd : r.p0 = r.p1
  · rw [Seg.clip_x_min_degenerate r b hd]
    exact ⟨O0, O1, Or.inl rfl, Or.inl rfl⟩
  · refine ⟨?_, ?_, ?_, ?_⟩
    · rcases Seg.clip_x_min_p0_cases r b with hcase | ⟨hsome, _⟩
      · rw [hcase]
        exact O0
      · exact onL_trans s.p0 s.p1 r.p0 r.p1 _ O0 O1 hd (Seg.intersection_point_onL r _ _ hsome)
    · rcases Seg.clip_x_min_p1_cases r b with hcase | ⟨hsome, _, _⟩
      · rw [hcase]
        exact O1
      · exact onL_trans s.p0 s.p1 r.p0 r.p1 _ O0 O1 hd (Seg.intersection_point_onL r _ _ hsome)
    · rcases Seg.clip_x_min_p0_cases r b with hcase | ⟨hsome, _⟩
      · exact Or.inl hcase
      · exact Or.inr (Seg.intersection_x_min_some_within r b hv hreg _ hsome)
    · rcases Seg.clip_x_min_p1_cases r b with hcase | ⟨hsome, _, _⟩
      · exact Or.inl hcase
      · exact Or.inr (Seg.intersection_x_min_some_within r b hv hreg _ hsome)

theorem Seg.clip_x_max_inv (s r : Seg) (b : BBox) (hv : b.Valid) (hreg : b.InRange)
    (O0 : onL s.p0 s.p1 r.p0) (O1 : onL s.p0 s.p1 r.p1) :
    onL s.p0 s.p1 ((r.clip_x_max b).p0) ∧ onL s.p0 s.p1 ((r.clip_x_max b).p1) ∧
      ((r.clip_x_max b).p0 = r.p0 ∨
        b.check ((r.clip_x_max b).p0).x ((r.clip_x_max b).p0).y = Bounds.Within) ∧
      ((r.clip_x_max b).p1 = r.p1 ∨
        b.check ((r.clip_x_max b).p1).x ((r.clip_x_max b).p1).y = Bounds.Within) := by
  by_cases hd : r.p0 = r.p1
  · rw [Seg.clip_x_max_degenerate r b hd]
    exact ⟨O0, O1, Or.inl rfl, Or.inl rfl⟩
  · refine ⟨?_, ?_, ?_, ?_⟩
    · rcases Seg.clip_x_max_p0_cases r b with hcase | ⟨hsome, _⟩
      · rw [hcase]
        exact O0
      · exact onL_trans s.p0 s.p1 r.p0 r.p1 _ O0 O1 hd (Seg.intersection_point_onL r _ _ hsome)
    · rcases Seg.clip_x_max_p1_cases r b with hcase | ⟨hsome, _, _⟩
      · rw [hcase]
        exact O1
      · exact onL_trans s.p0 s.p1 r.p0 r.p1 _ O0 O1 hd (Seg.intersection_point_onL r _ _ hsome)
    · rcases Seg.clip_x_max_p0_cases r b with hcase | ⟨hsome, _⟩
      · exact Or.inl hcase
      · exact Or.inr (Seg.intersection_x_max_some_within r b hv hreg _ hsome)
    · rcases Seg.clip_x_max_p1_cases r b with hcase | ⟨hsome, _, _⟩
      · exact Or.inl hcase
      · exact Or.inr (Seg.intersection_x_max_some_within r b hv hreg _ hsome)

theorem Seg.clip_y_min_inv (s r : Seg) (b : BBox) (hv : b.Valid) (hreg : b.InRange)
    (O0 : onL s.p0 s.p1 r.p0) (O1 : onL s.p0 s.p1 r.p1) :
    onL s.p0 s.p1 ((r.clip_y_min b).p0) ∧ onL s.p0 s.p1 ((r.clip_y_min b).p1) ∧
      ((r.clip_y_min b).p0 = r.p0 ∨
        b.check ((r.clip_y_min b).p0).x ((r.clip_y_min b).p0).y = Bounds.Within) ∧
      ((r.clip_y_min b).p1 = r.p1 ∨
        b.check ((r.clip_y_min b).p1).x ((r.clip_y_min b).p1).y = Bounds.Within) := by
  by_cases hd : r.p0 = r.p1
  · rw [Seg.clip_y_min_degenerate r b hd]
    exact ⟨O0, O1, Or.inl rfl, Or.inl rfl⟩
  · refine ⟨?_, ?_, ?_, ?_⟩
    · rcases Seg.clip_y_min_p0_cases r b with hcase | ⟨hsome, _⟩
      · rw [hcase]
        exact O0
      · exact onL_trans s.p0 s.p1 r.p0 r.p1 _ O0 O1 hd (Seg.intersection_point_onL r _ _ hsome)
    · rcases Seg.clip_y_min_p1_cases r b with hcase | ⟨hsome, _, _⟩
      · rw [hcase]
        exact O1
      · exact onL_trans s.p0 s.p1 r.p0 r.p1 _ O0 O1 hd (Seg.intersection_point_onL r _ _ hsome)
    · rcases Seg.clip_y_min_p0_cases r b with hcase | ⟨hsome, _⟩
      · exact Or.inl hcase
      · exact Or.inr (Seg.intersection_y_min_some_within r b hv hreg _ hsome)
    · rcases Seg.clip_y_min_p1_cases r b with hcase | ⟨hsome, _, _⟩
      · exact Or.inl hcase
      · exact Or.inr (Seg.intersection_y_min_some_within r b hv hreg _ hsome)

theorem Seg.clip_y_max_inv (s r : Seg) (b : BBox) (hv : b.Valid) (hreg : b.InRange)
    (O0 : onL s.p0 s.p1 r.p0) (O1 : onL s.p0 s.p1 r.p1) :
    onL s.p0 s.p1 ((r.clip_y_max b).p0) ∧ onL s.p0 s.p1 ((r.clip_y_max b).p1) ∧
      ((r.clip_y_max b).p0 = r.p0 ∨
        b.check ((r.clip_y_max b).p0).x ((r.clip_y_max b).p0).y = Bounds.Within) ∧
      ((r.clip_y_max b).p1 = r.p1 ∨
        b.check ((r.clip_y_max b).p1).x ((r.clip_y_max b).p1).y = Bounds.Within) := by
  by_cases hd : r.p0 = r.p1
  · rw [Seg.clip_y_max_degenerate r b hd]
    exact ⟨O0, O1, Or.inl rfl, Or.inl rfl⟩
  · refine ⟨?_, ?_, ?_, ?_⟩
    · rcases Seg.clip_y_max_p0_cases r b with hcase | ⟨hsome, _⟩
      · rw [hcase]
        exact O0
      · exact onL_trans s.p0 s.p1 r.p0 r.p1 _ O0 O1 hd (Seg.intersection_point_onL r _ _ hsome)
    · rcases Seg.clip_y_max_p1_cases r b with hcase | ⟨hsome, _, _⟩
      · rw [hcase]
        exact O1
      · exact onL_trans s.p0 s.p1 r.p0 r.p1 _ O0 O1 hd (Seg.intersection_point_onL r _ _ hsome)
    · rcases Seg.clip_y_max_p0_cases r b with hcase | ⟨hsome, _⟩
      · exact Or.inl hcase
      · exact Or.inr (Seg.intersection_y_max_some_within r b hv hreg _ hsome)
    · rcases Seg.clip_y_max_p1_cases r b with hcase | ⟨hsome, _, _⟩
      · exact Or.inl hcase
      · exact Or.inr (Seg.intersection_y_max_some_within r b hv hreg _ hsome)

/-- Containment of clip output for positive-extent boxes. -/
theorem Seg.clip_some_within (s : Seg) (b : BBox) (hv : b.Valid) (hr : b.InRange)
    (hsx : b.x_min < b.x_max) (hsy : b.y_min < b.y_max) (s' : Seg)
    (h : s.clip b = some s') :
    b.check s'.p0.x s'.p0.y = Bounds.Within ∧ b.check s'.p1.x s'.p1.y = Bounds.Within := by
  unfold Seg.clip at h
  split_ifs at h with hbb
  have hb : s.bounded_by b = true := by
    cases hx : s.bounded_by b
    · rw [hx] at hbb
      simp at hbb
    · rfl
  by_cases hdeg : s.p0 = s.p1
  · have hW : b.check s.p0.x s.p0.y = Bounds.Within := by
      rcases Seg.bounded_true_elim s b hb with hW | hW | hP | hP | hP | hP | hI | hI | hI | hI
      · exact hW
      · rw [← hdeg] at hW
        exact hW
      · rw [hdeg] at hP
        exact Bounds.noConfusion (hP.1.symm.trans hP.2)
      · rw [hdeg] at hP
        exact Bounds.noConfusion (hP.1.symm.trans hP.2)
      · rw [hdeg] at hP
        exact Bounds.noConfusion (hP.1.symm.trans hP.2)
      · rw [hdeg] at hP
        exact Bounds.noConfusion (hP.1.symm.trans hP.2)
      all_goals rw [Seg.intersects, Seg.intersection_degenerate s _ hdeg] at hI
      all_goals simp at hI
    have hp : (((s.clip_x_min b).clip_x_max b).clip_y_min b).clip_y_max b = s := by
      rw [Seg.clip_x_min_degenerate s b hdeg, Seg.clip_x_max_degenerate s b hdeg,
          Seg.clip_y_min_degenerate s b hdeg, Seg.clip_y_max_degenerate s b hdeg]
    have hs' : s' = s := (Option.some.inj h).symm.trans hp
    rw [hs']
    refine ⟨hW, ?_⟩
    rw [← hdeg]
    exact hW
  · set r1 := s.clip_x_min b with hr1
    set r2 := r1.clip_x_max b with hr2
    set r3 := r2.clip_y_min b with hr3
    set r4 := r3.clip_y_max b with hr4
    have hs' : s' = r4 := (Option.some.inj h).symm
    have I1 := Seg.clip_x_min_inv s s b hv hr (onL_left _ _) (onL_right _ _)
    rw [← hr1] at I1
    have I2 := Seg.clip_x_max_inv s r1 b hv hr I1.1 I1.2.1
    rw [← hr2] at I2
    have I3 := Seg.clip_y_min_inv s r2 b hv hr I2.1 I2.2.1
    rw [← hr3] at I3
    have I4 := Seg.clip_y_max_inv s r3 b hv hr I3.1 I3.2.1
    rw [← hr4] at I4
    rw [hs']
    constructor
    · -- first endpoint of the result
      by_contra hno
      have h4 : r4.p0 = s.p0 := by
        rcases I4.2.2.1 with hh | hh
        · rcases I3.2.2.1 with hh3 | hh3
          · rcases I2.2.2.1 with hh2 | hh2
            · rcases I1.2.2.1 with hh1 | hh1
              · exact hh.trans (hh3.trans (hh2.trans hh1))
              · exact absurd (by rw [hh, hh3, hh2]; exact hh1) hno
            · exact absurd (by rw [hh, hh3]; exact hh2) hno
          · exact absurd (by rw [hh]; exact hh3) hno
        · exact absurd hh hno
      have h3 : r3.p0 = s.p0 := by
        rcases I4.2.2.1 with hh | hh
        · exact hh.symm.trans h4
        · exact absurd hh hno
      have hsno : b.check s.p0.x s.p0.y ≠ Bounds.Within := by
        rw [← h4]
        exact hno
      have h2 : r2.p0 = s.p0 := by
        rcases I3.2.2.1 with hh | hh
        · exact hh.symm.trans h3
        · exact absurd (by rw [← h3]; exact hh) hsno
      have h1 : r1.p0 = s.p0 := by
        rcases I2.2.2.1 with hh | hh
        · exact hh.symm.trans h2
        · exact absurd (by rw [← h2]; exact hh) hsno
      have hrd : ∀ (r : Seg), r.p0 = s.p0 →
          (r.p1 = s.p1 ∨ b.check r.p1.x r.p1.y = Bounds.Within) → r.p0 ≠ r.p1 := by
        intro r hp0 hp1 heq
        rcases hp1 with hh | hh
        · exact hdeg (hp0.symm.trans (heq.trans hh))
        · apply hsno
          rw [← hp0, heq]
          exact hh
      have E11 : r1.p1 = s.p1 ∨ b.check r1.p1.x r1.p1.y = Bounds.Within := I1.2.2.2
      have E21 : r2.p1 = s.p1 ∨ b.check r2.p1.x r2.p1.y = Bounds.Within := by
        rcases I2.2.2.2 with hh | hh
        · rcases E11 with hh' | hh'
          · exact Or.inl (hh.trans hh')
          · exact Or.inr (by rw [hh]; exact hh')
        · exact Or.inr hh
      have E31 : r3.p1 = s.p1 ∨ b.check r3.p1.x r3.p1.y = Bounds.Within := by
        rcases I3.2.2.2 with hh | hh
        · rcases E21 with hh' | hh'
          · exact Or.inl (hh.trans hh')
          · exact Or.inr (by rw [hh]; exact hh')
        · exact Or.inr hh
      refine mainGeom s b hv hr hsx hsy hdeg hb s.p0 s.p1 (Or.inl ⟨rfl, rfl⟩) hsno
        ?_ ?_ ?_ ?_
      · intro hviol
        have hnone := Seg.clip_x_min_stuck_p0 s b hv hr hviol (by rw [← hr1]; exact h1)
        exact crossV_none_transfer_x_min s s b hv hr hsy.ne (onL_left _ _) (onL_right _ _)
          hdeg hnone
      · intro hviol
        have hnone := Seg.clip_x_max_stuck_p0 r1 b hv hr (by rw [h1]; exact hviol)
          (by rw [← hr2]; exact h2.trans h1.symm)
        exact crossV_none_transfer_x_max s r1 b hv hr hsy.ne I1.1 I1.2.1
          (hrd r1 h1 E11) hnone
      · intro hviol
        have hnone := Seg.clip_y_min_stuck_p0 r2 b hv hr (by rw [h2]; exact hviol)
          (by rw [← hr3]; exact h3.trans h2.symm)
        exact crossH_none_transfer_y_min s r2 b hv hr hsx.ne I2.1 I2.2.1
          (hrd r2 h2 E21) hnone
      · intro hviol
        have hnone := Seg.clip_y_max_stuck_p0 r3 b hv hr (by rw [h3]; exact hviol)
          (by rw [← hr4]; exact h4.trans h3.symm)
        exact crossH_none_transfer_y_max s r3 b hv hr hsx.ne I3.1 I3.2.1
          (hrd r3 h3 E31) hnone
    · -- second endpoint of the result
      by_contra hno
      have h4 : r4.p1 = s.p1 := by
        rcases I4.2.2.2 with hh | hh
        · rcases I3.2.2.2 with hh3 | hh3
          · rcases I2.2.2.2 with hh2 | hh2
            · rcases I1.2.2.2 with hh1 | hh1
              · exact hh.trans (hh3.trans (hh2.trans hh1))
              · exact absurd (by rw [hh, hh3, hh2]; exact hh1) hno
            · exact absurd (by rw [hh, hh3]; exact hh2) hno
          · exact absurd (by rw [hh]; exact hh3) hno
        · exact absurd hh hno
      have h3 : r3.p1 = s.p1 := by
        rcases I4.2.2.2 with hh | hh
        · exact hh.symm.trans h4
        · exact absurd hh hno
      have hsno : b.check s.p1.x s.p1.y ≠ Bounds.Within := by
        rw [← h4]
        exact hno
      have h2 : r2.p1 = s.p1 := by
        rcases I3.2.2.2 with hh | hh
        · exact hh.symm.trans h3
        · exact absurd (by rw [← h3]; exact hh) hsno
      have h1 : r1.p1 = s.p1 := by
        rcases I2.2.2.2 with hh | hh
        · exact hh.symm.trans h2
        · exact absurd (by rw [← h2]; exact hh) hsno
      have hrd : ∀ (r : Seg), r.p1 = s.p1 →
          (r.p0 = s.p0 ∨ b.check r.p0.x r.p0.y = Bounds.Within) → r.p0 ≠ r.p1 := by
        intro r hp1 hp0 heq
        rcases hp0 with hh | hh
        · exact hdeg ((hh.symm.trans heq).trans hp1)
        · apply hsno
          rw [← hp1, ← heq]
          exact hh
      have E10 : r1.p0 = s.p0 ∨ b.check r1.p0.x r1.p0.y = Bounds.Within := I1.2.2.1
      have E20 : r2.p0 = s.p0 ∨ b.check r2.p0.x r2.p0.y = Bounds.Within := by
        rcases I2.2.2.1 with hh | hh
        · rcases E10 with hh' | hh'
          · exact Or.inl (hh.trans hh')
          · exact Or.inr (by rw [hh]; exact hh')
        · exact Or.inr hh
      have E30 : r3.p0 = s.p0 ∨ b.check r3.p0.x r3.p0.y = Bounds.Within := by
        rcases I3.2.2.1 with hh | hh
        · rcases E20 with hh' | hh'
          · exact Or.inl (hh.trans hh')
          · exact Or.inr (by rw [hh]; exact hh')
        · exact Or.inr hh
      refine mainGeom s b hv hr hsx hsy hdeg hb s.p1 s.p0 (Or.inr ⟨rfl, rfl⟩) hsno
        ?_ ?_ ?_ ?_
      · intro hviol
        have hge : ¬(s.p0.x < b.x_min) :=
          fun hc => Seg.bounded_not_both_left s b hb ⟨hc, hviol⟩
        have hnone := Seg.clip_x_min_stuck_p1 s b hv hr hviol hge
          (by rw [← hr1]; exact h1)
        exact crossV_none_transfer_x_min s s b hv hr hsy.ne (onL_left _ _) (onL_right _ _)
          hdeg hnone
      · intro hviol
        have hge : ¬(r1.p0.x > b.x_max) := by
          rcases E10 with hh | hh
          · rw [hh]
            exact fun hc => Seg.bounded_not_both_right s b hv hb ⟨hc, hviol⟩
          · rw [BBox.check_eq_Within] at hh
            exact not_lt.mpr hh.1.2
        have hnone := Seg.clip_x_max_stuck_p1 r1 b hv hr (by rw [h1]; exact hviol) hge
          (by rw [← hr2]; exact h2.trans h1.symm)
        exact crossV_none_transfer_x_max s r1 b hv hr hsy.ne I1.1 I1.2.1
          (hrd r1 h1 E10) hnone
      · intro hviol
        have hge : ¬(r2.p0.y < b.y_min) := by
          rcases E20 with hh | hh
          · rw [hh]
            exact fun hc => Seg.bounded_not_both_below s b hb ⟨hc, hviol⟩
          · rw [BBox.check_eq_Within] at hh
            exact not_lt.mpr hh.2.1
        have hnone := Seg.clip_y_min_stuck_p1 r2 b hv hr (by rw [h2]; exact hviol) hge
          (by rw [← hr3]; exact h3.trans h2.symm)
        exact crossH_none_transfer_y_min s r2 b hv hr hsx.ne I2.1 I2.2.1
          (hrd r2 h2 E20) hnone
      · intro hviol
        have hge : ¬(r3.p0.y > b.y_max) := by
          rcases E30 with hh | hh
          · rw [hh]
            exact fun hc => Seg.bounded_not_both_above s b hv hb ⟨hc, hviol⟩
          · rw [BBox.check_eq_Within] at hh
            exact not_lt.mpr hh.2.2
        have hnone := Seg.clip_y_max_stuck_p1 r3 b hv hr (by rw [h3]; exact hviol) hge
          (by rw [← hr4]; exact h4.trans h3.symm)
        exact crossH_none_transfer_y_max s r3 b hv hr hsx.ne I3.1 I3.2.1
          (hrd r3 h3 E30) hnone

/-! ### Auxiliary facts for clip idempotence -/

theorem Seg.eq_of_ends {a b : Seg} (h0 : a.p0 = b.p0) (h1 : a.p1 = b.p1) : a = b := by
  cases a
  cases b
  cases h0
  cases h1
  rfl

theorem Seg.bounded_of_within0 (s : Seg) (b : BBox)
    (hW : b.check s.p0.x s.p0.y = Bounds.Within) : s.bounded_by b = true := by
  unfold Seg.bounded_by
  generalize b.check s.p0.x s.p0.y = t0 at hW ⊢
  subst hW
  generalize b.check s.p1.x s.p1.y = t1
  cases t1 <;> rfl

theorem Seg.bounded_of_within1 (s : Seg) (b : BBox)
    (hW : b.check s.p1.x s.p1.y = Bounds.Within) : s.bounded_by b = true := by
  unfold Seg.bounded_by
  generalize b.check s.p1.x s.p1.y = t1 at hW ⊢
  subst hW
  generalize b.check s.p0.x s.p0.y = t0
  cases t0 <;> rfl

theorem crossV_transfer_pos (s r : Seg) (b : BBox) (c : ℚ)
    (h0 : onL s.p0 s.p1 r.p0) (h1 : onL s.p0 s.p1 r.p1) (hnd : s.p0 ≠ s.p1)
    (h : CrossV r b c) : CrossV s b c := by
  obtain ⟨hrx, hy1, hy2⟩ := h
  have hnv : s.p0.x ≠ s.p1.x := onL_ne_x s r.p0 r.p1 h0 h1 hnd hrx
  refine ⟨hnv, ?_, ?_⟩ <;>
    rw [← yAt_congr s.p0 s.p1 r.p0 r.p1 h0 h1 hnv hrx c] <;> assumption

theorem crossH_transfer_pos (s r : Seg) (b : BBox) (c : ℚ)
    (h0 : onL s.p0 s.p1 r.p0) (h1 : onL s.p0 s.p1 r.p1) (hnd : s.p0 ≠ s.p1)
    (h : CrossH r b c) : CrossH s b c := by
  obtain ⟨hry, hx1, hx2⟩ := h
  have hnh : s.p0.y ≠ s.p1.y := onL_ne_y s r.p0 r.p1 h0 h1 hnd hry
  refine ⟨hnh, ?_, ?_⟩ <;>
    rw [← xAt_congr s.p0 s.p1 r.p0 r.p1 h0 h1 hnh hry c] <;> assumption

theorem Seg.intersection_x_min_none_of_not (s : Seg) (b : BBox) (hv : b.Valid)
    (hr : b.InRange) (hnc : ¬ CrossV s b b.x_min) : s.intersection b.x_min_edge = none := by
  rw [Seg.intersection_x_min_edge s b hv hr]
  split_ifs with c1 c2
  · rfl
  · exact absurd ⟨(not_or.mp c1).1, c2⟩ hnc
  · rfl

theorem Seg.intersection_x_min_none_degen (s : Seg) (b : BBox) (hv : b.Valid)
    (hr : b.InRange) (hyy : b.y_min = b.y_max) : s.intersection b.x_min_edge = none := by
  rw [Seg.intersection_x_min_edge s b hv hr]
  rw [if_pos (Or.inr hyy)]

theorem Seg.intersection_x_max_none_of_not (s : Seg) (b : BBox) (hv : b.Valid)
    (hr : b.InRange) (hnc : ¬ CrossV s b b.x_max) : s.intersection b.x_max_edge = none := by
  rw [Seg.intersection_x_max_edge s b hv hr]
  split_ifs with c1 c2
  · rfl
  · exact absurd ⟨(not_or.mp c1).1, c2⟩ hnc
  · rfl

theorem Seg.intersection_x_max_none_degen (s : Seg) (b : BBox) (hv : b.Valid)
    (hr : b.InRange) (hyy : b.y_min = b.y_max) : s.intersection b.x_max_edge = none := by
  rw [Seg.intersection_x_max_edge s b hv hr]
  rw [if_pos (Or.inr hyy)]

theorem Seg.intersection_y_min_none_of_not (s : Seg) (b : BBox) (hv : b.Valid)
    (hr : b.InRange) (hnc : ¬ CrossH s b b.y_min) : s.intersection b.y_min_edge = none := by
  rw [Seg.intersection_y_min_edge s b hv hr]
  split_ifs with c1 c2
  · rfl
  · exact absurd ⟨(not_or.mp c1).1, c2⟩ hnc
  · rfl

theorem Seg.intersection_y_min_none_degen (s : Seg) (b : BBox) (hv : b.Valid)
    (hr : b.InRange) (hyy : b.x_min = b.x_max) : s.intersection b.y_min_edge = none := by
  rw [Seg.intersection_y_min_edge s b hv hr]
  rw [if_pos (Or.inr hyy)]

theorem Seg.intersection_y_max_none_of_not (s : Seg) (b : BBox) (hv : b.Valid)
    (hr : b.InRange) (hnc : ¬ CrossH s b b.y_max) : s.intersection b.y_max_edge = none := by
  rw [Seg.intersection_y_max_edge s b hv hr]
  split_ifs with c1 c2
  · rfl
  · exact absurd ⟨(not_or.mp c1).1, c2⟩ hnc
  · rfl

theorem Seg.intersection_y_max_none_degen (s : Seg) (b : BBox) (hv : b.Valid)
    (hr : b.InRange) (hyy : b.x_min = b.x_max) : s.intersection b.y_max_edge = none := by
  rw [Seg.intersection_y_max_edge s b hv hr]
  rw [if_pos (Or.inr hyy)]

/-- Clipping an already-clipped segment returns it unchanged. -/
theorem Seg.clip_clip (s : Seg) (b : BBox) (hv : b.Valid) (hr : b.InRange)
    (s' : Seg) (h : s.clip b = some s') : s'.clip b = some s' := by
  unfold Seg.clip at h
  split_ifs at h with hbb
  have hb : s.bounded_by b = true := by
    cases hx : s.bounded_by b
    · rw [hx] at hbb
      simp at hbb
    · rfl
  by_cases hsdeg : s.p0 = s.p1
  · have hp : (((s.clip_x_min b).clip_x_max b).clip_y_min b).clip_y_max b = s := by
      rw [Seg.clip_x_min_degenerate s b hsdeg, Seg.clip_x_max_degenerate s b hsdeg,
          Seg.clip_y_min_degenerate s b hsdeg, Seg.clip_y_max_degenerate s b hsdeg]
    have hs' : s' = s := (Option.some.inj h).symm.trans hp
    rw [hs']
    unfold Seg.clip
    have hcond : ¬((!s.bounded_by b) = true) := by
      rw [hb]
      simp
    rw [if_neg hcond, hp]
  · set r1 := s.clip_x_min b with hr1
    set r2 := r1.clip_x_max b with hr2
    set r3 := r2.clip_y_min b with hr3
    set r4 := r3.clip_y_max b with hr4
    have hs' : s' = r4 := (Option.some.inj h).symm
    have I1 := Seg.clip_x_min_inv s s b hv hr (onL_left _ _) (onL_right _ _)
    rw [← hr1] at I1
    have I2 := Seg.clip_x_max_inv s r1 b hv hr I1.1 I1.2.1
    rw [← hr2] at I2
    have I3 := Seg.clip_y_min_inv s r2 b hv hr I2.1 I2.2.1
    rw [← hr3] at I3
    have I4 := Seg.clip_y_max_inv s r3 b hv hr I3.1 I3.2.1
    rw [← hr4] at I4
    have E40 : r4.p0 = s.p0 ∨ b.check r4.p0.x r4.p0.y = Bounds.Within := by
      rcases I4.2.2.1 with hh | hh
      · rcases I3.2.2.1 with hh3 | hh3
        · rcases I2.2.2.1 with hh2 | hh2
          · rcases I1.2.2.1 with hh1 | hh1
            · exact Or.inl (hh.trans (hh3.trans (hh2.trans hh1)))
            · exact Or.inr (by rw [hh, hh3, hh2]; exact hh1)
          · exact Or.inr (by rw [hh, hh3]; exact hh2)
        · exact Or.inr (by rw [hh]; exact hh3)
      · exact Or.inr hh
    have E41 : r4.p1 = s.p1 ∨ b.check r4.p1.x r4.p1.y = Bounds.Within := by
      rcases I4.2.2.2 with hh | hh
      · rcases I3.2.2.2 with hh3 | hh3
        · rcases I2.2.2.2 with hh2 | hh2
          · rcases I1.2.2.2 with hh1 | hh1
            · exact Or.inl (hh.trans (hh3.trans (hh2.trans hh1)))
            · exact Or.inr (by rw [hh, hh3, hh2]; exact hh1)
          · exact Or.inr (by rw [hh, hh3]; exact hh2)
        · exact Or.inr (by rw [hh]; exact hh3)
      · exact Or.inr hh
    have hb' : s'.bounded_by b = true := by
      rcases E40 with h0 | h0
      · rcases E41 with h1 | h1
        · have heq : s' = s := by
            rw [hs']
            exact Seg.eq_of_ends h0 h1
          rw [heq]
          exact hb
        · apply Seg.bounded_of_within1
          rw [hs']
          exact h1
      · apply Seg.bounded_of_within0
        rw [hs']
        exact h0
    by_cases hs'd : s'.p0 = s'.p1
    · unfold Seg.clip
      have hcond : ¬((!s'.bounded_by b) = true) := by
        rw [hb']
        simp
      rw [if_neg hcond]
      rw [Seg.clip_x_min_degenerate s' b hs'd, Seg.clip_x_max_degenerate s' b hs'd,
          Seg.clip_y_min_degenerate s' b hs'd, Seg.clip_y_max_degenerate s' b hs'd]
    · have hnd4 : r4.p0 ≠ r4.p1 := by
        rw [← hs']
        exact hs'd
      have hnd3 : r3.p0 ≠ r3.p1 := by
        intro hdd
        apply hnd4
        rw [hr4, Seg.clip_y_max_degenerate r3 b hdd]
        exact hdd
      have hnd2 : r2.p0 ≠ r2.p1 := by
        intro hdd
        apply hnd3
        rw [hr3, Seg.clip_y_min_degenerate r2 b hdd]
        exact hdd
      have hnd1 : r1.p0 ≠ r1.p1 := by
        intro hdd
        apply hnd2
        rw [hr2, Seg.clip_x_max_degenerate r1 b hdd]
        exact hdd
      have O40 : onL s.p0 s.p1 s'.p0 := by
        rw [hs']
        exact I4.1
      have O41 : onL s.p0 s.p1 s'.p1 := by
        rw [hs']
        exact I4.2.1
      have hN1 : s'.intersection b.x_min_edge = none ∨
          (¬(s'.p0.x < b.x_min) ∧ ¬(s'.p1.x < b.x_min)) := by
        by_cases hyy : b.y_min = b.y_max
        · exact Or.inl (Seg.intersection_x_min_none_degen s' b hv hr hyy)
        · rcases hc : s.intersection b.x_min_edge with _ | p
          · left
            apply Seg.intersection_x_min_none_of_not s' b hv hr
            intro hcr
            have hcs : CrossV s b b.x_min :=
              crossV_transfer_pos s s' b b.x_min O40 O41 hsdeg hcr
            rw [Seg.intersection_x_min_edge s b hv hr,
              if_neg (not_or.mpr ⟨hcs.1, hyy⟩), if_pos ⟨hcs.2.1, hcs.2.2⟩] at hc
            exact Option.noConfusion hc
          · right
            have hnv1 := Seg.clip_x_min_nonviol s b hv hr p hc
              (Seg.bounded_not_both_left s b hb)
            rw [← hr1] at hnv1
            have P0 : r4.p0 = r1.p0 ∨ b.check r4.p0.x r4.p0.y = Bounds.Within := by
              rcases I4.2.2.1 with hh | hh
              · rcases I3.2.2.1 with hh3 | hh3
                · rcases I2.2.2.1 with hh2 | hh2
                  · exact Or.inl (hh.trans (hh3.trans hh2))
                  · exact Or.inr (by rw [hh, hh3]; exact hh2)
                · exact Or.inr (by rw [hh]; exact hh3)
              · exact Or.inr hh
            have P1 : r4.p1 = r1.p1 ∨ b.check r4.p1.x r4.p1.y = Bounds.Within := by
              rcases I4.2.2.2 with hh | hh
              · rcases I3.2.2.2 with hh3 | hh3
                · rcases I2.2.2.2 with hh2 | hh2
                  · exact Or.inl (hh.trans (hh3.trans hh2))
                  · exact Or.inr (by rw [hh, hh3]; exact hh2)
                · exact Or.inr (by rw [hh]; exact hh3)
              · exact Or.inr hh
            constructor
            · rcases P0 with hh | hh
              · rw [hs', hh]
                exact hnv1.1
              · rw [hs']
                rw [BBox.check_eq_Within] at hh
                exact not_lt.mpr hh.1.1
            · rcases P1 with hh | hh
              · rw [hs', hh]
                exact hnv1.2
              · rw [hs']
                rw [BBox.check_eq_Within] at hh
                exact not_lt.mpr hh.1.1
      have hN2 : s'.intersection b.x_max_edge = none ∨
          (¬(s'.p0.x > b.x_max) ∧ ¬(s'.p1.x > b.x_max)) := by
        by_cases hyy : b.y_min = b.y_max
        · exact Or.inl (Seg.intersection_x_max_none_degen s' b hv hr hyy)
        · rcases hc : r1.intersection b.x_max_edge with _ | p
          · left
            apply Seg.intersection_x_max_none_of_not s' b hv hr
            intro hcr
            have hcs : CrossV s b b.x_max :=
              crossV_transfer_pos s s' b b.x_max O40 O41 hsdeg hcr
            have hnc := crossV_none_transfer_x_max s r1 b hv hr hyy I1.1 I1.2.1 hnd1 hc
            exact hnc hcs
          · right
            have hnb1 : ¬(r1.p0.x > b.x_max ∧ r1.p1.x > b.x_max) := by
              rintro ⟨ha, hb2⟩
              rcases I1.2.2.1 with h0 | h0
              · rcases I1.2.2.2 with h1 | h1
                · refine Seg.bounded_not_both_right s b hv hb ⟨?_, ?_⟩
                  · rw [← h0]
                    exact ha
                  · rw [← h1]
                    exact hb2
                · rw [BBox.check_eq_Within] at h1
                  exact absurd hb2 (not_lt.mpr h1.1.2)
              · rw [BBox.check_eq_Within] at h0
                exact absurd ha (not_lt.mpr h0.1.2)
            have hnv2 := Seg.clip_x_max_nonviol r1 b hv hr p hc hnb1
            rw [← hr2] at hnv2
            have P0 : r4.p0 = r2.p0 ∨ b.check r4.p0.x r4.p0.y = Bounds.Within := by
              rcases I4.2.2.1 with hh | hh
              · rcases I3.2.2.1 with hh3 | hh3
                · exact Or.inl (hh.trans hh3)
                · exact Or.inr (by rw [hh]; exact hh3)
              · exact Or.inr hh
            have P1 : r4.p1 = r2.p1 ∨ b.check r4.p1.x r4.p1.y = Bounds.Within := by
              rcases I4.2.2.2 with hh | hh
              · rcases I3.2.2.2 with hh3 | hh3
                · exact Or.inl (hh.trans hh3)
                · exact Or.inr (by rw [hh]; exact hh3)
              · exact Or.inr hh
            constructor
            · rcases P0 with hh | hh
              · rw [hs', hh]
                exact hnv2.1
              · rw [hs']
                rw [BBox.check_eq_Within] at hh
                exact not_lt.mpr hh.1.2
            · rcases P1 with hh | hh
              · rw [hs', hh]
                exact hnv2.2
              · rw [hs']
                rw [BBox.check_eq_Within] at hh
                exact not_lt.mpr hh.1.2
      have hN3 : s'.intersection b.y_min_edge = none ∨
          (¬(s'.p0.y < b.y_min) ∧ ¬(s'.p1.y < b.y_min)) := by
        by_cases hxx : b.x_min = b.x_max
        · exact Or.inl (Seg.intersection_y_min_none_degen s' b hv hr hxx)
        · rcases hc : r2.intersection b.y_min_edge with _ | p
          · left
            apply Seg.intersection_y_min_none_of_not s' b hv hr
            intro hcr
            have hcs : CrossH s b b.y_min :=
              crossH_transfer_pos s s' b b.y_min O40 O41 hsdeg hcr
            have hnc := crossH_none_transfer_y_min s r2 b hv hr hxx I2.1 I2.2.1 hnd2 hc
            exact hnc hcs
          · right
            have hnb2 : ¬(r2.p0.y < b.y_min ∧ r2.p1.y < b.y_min) := by
              rintro ⟨ha, hb2⟩
              have E20 : r2.p0 = s.p0 ∨ b.check r2.p0.x r2.p0.y = Bounds.Within := by
                rcases I2.2.2.1 with hh | hh
                · rcases I1.2.2.1 with hh1 | hh1
                  · exact Or.inl (hh.trans hh1)
                  · exact Or.inr (by rw [hh]; exact hh1)
                · exact Or.inr hh
              have E21 : r2.p1 = s.p1 ∨ b.check r2.p1.x r2.p1.y = Bounds.Within := by
                rcases I2.2.2.2 with hh | hh
                · rcases I1.2.2.2 with hh1 | hh1
                  · exact Or.inl (hh.trans hh1)
                  · exact Or.inr (by rw [hh]; exact hh1)
                · exact Or.inr hh
              rcases E20 with h0 | h0
              · rcases E21 with h1 | h1
                · refine Seg.bounded_not_both_below s b hb ⟨?_, ?_⟩
                  · rw [← h0]
                    exact ha
                  · rw [← h1]
                    exact hb2
                · rw [BBox.check_eq_Within] at h1
                  exact absurd hb2 (not_lt.mpr h1.2.1)
              · rw [BBox.check_eq_Within] at h0
                exact absurd ha (not_lt.mpr h0.2.1)
            have hnv3 := Seg.clip_y_min_nonviol r2 b hv hr p hc hnb2
            rw [← hr3] at hnv3
            have P0 : r4.p0 = r3.p0 ∨ b.check r4.p0.x r4.p0.y = Bounds.Within := I4.2.2.1
            have P1 : r4.p1 = r3.p1 ∨ b.check r4.p1.x r4.p1.y = Bounds.Within := I4.2.2.2
            constructor
            · rcases P0 with hh | hh
              · rw [hs', hh]
                exact hnv3.1
              · rw [hs']
                rw [BBox.check_eq_Within] at hh
                exact not_lt.mpr hh.2.1
            · rcases P1 with hh | hh
              · rw [hs', hh]
                exact hnv3.2
              · rw [hs']
                rw [BBox.check_eq_Within] at hh
                exact not_lt.mpr hh.2.1
      have hN4 : s'.intersection b.y_max_edge = none ∨
          (¬(s'.p0.y > b.y_max) ∧ ¬(s'.p1.y > b.y_max)) := by
        by_cases hxx : b.x_min = b.x_max
        · exact Or.inl (Seg.intersection_y_max_none_degen s' b hv hr hxx)
        · rcases hc : r3.intersection b.y_max_edge with _ | p
          · left
            apply Seg.intersection_y_max_none_of_not s' b hv hr
            intro hcr
            have hcs : CrossH s b b.y_max :=
              crossH_transfer_pos s s' b b.y_max O40 O41 hsdeg hcr
            have hnc := crossH_none_transfer_y_max s r3 b hv hr hxx I3.1 I3.2.1 hnd3 hc
            exact hnc hcs
          · right
            have hnb3 : ¬(r3.p0.y > b.y_max ∧ r3.p1.y > b.y_max) := by
              rintro ⟨ha, hb2⟩
              have E30 : r3.p0 = s.p0 ∨ b.check r3.p0.x r3.p0.y = Bounds.Within := by
                rcases I3.2.2.1 with hh | hh
                · rcases I2.2.2.1 with hh2 | hh2
                  · rcases I1.2.2.1 with hh1 | hh1
                    · exact Or.inl (hh.trans (hh2.trans hh1))
                    · exact Or.inr (by rw [hh, hh2]; exact hh1)
                  · exact Or.inr (by rw [hh]; exact hh2)
                · exact Or.inr hh
              have E31 : r3.p1 = s.p1 ∨ b.check r3.p1.x r3.p1.y = Bounds.Within := by
                rcases I3.2.2.2 with hh | hh
                · rcases I2.2.2.2 with hh2 | hh2
                  · rcases I1.2.2.2 with hh1 | hh1
                    · exact Or.inl (hh.trans (hh2.trans hh1))
                    · exact Or.inr (by rw [hh, hh2]; exact hh1)
                  · exact Or.inr (by rw [hh]; exact hh2)
                · exact Or.inr hh
              rcases E30 with h0 | h0
              · rcases E31 with h1 | h1
                · refine Seg.bounded_not_both_above s b hv hb ⟨?_, ?_⟩
                  · rw [← h0]
                    exact ha
                  · rw [← h1]
                    exact hb2
                · rw [BBox.check_eq_Within] at h1
                  exact absurd hb2 (not_lt.mpr h1.2.2)
              · rw [BBox.check_eq_Within] at h0
                exact absurd ha (not_lt.mpr h0.2.2)
            have hnv4 := Seg.clip_y_max_nonviol r3 b hv hr p hc hnb3
            rw [← hr4] at hnv4
            constructor
            · rw [hs']
              exact hnv4.1
            · rw [hs']
              exact hnv4.2
      unfold Seg.clip
      have hcond : ¬((!s'.bounded_by b) = true) := by
        rw [hb']
        simp
      rw [if_neg hcond]
      have hstep1 : s'.clip_x_min b = s' := by
        rcases hN1 with hh | ⟨hh0, hh1⟩
        · exact Seg.clip_x_min_eq_none s' b hh
        · exact Seg.clip_x_min_noop s' b hh0 hh1
      rw [hstep1]
      have hstep2 : s'.clip_x_max b = s' := by
        rcases hN2 with hh | ⟨hh0, hh1⟩
        · exact Seg.clip_x_max_eq_none s' b hh
        · exact Seg.clip_x_max_noop s' b hh0 hh1
      rw [hstep2]
      have hstep3 : s'.clip_y_min b = s' := by
        rcases hN3 with hh | ⟨hh0, hh1⟩
        · exact Seg.clip_y_min_eq_none s' b hh
        · exact Seg.clip_y_min_noop s' b hh0 hh1
      rw [hstep3]
      have hstep4 : s'.clip_y_max b = s' := by
        rcases hN4 with hh | ⟨hh0, hh1⟩
        · exact Seg.clip_y_max_eq_none s' b hh
        · exact Seg.clip_y_max_noop s' b hh0 hh1
      rw [hstep4]

theorem box01 : BBox.new [⟨0,0⟩, ⟨1,1⟩] = ⟨⟨0,0⟩,⟨1,1⟩⟩ := by
  rw [BBox.new_pair_in_range]
  · simp
  · constructor <;> constructor <;> norm_num [maxValue]
  · constructor <;> constructor <;> norm_num [maxValue]

theorem box01_valid : (BBox.mk ⟨0,0⟩ ⟨1,1⟩).Valid := by
  constructor <;> norm_num [BBox.x_min, BBox.x_max, BBox.y_min, BBox.y_max]

theorem box01_in_range : (BBox.mk ⟨0,0⟩ ⟨1,1⟩).InRange := by
  refine ⟨⟨?_, ?_⟩, ⟨?_, ?_⟩, ⟨?_, ?_⟩, ⟨?_, ?_⟩⟩ <;>
    norm_num [BBox.x_min, BBox.x_max, BBox.y_min, BBox.y_max, maxValue]

theorem c6_eval_no : Seg.bounded_by ⟨⟨1/2, 8/5⟩, ⟨8/5, 1/2⟩⟩ (BBox.new [⟨0,0⟩, ⟨1,1⟩]) = false := by
  rw [box01]
  have h0 : (BBox.mk ⟨0,0⟩ ⟨1,1⟩).check (1/2 : ℚ) (8/5 : ℚ) = Bounds.Above := by
    rw [BBox.check_eq_Above]
    norm_num [BBox.x_min, BBox.x_max, BBox.y_min, BBox.y_max]
  have h1 : (BBox.mk ⟨0,0⟩ ⟨1,1⟩).check (8/5 : ℚ) (1/2 : ℚ) = Bounds.Right := by
    rw [BBox.check_eq_Right]
    norm_num [BBox.x_min, BBox.x_max, BBox.y_min, BBox.y_max]
  simp only [Seg.bounded_by, h0, h1]
  rw [Seg.intersects, Seg.intersection_x_max_edge _ _ box01_valid box01_in_range]
  norm_num [yAt, BBox.x_min, BBox.x_max, BBox.y_min, BBox.y_max]

theorem c6_eval_yes : Seg.bounded_by ⟨⟨-1/2, 1/2⟩, ⟨3/2, 1/2⟩⟩ (BBox.new [⟨0,0⟩, ⟨1,1⟩]) = true := by
  rw [box01]
  have h0 : (BBox.mk ⟨0,0⟩ ⟨1,1⟩).check (-1/2 : ℚ) (1/2 : ℚ) = Bounds.Left := by
    rw [BBox.check_eq_Left]
    norm_num [BBox.x_min, BBox.x_max, BBox.y_min, BBox.y_max]
  have h1 : (BBox.mk ⟨0,0⟩ ⟨1,1⟩).check (3/2 : ℚ) (1/2 : ℚ) = Bounds.Right := by
    rw [BBox.check_eq_Right]
    norm_num [BBox.x_min, BBox.x_max, BBox.y_min, BBox.y_max]
  simp only [Seg.bounded_by, h0, h1]

theorem c7_s_xmin : Seg.intersects ⟨⟨-1/8, -1⟩, ⟨1/2, 2⟩⟩ (BBox.mk ⟨0,0⟩ ⟨1,1⟩).x_min_edge = false := by
  rw [Seg.intersects, Seg.intersection_x_min_edge _ _ box01_valid box01_in_range]
  norm_num [yAt, BBox.x_min, BBox.y_min, BBox.y_max]

theorem c7_s_ymin : Seg.intersects ⟨⟨-1/8, -1⟩, ⟨1/2, 2⟩⟩ (BBox.mk ⟨0,0⟩ ⟨1,1⟩).y_min_edge = true := by
  rw [Seg.intersects, Seg.intersection_y_min_edge _ _ box01_valid box01_in_range]
  norm_num [xAt, BBox.x_min, BBox.x_max, BBox.y_min]

theorem c7_eval_old : Seg.bounded_by_old ⟨⟨-1/8, -1⟩, ⟨1/2, 2⟩⟩ (BBox.new [⟨0,0⟩, ⟨1,1⟩]) = false := by
  rw [box01]
  have h0 : (BBox.mk ⟨0,0⟩ ⟨1,1⟩).check (-1/8 : ℚ) (-1 : ℚ) = Bounds.BelowLeft := by
    rw [BBox.check_eq_BelowLeft]
    norm_num [BBox.x_min, BBox.y_min]
  have h1 : (BBox.mk ⟨0,0⟩ ⟨1,1⟩).check (1/2 : ℚ) (2 : ℚ) = Bounds.Above := by
    rw [BBox.check_eq_Above]
    norm_num [BBox.x_min, BBox.x_max, BBox.y_min, BBox.y_max]
  simp only [Seg.bounded_by_old, h0, h1]
  exact c7_s_xmin

theorem c7_eval_new : Seg.bounded_by ⟨⟨-1/8, -1⟩, ⟨1/2, 2⟩⟩ (BBox.new [⟨0,0⟩, ⟨1,1⟩]) = true := by
  rw [box01]
  have h0 : (BBox.mk ⟨0,0⟩ ⟨1,1⟩).check (-1/8 : ℚ) (-1 : ℚ) = Bounds.BelowLeft := by
    rw [BBox.check_eq_BelowLeft]
    norm_num [BBox.x_min, BBox.y_min]
  have h1 : (BBox.mk ⟨0,0⟩ ⟨1,1⟩).check (1/2 : ℚ) (2 : ℚ) = Bounds.Above := by
    rw [BBox.check_eq_Above]
    norm_num [BBox.x_min, BBox.x_max, BBox.y_min, BBox.y_max]
  simp only [Seg.bounded_by, h0, h1]
  rw [c7_s_xmin, c7_s_ymin]
  rfl

set_option maxHeartbeats 1000000 in
theorem Seg.bounded_by_old_agrees (s : Seg) (b : BBox)
    (h0 : b.check s.p0.x s.p0.y ≠ Bounds.BelowLeft ∧ b.check s.p0.x s.p0.y ≠ Bounds.AboveLeft ∧
          b.check s.p0.x s.p0.y ≠ Bounds.BelowRight ∧ b.check s.p0.x s.p0.y ≠ Bounds.AboveRight)
    (h1 : b.check s.p1.x s.p1.y ≠ Bounds.BelowLeft ∧ b.check s.p1.x s.p1.y ≠ Bounds.AboveLeft ∧
          b.check s.p1.x s.p1.y ≠ Bounds.BelowRight ∧ b.check s.p1.x s.p1.y ≠ Bounds.AboveRight) :
    s.bounded_by_old b = s.bounded_by b := by
  unfold Seg.bounded_by_old Seg.bounded_by
  generalize b.check s.p0.x s.p0.y = t0 at h0 ⊢
  generalize b.check s.p1.x s.p1.y = t1 at h1 ⊢
  cases t0 <;> cases t1 <;> simp_all [BBox.x_min_edge, BBox.x_max_edge]

theorem c9_pt_part (p : Pt) : p.bounded_by BBox.default = false := by
  have h : ¬ (BBox.default.check p.x p.y = Bounds.Within) := by
    rw [BBox.check_eq_Within]
    intro hh
    have h1 : maxValue ≤ p.x := hh.1.1
    have h2 : p.x ≤ -maxValue := hh.1.2
    linarith [maxValue_pos]
  simp [Pt.bounded_by, h]

theorem c9_box_part (b : BBox) (h : b.x_max < maxValue) :
    b.bounded_by BBox.default = false := by
  unfold BBox.bounded_by
  have h2 : ¬ (b.x_max ≥ BBox.default.x_min) := by
    intro hge
    have h3 : maxValue ≤ b.x_max := hge
    linarith
  simp [h2]

theorem c9_seg_part (s : Seg) (h0x : s.p0.x < maxValue) (h0y : s.p0.y < maxValue)
    (h1x : s.p1.x < maxValue) (h1y : s.p1.y < maxValue) :
    s.bounded_by BBox.default = false := by
  have h0 : BBox.default.check s.p0.x s.p0.y = Bounds.BelowLeft := by
    rw [BBox.check_eq_BelowLeft]
    exact ⟨h0x, h0y⟩
  have h1 : BBox.default.check s.p1.x s.p1.y = Bounds.BelowLeft := by
    rw [BBox.check_eq_BelowLeft]
    exact ⟨h1x, h1y⟩
  simp only [Seg.bounded_by, h0, h1]

theorem c9_fullbox : BBox.new [⟨-maxValue, -maxValue⟩, ⟨maxValue, maxValue⟩] =
    ⟨⟨-maxValue, -maxValue⟩, ⟨maxValue, maxValue⟩⟩ := by
  have hM := maxValue_pos
  rw [BBox.new_pair_in_range]
  · have hmin : min (-maxValue) maxValue = -maxValue := min_eq_left (by linarith)
    have hmax : max (-maxValue) maxValue = maxValue := max_eq_right (by linarith)
    simp [hmin, hmax]
  · constructor <;> constructor <;> norm_num [maxValue]
  · constructor <;> constructor <;> norm_num [maxValue]

theorem c9_box_cex :
    (BBox.new [⟨-maxValue, -maxValue⟩, ⟨maxValue, maxValue⟩]).bounded_by BBox.default = true := by
  rw [c9_fullbox]
  unfold BBox.bounded_by
  simp [BBox.x_min, BBox.x_max, BBox.y_min, BBox.y_max, BBox.default]

theorem c9_seg_edge :
    Seg.intersects ⟨⟨0,0⟩, ⟨maxValue, maxValue⟩⟩ BBox.default.x_min_edge = true := by
  have hM := maxValue_pos
  have hedge : BBox.default.x_min_edge = ⟨⟨maxValue, maxValue⟩, ⟨maxValue, -maxValue⟩⟩ := rfl
  rw [Seg.intersects, hedge]
  have hsome : Seg.intersection ⟨⟨0,0⟩, ⟨maxValue, maxValue⟩⟩
      ⟨⟨maxValue, maxValue⟩, ⟨maxValue, -maxValue⟩⟩ = some ⟨maxValue, maxValue⟩ := by
    rw [Seg.intersection_eq_some_iff]
    constructor
    · rw [Line.intersection_eq_ite, if_neg]
      · congr 1
        apply Pt.eq_of_coords <;>
          · simp only [Pt.sub, Pt.cross]
            rw [zero_add, div_mul_eq_mul_div, div_eq_iff]
            · ring
            · nlinarith
      · simp only [Pt.sub, Pt.cross]
        intro hc
        nlinarith
    · rw [Pt.bounded_by_eq_true, BBox.new_pair, BBox.check_eq_Within]
      simp only [BBox.x_min, BBox.x_max, BBox.y_min, BBox.y_max]
      refine ⟨⟨min_le_right _ _, le_max_right _ _⟩, ?_, ?_⟩
      · exact le_trans (min_le_right _ _) (by linarith)
      · exact le_trans (le_max_right _ _) (le_max_left _ _)
  rw [hsome]
  rfl

theorem c9_seg_cex :
    Seg.bounded_by ⟨⟨0,0⟩, ⟨maxValue, maxValue⟩⟩ BBox.default = true := by
  have hM := maxValue_pos
  have h0 : BBox.default.check (0:ℚ) (0:ℚ) = Bounds.BelowLeft := by
    rw [BBox.check_eq_BelowLeft]
    exact ⟨hM, hM⟩
  have h1 : BBox.default.check maxValue maxValue = Bounds.AboveRight := by
    rw [BBox.check_eq_AboveRight]
    refine ⟨⟨le_refl _, ?_⟩, le_refl _, ?_⟩ <;>
      · show -maxValue < maxValue
        linarith
  simp only [Seg.bounded_by, h0, h1]
  rw [c9_seg_edge]
  rfl

theorem c1_box_b : BBox.new [⟨2,1⟩, ⟨2,-1⟩] = ⟨⟨2,-1⟩, ⟨2,1⟩⟩ := by
  rw [BBox.new_pair_in_range]
  · simp
  · constructor <;> constructor <;> norm_num [maxValue]
  · constructor <;> constructor <;> norm_num [maxValue]

theorem c1_inter : Seg.intersection ⟨⟨0,0⟩, ⟨1,0⟩⟩ ⟨⟨2,1⟩, ⟨2,-1⟩⟩ = some ⟨2,0⟩ := by
  rw [Seg.intersection_eq_some_iff]
  constructor
  · rw [Line.intersection_eq_ite, if_neg]
    · congr 1
      apply Pt.eq_of_coords <;>
        · simp only [Pt.sub, Pt.cross]
          norm_num
    · simp only [Pt.sub, Pt.cross]
      norm_num
  · rw [Pt.bounded_by_eq_true, c1_box_b, BBox.check_eq_Within]
    norm_num [BBox.x_min, BBox.x_max, BBox.y_min, BBox.y_max]

theorem c1_box_a : BBox.new [⟨0,0⟩, ⟨1,0⟩] = ⟨⟨0,0⟩, ⟨1,0⟩⟩ := by
  rw [BBox.new_pair_in_range]
  · simp
  · constructor <;> constructor <;> norm_num [maxValue]
  · constructor <;> constructor <;> norm_num [maxValue]

theorem c1_not_in_a : Pt.bounded_by ⟨2,0⟩ (BBox.new [⟨0,0⟩, ⟨1,0⟩]) = false := by
  rw [c1_box_a]
  have h : ¬ ((BBox.mk ⟨0,0⟩ ⟨1,0⟩).check (2:ℚ) (0:ℚ) = Bounds.Within) := by
    rw [BBox.check_eq_Within]
    norm_num [BBox.x_min, BBox.x_max, BBox.y_min, BBox.y_max]
  simp [Pt.bounded_by, h]

theorem C8_project_is_some (l : Line) (pt : Pt) (h : l.p0 ≠ l.p1) :
    (l.project pt).isSome = true := by
  simp only [Line.project]
  rw [Line.intersection_eq_ite, if_neg]
  · rfl
  · simp only [Pt.sub, Pt.cross, Pt.right]
    intro hc
    have hx : l.p1.x - l.p0.x = 0 := by
      nlinarith [sq_nonneg (l.p1.x - l.p0.x), sq_nonneg (l.p1.y - l.p0.y)]
    have hy : l.p1.y - l.p0.y = 0 := by
      nlinarith [sq_nonneg (l.p1.x - l.p0.x), sq_nonneg (l.p1.y - l.p0.y)]
    exact h (Pt.eq_of_coords (by linarith) (by linarith))

/-! ### Canonicalization: intersections with the four reference lines -/

theorem Line.inter_x0 (l : Line) :
    l.intersection ⟨⟨0,0⟩, ⟨0,1⟩⟩ =
      if l.p1.x - l.p0.x = 0 then none
      else some ⟨0, ((l.p1.x - l.p0.x) * l.p0.y - (l.p1.y - l.p0.y) * l.p0.x) /
        (l.p1.x - l.p0.x)⟩ := by
  rw [Line.intersection_eq_ite]
  simp only [Pt.sub, Pt.cross]
  by_cases h : l.p1.x - l.p0.x = 0
  · rw [if_pos (by linarith), if_pos h]
  · rw [if_neg (by intro hh; exact h (by linarith)), if_neg h]
    have h2 : l.p0.x - l.p1.x ≠ 0 := by intro hh; exact h (by linarith)
    congr 1
    apply Pt.eq_of_coords <;>
      · simp only
        field_simp
        try ring

theorem Line.inter_y0 (l : Line) :
    l.intersection ⟨⟨0,0⟩, ⟨1,0⟩⟩ =
      if l.p1.y - l.p0.y = 0 then none
      else some ⟨-(((l.p1.x - l.p0.x) * l.p0.y - (l.p1.y - l.p0.y) * l.p0.x)) /
        (l.p1.y - l.p0.y), 0⟩ := by
  rw [Line.intersection_eq_ite]
  simp only [Pt.sub, Pt.cross]
  by_cases h : l.p1.y - l.p0.y = 0
  · rw [if_pos (by linarith), if_pos h]
  · rw [if_neg (by intro hh; exact h (by linarith)), if_neg h]
    have h2 : l.p0.y - l.p1.y ≠ 0 := by intro hh; exact h (by linarith)
    congr 1
    apply Pt.eq_of_coords <;>
      · simp only
        field_simp
        try ring

theorem Line.inter_x1 (l : Line) :
    l.intersection ⟨⟨1,0⟩, ⟨1,1⟩⟩ =
      if l.p1.x - l.p0.x = 0 then none
      else some ⟨1, (((l.p1.x - l.p0.x) * l.p0.y - (l.p1.y - l.p0.y) * l.p0.x) +
        (l.p1.y - l.p0.y)) / (l.p1.x - l.p0.x)⟩ := by
  rw [Line.intersection_eq_ite]
  simp only [Pt.sub, Pt.cross]
  by_cases h : l.p1.x - l.p0.x = 0
  · rw [if_pos (by linarith), if_pos h]
  · rw [if_neg (by intro hh; exact h (by linarith)), if_neg h]
    have h2 : l.p0.x - l.p1.x ≠ 0 := by intro hh; exact h (by linarith)
    congr 1
    apply Pt.eq_of_coords <;>
      · simp only
        field_simp
        try ring

theorem Line.inter_y1 (l : Line) :
    l.intersection ⟨⟨0,1⟩, ⟨1,1⟩⟩ =
      if l.p1.y - l.p0.y = 0 then none
      else some ⟨((l.p1.x - l.p0.x) -
        ((l.p1.x - l.p0.x) * l.p0.y - (l.p1.y - l.p0.y) * l.p0.x)) /
        (l.p1.y - l.p0.y), 1⟩ := by
  rw [Line.intersection_eq_ite]
  simp only [Pt.sub, Pt.cross]
  by_cases h : l.p1.y - l.p0.y = 0
  · rw [if_pos (by linarith), if_pos h]
  · rw [if_neg (by intro hh; exact h (by linarith)), if_neg h]
    have h2 : l.p0.y - l.p1.y ≠ 0 := by intro hh; exact h (by linarith)
    congr 1
    apply Pt.eq_of_coords <;>
      · simp only
        field_simp
        try ring

theorem Line.canonical_eq (l : Line) :
    l.canonical =
      if l.p1.x - l.p0.x = 0 then
        if l.p1.y - l.p0.y = 0 then none
        else some ⟨⟨l.p0.x, 0⟩, ⟨l.p0.x, 1⟩⟩
      else
        if l.p1.y - l.p0.y = 0 then some ⟨⟨0, l.p0.y⟩, ⟨1, l.p0.y⟩⟩
        else
          if (l.p1.x - l.p0.x) * l.p0.y - (l.p1.y - l.p0.y) * l.p0.x = 0 then
            some ⟨⟨0, 0⟩, ⟨1, (l.p1.y - l.p0.y) / (l.p1.x - l.p0.x)⟩⟩
          else
            some ⟨⟨0, ((l.p1.x - l.p0.x) * l.p0.y - (l.p1.y - l.p0.y) * l.p0.x) /
                      (l.p1.x - l.p0.x)⟩,
                  ⟨-(((l.p1.x - l.p0.x) * l.p0.y - (l.p1.y - l.p0.y) * l.p0.x)) /
                      (l.p1.y - l.p0.y), 0⟩⟩ := by
  simp only [Line.canonical]
  rw [Line.inter_x0, Line.inter_y0, Line.inter_x1, Line.inter_y1]
  by_cases hx : l.p1.x - l.p0.x = 0 <;> by_cases hy : l.p1.y - l.p0.y = 0
  · simp [hx, hy]
  · simp [hx, hy]
    try field_simp
  · simp [hx, hy]
    try field_simp
  · by_cases hk : (l.p1.x - l.p0.x) * l.p0.y - (l.p1.y - l.p0.y) * l.p0.x = 0
    · simp [hx, hy, hk]
    · simp [hx, hy, hk, div_eq_zero_iff]

theorem Line.canonical_idem (l c : Line) (h : l.canonical = some c) :
    c.canonical = some c := by
  rw [Line.canonical_eq] at h
  split_ifs at h with hx hy hy2 hk
  · -- vertical line
    obtain rfl := Option.some.inj h
    rw [Line.canonical_eq, if_pos (by ring), if_neg (by norm_num)]
  · -- horizontal line
    obtain rfl := Option.some.inj h
    rw [Line.canonical_eq, if_neg (by norm_num), if_pos (by ring)]
  · -- line through the origin
    obtain rfl := Option.some.inj h
    have hvx : l.p1.x - l.p0.x ≠ 0 := hx
    have hvy : l.p1.y - l.p0.y ≠ 0 := hy2
    rw [Line.canonical_eq, if_neg (by norm_num),
      if_neg (by simp [sub_zero, div_eq_zero_iff, hvx, hvy]),
      if_pos (by ring)]
    norm_num
  · -- generic position
    obtain rfl := Option.some.inj h
    have hvx : l.p1.x - l.p0.x ≠ 0 := hx
    have hvy : l.p1.y - l.p0.y ≠ 0 := hy2
    have hc1 : -(((l.p1.x - l.p0.x) * l.p0.y - (l.p1.y - l.p0.y) * l.p0.x)) /
        (l.p1.y - l.p0.y) - 0 ≠ 0 := by
      intro hh
      rw [sub_zero, div_eq_zero_iff, neg_eq_zero] at hh
      rcases hh with hh | hh
      · exact hk hh
      · exact hvy hh
    have hc2 : 0 - ((l.p1.x - l.p0.x) * l.p0.y - (l.p1.y - l.p0.y) * l.p0.x) /
        (l.p1.x - l.p0.x) ≠ 0 := by
      intro hh
      rw [zero_sub, neg_eq_zero, div_eq_zero_iff] at hh
      rcases hh with hh | hh
      · exact hk hh
      · exact hvx hh
    rw [Line.canonical_eq, if_neg hc1, if_neg hc2, if_neg]
    · congr 1
      congr 1
      · congr 1
        rw [div_eq_div_iff hc1 hvx]
        field_simp
        ring
      · congr 1
        rw [div_eq_div_iff hc2 hvy]
        field_simp
        ring
    · intro hh
      rw [sub_zero, zero_sub, mul_zero, sub_zero, div_mul_div_comm,
        div_eq_zero_iff] at hh
      rcases hh with hh | hh
      · exact hk (mul_self_eq_zero.mp (by linarith))
      · rcases mul_eq_zero.mp hh with hh | hh
        · exact hvy hh
        · exact hvx hh

theorem Line.canonical_congr (l1 l2 : Line)
    (h1 : l1.p0 ≠ l1.p1) (h2 : l2.p0 ≠ l2.p1)
    (hpar : (l1.p1.sub l1.p0).cross (l2.p1.sub l2.p0) = 0)
    (hon : onL l1.p0 l1.p1 l2.p0) :
    l1.canonical = l2.canonical := by
  simp only [Pt.sub, Pt.cross] at hpar
  simp only [onL, Pt.sub, Pt.cross] at hon
  have hnd1 : ¬(l1.p1.x - l1.p0.x = 0 ∧ l1.p1.y - l1.p0.y = 0) := by
    rintro ⟨ha, hb⟩
    exact h1 (Pt.eq_of_coords (by linarith) (by linarith))
  have hnd2 : ¬(l2.p1.x - l2.p0.x = 0 ∧ l2.p1.y - l2.p0.y = 0) := by
    rintro ⟨ha, hb⟩
    exact h2 (Pt.eq_of_coords (by linarith) (by linarith))
  have hKa : (l2.p1.x - l2.p0.x) *
        ((l1.p1.x - l1.p0.x) * l1.p0.y - (l1.p1.y - l1.p0.y) * l1.p0.x)
      = (l1.p1.x - l1.p0.x) *
        ((l2.p1.x - l2.p0.x) * l2.p0.y - (l2.p1.y - l2.p0.y) * l2.p0.x) := by
    linear_combination (-(l2.p1.x - l2.p0.x)) * hon + l2.p0.x * hpar
  have hKb : (l2.p1.y - l2.p0.y) *
        ((l1.p1.x - l1.p0.x) * l1.p0.y - (l1.p1.y - l1.p0.y) * l1.p0.x)
      = (l1.p1.y - l1.p0.y) *
        ((l2.p1.x - l2.p0.x) * l2.p0.y - (l2.p1.y - l2.p0.y) * l2.p0.x) := by
    linear_combination (-(l2.p1.y - l2.p0.y)) * hon + l2.p0.y * hpar
  have hax : l1.p1.x - l1.p0.x = 0 ↔ l2.p1.x - l2.p0.x = 0 := by
    constructor
    · intro ha
      have hb : l1.p1.y - l1.p0.y ≠ 0 := fun hb => hnd1 ⟨ha, hb⟩
      have hz : (l1.p1.y - l1.p0.y) * (l2.p1.x - l2.p0.x) = 0 := by
        linear_combination -hpar + (l2.p1.y - l2.p0.y) * ha
      rcases mul_eq_zero.mp hz with h' | h'
      · exact absurd h' hb
      · exact h'
    · intro ha2
      have hb2 : l2.p1.y - l2.p0.y ≠ 0 := fun hb => hnd2 ⟨ha2, hb⟩
      have hz : (l2.p1.y - l2.p0.y) * (l1.p1.x - l1.p0.x) = 0 := by
        linear_combination hpar + (l1.p1.y - l1.p0.y) * ha2
      rcases mul_eq_zero.mp hz with h' | h'
      · exact absurd h' hb2
      · exact h'
  have hay : l1.p1.y - l1.p0.y = 0 ↔ l2.p1.y - l2.p0.y = 0 := by
    constructor
    · intro hb
      have ha : l1.p1.x - l1.p0.x ≠ 0 := fun ha => hnd1 ⟨ha, hb⟩
      have hz : (l1.p1.x - l1.p0.x) * (l2.p1.y - l2.p0.y) = 0 := by
        linear_combination hpar + (l2.p1.x - l2.p0.x) * hb
      rcases mul_eq_zero.mp hz with h' | h'
      · exact absurd h' ha
      · exact h'
    · intro hb2
      have ha2 : l2.p1.x - l2.p0.x ≠ 0 := fun ha => hnd2 ⟨ha, hb2⟩
      have hz : (l2.p1.x - l2.p0.x) * (l1.p1.y - l1.p0.y) = 0 := by
        linear_combination -hpar + (l1.p1.x - l1.p0.x) * hb2
      rcases mul_eq_zero.mp hz with h' | h'
      · exact absurd h' ha2
      · exact h'
  rw [Line.canonical_eq, Line.canonical_eq]
  by_cases ha : l1.p1.x - l1.p0.x = 0
  · have ha2 := hax.mp ha
    have hb : l1.p1.y - l1.p0.y ≠ 0 := fun hb => hnd1 ⟨ha, hb⟩
    have hb2 : l2.p1.y - l2.p0.y ≠ 0 := fun hh => hb (hay.mpr hh)
    rw [if_pos ha, if_pos ha2, if_neg hb, if_neg hb2]
    have hxc : l2.p0.x = l1.p0.x := by
      have hz : (l1.p1.y - l1.p0.y) * (l2.p0.x - l1.p0.x) = 0 := by
        linear_combination -hon + (l2.p0.y - l1.p0.y) * ha
      rcases mul_eq_zero.mp hz with h' | h'
      · exact absurd h' hb
      · linarith
    rw [hxc]
  · have ha2 : l2.p1.x - l2.p0.x ≠ 0 := fun hh => ha (hax.mpr hh)
    by_cases hb : l1.p1.y - l1.p0.y = 0
    · have hb2 := hay.mp hb
      rw [if_neg ha, if_neg ha2, if_pos hb, if_pos hb2]
      have hyc : l2.p0.y = l1.p0.y := by
        have hz : (l1.p1.x - l1.p0.x) * (l2.p0.y - l1.p0.y) = 0 := by
          linear_combination hon + (l2.p0.x - l1.p0.x) * hb
        rcases mul_eq_zero.mp hz with h' | h'
        · exact absurd h' ha
        · linarith
      rw [hyc]
    · have hb2 : l2.p1.y - l2.p0.y ≠ 0 := fun hh => hb (hay.mpr hh)
      rw [if_neg ha, if_neg ha2, if_neg hb, if_neg hb2]
      by_cases hk : (l1.p1.x - l1.p0.x) * l1.p0.y - (l1.p1.y - l1.p0.y) * l1.p0.x = 0
      · have hk2 : (l2.p1.x - l2.p0.x) * l2.p0.y - (l2.p1.y - l2.p0.y) * l2.p0.x = 0 := by
          have h0 : (l1.p1.x - l1.p0.x) *
              ((l2.p1.x - l2.p0.x) * l2.p0.y - (l2.p1.y - l2.p0.y) * l2.p0.x) = 0 := by
            rw [← hKa, hk, mul_zero]
          rcases mul_eq_zero.mp h0 with h' | h'
          · exact absurd h' ha
          · exact h'
        rw [if_pos hk, if_pos hk2]
        have hs : (l1.p1.y - l1.p0.y) / (l1.p1.x - l1.p0.x)
            = (l2.p1.y - l2.p0.y) / (l2.p1.x - l2.p0.x) := by
          rw [div_eq_div_iff ha ha2]
          linear_combination -hpar
        rw [hs]
      · have hk2 : ¬((l2.p1.x - l2.p0.x) * l2.p0.y - (l2.p1.y - l2.p0.y) * l2.p0.x = 0) := by
          intro hh
          apply hk
          have h0 : (l2.p1.x - l2.p0.x) *
              ((l1.p1.x - l1.p0.x) * l1.p0.y - (l1.p1.y - l1.p0.y) * l1.p0.x) = 0 := by
            rw [hKa, hh, mul_zero]
          rcases mul_eq_zero.mp h0 with h' | h'
          · exact absurd h' ha2
          · exact h'
        rw [if_neg hk, if_neg hk2]
        have e1 : ((l1.p1.x - l1.p0.x) * l1.p0.y - (l1.p1.y - l1.p0.y) * l1.p0.x) /
              (l1.p1.x - l1.p0.x)
            = ((l2.p1.x - l2.p0.x) * l2.p0.y - (l2.p1.y - l2.p0.y) * l2.p0.x) /
              (l2.p1.x - l2.p0.x) := by
          rw [div_eq_div_iff ha ha2]
          linear_combination hKa
        have e2 : -(((l1.p1.x - l1.p0.x) * l1.p0.y - (l1.p1.y - l1.p0.y) * l1.p0.x)) /
              (l1.p1.y - l1.p0.y)
            = -(((l2.p1.x - l2.p0.x) * l2.p0.y - (l2.p1.y - l2.p0.y) * l2.p0.x)) /
              (l2.p1.y - l2.p0.y) := by
          rw [div_eq_div_iff hb hb2]
          linear_combination -hKb
        rw [e1, e2]

theorem c10_example : Line.canonical ⟨⟨23, 0⟩, ⟨0, -19⟩⟩ = some ⟨⟨0, -19⟩, ⟨23, 0⟩⟩ := by
  rw [Line.canonical_eq]
  norm_num

theorem c4_box : BBox.new [⟨0,0⟩, ⟨2,0⟩] = ⟨⟨0,0⟩, ⟨2,0⟩⟩ := by
  rw [BBox.new_pair_in_range]
  · simp
  · constructor <;> constructor <;> norm_num [maxValue]
  · constructor <;> constructor <;> norm_num [maxValue]

theorem c4_box_valid : (BBox.mk ⟨0,0⟩ ⟨2,0⟩).Valid := by
  constructor <;> norm_num [BBox.x_min, BBox.x_max, BBox.y_min, BBox.y_max]

theorem c4_box_in_range : (BBox.mk ⟨0,0⟩ ⟨2,0⟩).InRange := by
  refine ⟨⟨?_, ?_⟩, ⟨?_, ?_⟩, ⟨?_, ?_⟩, ⟨?_, ?_⟩⟩ <;>
    norm_num [BBox.x_min, BBox.x_max, BBox.y_min, BBox.y_max, maxValue]

theorem c4_clip_eval :
    Seg.clip ⟨⟨-1,0⟩, ⟨1,0⟩⟩ (BBox.mk ⟨0,0⟩ ⟨2,0⟩) = some ⟨⟨-1,0⟩, ⟨1,0⟩⟩ := by
  have h0 : (BBox.mk ⟨0,0⟩ ⟨2,0⟩).check (-1 : ℚ) (0 : ℚ) = Bounds.Left := by
    rw [BBox.check_eq_Left]
    norm_num [BBox.x_min, BBox.x_max, BBox.y_min, BBox.y_max]
  have h1 : (BBox.mk ⟨0,0⟩ ⟨2,0⟩).check (1 : ℚ) (0 : ℚ) = Bounds.Within := by
    rw [BBox.check_eq_Within]
    norm_num [BBox.x_min, BBox.x_max, BBox.y_min, BBox.y_max]
  have hb : Seg.bounded_by ⟨⟨-1,0⟩, ⟨1,0⟩⟩ (BBox.mk ⟨0,0⟩ ⟨2,0⟩) = true := by
    simp only [Seg.bounded_by, h0, h1]
  have hx1 : Seg.intersection ⟨⟨-1,0⟩, ⟨1,0⟩⟩ (BBox.mk ⟨0,0⟩ ⟨2,0⟩).x_min_edge = none := by
    rw [Seg.intersection_x_min_edge _ _ c4_box_valid c4_box_in_range]
    norm_num [BBox.y_min, BBox.y_max]
  have hx2 : Seg.intersection ⟨⟨-1,0⟩, ⟨1,0⟩⟩ (BBox.mk ⟨0,0⟩ ⟨2,0⟩).x_max_edge = none := by
    rw [Seg.intersection_x_max_edge _ _ c4_box_valid c4_box_in_range]
    norm_num [BBox.y_min, BBox.y_max]
  have hy1 : Seg.intersection ⟨⟨-1,0⟩, ⟨1,0⟩⟩ (BBox.mk ⟨0,0⟩ ⟨2,0⟩).y_min_edge = none := by
    rw [Seg.intersection_y_min_edge _ _ c4_box_valid c4_box_in_range]
    norm_num
  have hy2 : Seg.intersection ⟨⟨-1,0⟩, ⟨1,0⟩⟩ (BBox.mk ⟨0,0⟩ ⟨2,0⟩).y_max_edge = none := by
    rw [Seg.intersection_y_max_edge _ _ c4_box_valid c4_box_in_range]
    norm_num
  unfold Seg.clip
  rw [hb]
  rw [if_neg (by simp)]
  rw [Seg.clip_x_min_eq_none _ _ hx1, Seg.clip_x_max_eq_none _ _ hx2,
    Seg.clip_y_min_eq_none _ _ hy1, Seg.clip_y_max_eq_none _ _ hy2]

theorem c4_witness_clip :
    Seg.clip ⟨⟨0,0⟩, ⟨1,1⟩⟩ (BBox.mk ⟨0,0⟩ ⟨1,1⟩) = some ⟨⟨0,0⟩, ⟨1,1⟩⟩ := by
  have h0 : (BBox.mk ⟨0,0⟩ ⟨1,1⟩).check (0 : ℚ) (0 : ℚ) = Bounds.Within := by
    rw [BBox.check_eq_Within]
    norm_num [BBox.x_min, BBox.x_max, BBox.y_min, BBox.y_max]
  have h1 : (BBox.mk ⟨0,0⟩ ⟨1,1⟩).check (1 : ℚ) (1 : ℚ) = Bounds.Within := by
    rw [BBox.check_eq_Within]
    norm_num [BBox.x_min, BBox.x_max, BBox.y_min, BBox.y_max]
  have hb : Seg.bounded_by ⟨⟨0,0⟩, ⟨1,1⟩⟩ (BBox.mk ⟨0,0⟩ ⟨1,1⟩) = true := by
    simp only [Seg.bounded_by, h0, h1]
  unfold Seg.clip
  rw [hb]
  rw [if_neg (by simp)]
  rw [Seg.clip_x_min_noop _ _ (by norm_num [BBox.x_min]) (by norm_num [BBox.x_min]),
    Seg.clip_x_max_noop _ _ (by norm_num [BBox.x_max]) (by norm_num [BBox.x_max]),
    Seg.clip_y_min_noop _ _ (by norm_num [BBox.y_min]) (by norm_num [BBox.y_min]),
    Seg.clip_y_max_noop _ _ (by norm_num [BBox.y_max]) (by norm_num [BBox.y_max])]

/-! ### The claims -/

/-- Claim C1, amended: a point returned by `Seg::intersection` always lies in
the bounding box of the *right-hand* segment's endpoints (the filter tests only
`rhs`; containment in the bounding box of `self`'s endpoints does not hold in
general). -/
theorem C1_intersection_in_rhs_bbox (a b : Seg) (p : Pt)
    (h : a.intersection b = some p) :
    p.bounded_by (BBox.new [b.p0, b.p1]) = true :=
  ((Seg.intersection_eq_some_iff a b p).mp h).2

/-- Claim C1, counterexample to the original statement: the segments
`a = (0,0)-(1,0)` and `b = (2,1)-(2,-1)` produce the intersection point
`(2,0)`, which is not contained in the bounding box of `a`'s endpoints. -/
theorem C1_counterexample :
    Seg.intersection ⟨⟨0,0⟩, ⟨1,0⟩⟩ ⟨⟨2,1⟩, ⟨2,-1⟩⟩ = some ⟨2,0⟩ ∧
    Pt.bounded_by ⟨2,0⟩ (BBox.new [⟨0,0⟩, ⟨1,0⟩]) = false :=
  ⟨c1_inter, c1_not_in_a⟩

/-- Claim C1, witness: the amended theorem applied to the concrete pair of
segments from the counterexample. -/
theorem C1_witness :
    Pt.bounded_by ⟨2,0⟩ (BBox.new [(⟨2,1⟩ : Pt), ⟨2,-1⟩]) = true :=
  C1_intersection_in_rhs_bbox ⟨⟨0,0⟩, ⟨1,0⟩⟩ ⟨⟨2,1⟩, ⟨2,-1⟩⟩ ⟨2,0⟩ c1_inter

/-- Claim C2: for a valid box, `BBox::check` always returns one of the nine
`Bounds` tags, and returns `Within` exactly when both coordinates lie inside
the closed extents. -/
theorem C2_check_nine_tags_and_within (b : BBox) (hv : b.Valid) (x y : ℚ) :
    (b.check x y = Bounds.Within ∨ b.check x y = Bounds.Below ∨
     b.check x y = Bounds.BelowLeft ∨ b.check x y = Bounds.Left ∨
     b.check x y = Bounds.AboveLeft ∨ b.check x y = Bounds.Above ∨
     b.check x y = Bounds.AboveRight ∨ b.check x y = Bounds.Right ∨
     b.check x y = Bounds.BelowRight) ∧
    (b.check x y = Bounds.Within ↔
      (b.x_min ≤ x ∧ x ≤ b.x_max) ∧ (b.y_min ≤ y ∧ y ≤ b.y_max)) := by
  constructor
  · generalize b.check x y = t
    cases t <;> tauto
  · exact BBox.check_eq_Within b x y

/-- Claim C2, witness: the theorem applied to the box `[(0,0),(1,1)]` and the
point `(1/2, 3)`. -/
theorem C2_witness :
    ((BBox.mk ⟨0,0⟩ ⟨1,1⟩).check (1/2) 3 = Bounds.Within ∨
     (BBox.mk ⟨0,0⟩ ⟨1,1⟩).check (1/2) 3 = Bounds.Below ∨
     (BBox.mk ⟨0,0⟩ ⟨1,1⟩).check (1/2) 3 = Bounds.BelowLeft ∨
     (BBox.mk ⟨0,0⟩ ⟨1,1⟩).check (1/2) 3 = Bounds.Left ∨
     (BBox.mk ⟨0,0⟩ ⟨1,1⟩).check (1/2) 3 = Bounds.AboveLeft ∨
     (BBox.mk ⟨0,0⟩ ⟨1,1⟩).check (1/2) 3 = Bounds.Above ∨
     (BBox.mk ⟨0,0⟩ ⟨1,1⟩).check (1/2) 3 = Bounds.AboveRight ∨
     (BBox.mk ⟨0,0⟩ ⟨1,1⟩).check (1/2) 3 = Bounds.Right ∨
     (BBox.mk ⟨0,0⟩ ⟨1,1⟩).check (1/2) 3 = Bounds.BelowRight) ∧
    ((BBox.mk ⟨0,0⟩ ⟨1,1⟩).check (1/2) 3 = Bounds.Within ↔
      ((BBox.mk ⟨0,0⟩ ⟨1,1⟩).x_min ≤ 1/2 ∧ 1/2 ≤ (BBox.mk ⟨0,0⟩ ⟨1,1⟩).x_max) ∧
      ((BBox.mk ⟨0,0⟩ ⟨1,1⟩).y_min ≤ 3 ∧ 3 ≤ (BBox.mk ⟨0,0⟩ ⟨1,1⟩).y_max)) :=
  C2_check_nine_tags_and_within (BBox.mk ⟨0,0⟩ ⟨1,1⟩) box01_valid (1/2) 3

/-- Claim C3: `Line::intersection` returns `None` exactly when the cross
product of the two direction vectors is zero (in particular on any line and
itself), and otherwise returns `p0 + u·v0` with
`u = cross(v1, self.p0 - rhs.p0) / cross(v0, v1)`. -/
theorem C3_parallel_none_and_formula :
    (∀ l r : Line, l.intersection r = none ↔
      (l.p1.sub l.p0).cross (r.p1.sub r.p0) = 0) ∧
    (∀ l : Line, l.intersection l = none) ∧
    (∀ l r : Line, l.intersection r =
      if (l.p1.sub l.p0).cross (r.p1.sub r.p0) = 0 then none
      else
        some ⟨l.p0.x + (r.p1.sub r.p0).cross (l.p0.sub r.p0) /
                (l.p1.sub l.p0).cross (r.p1.sub r.p0) * (l.p1.sub l.p0).x,
              l.p0.y + (r.p1.sub r.p0).cross (l.p0.sub r.p0) /
                (l.p1.sub l.p0).cross (r.p1.sub r.p0) * (l.p1.sub l.p0).y⟩) := by
  refine ⟨?_, Line.intersection_self, Line.intersection_eq_ite⟩
  intro l r
  rw [Line.intersection_eq_ite]
  split_ifs with h
  · simp [h]
  · simp [h]

/-- Claim C4, amended: for a valid, in-range box whose extents are strictly
positive on both axes, a successful clip yields a segment whose endpoints both
classify `Within`.  (For degenerate boxes the property fails, see the
counterexample.) -/
theorem C4_clip_endpoints_within (s : Seg) (b : BBox) (hv : b.Valid)
    (hr : b.InRange) (hsx : b.x_min < b.x_max) (hsy : b.y_min < b.y_max)
    (s' : Seg) (h : s.clip b = some s') :
    b.check s'.p0.x s'.p0.y = Bounds.Within ∧
    b.check s'.p1.x s'.p1.y = Bounds.Within :=
  Seg.clip_some_within s b hv hr hsx hsy s' h

/-- Claim C4, counterexample to the original statement: clipping the segment
`(-1,0)-(1,0)` against the valid but degenerate box `[(0,0),(2,0)]` succeeds
and returns the segment unchanged, with its first endpoint classifying `Left`,
not `Within`. -/
theorem C4_counterexample :
    (BBox.new [⟨0,0⟩, ⟨2,0⟩]).Valid ∧
    Seg.clip ⟨⟨-1,0⟩, ⟨1,0⟩⟩ (BBox.new [⟨0,0⟩, ⟨2,0⟩]) = some ⟨⟨-1,0⟩, ⟨1,0⟩⟩ ∧
    ¬((BBox.new [⟨0,0⟩, ⟨2,0⟩]).check (-1) 0 = Bounds.Within) := by
  rw [c4_box]
  refine ⟨c4_box_valid, c4_clip_eval, ?_⟩
  rw [BBox.check_eq_Within]
  norm_num [BBox.x_min, BBox.x_max, BBox.y_min, BBox.y_max]

/-- Claim C4, witness: the amended theorem applied to the segment
`(0,0)-(1,1)` and the strict box `[(0,1)]²`. -/
theorem C4_witness :
    (BBox.mk ⟨0,0⟩ ⟨1,1⟩).check (0:ℚ) (0:ℚ) = Bounds.Within ∧
    (BBox.mk ⟨0,0⟩ ⟨1,1⟩).check (1:ℚ) (1:ℚ) = Bounds.Within :=
  C4_clip_endpoints_within ⟨⟨0,0⟩, ⟨1,1⟩⟩ (BBox.mk ⟨0,0⟩ ⟨1,1⟩) box01_valid
    box01_in_range
    (by norm_num [BBox.x_min, BBox.x_max])
    (by norm_num [BBox.y_min, BBox.y_max])
    ⟨⟨0,0⟩, ⟨1,1⟩⟩ c4_witness_clip

/-- Claim C5: clipping is idempotent on valid in-range boxes — clipping the
result of a successful clip returns it unchanged. -/
theorem C5_clip_idempotent (s : Seg) (b : BBox) (hv : b.Valid)
    (hr : b.InRange) :
    (s.clip b).bind (fun s2 => s2.clip b) = s.clip b := by
  rcases h : s.clip b with _ | s'
  · rfl
  · exact Seg.clip_clip s b hv hr s' h

/-- Claim C5, witness: idempotence at the segment `(0,0)-(2,2)` and the box
`[(0,1)]²`. -/
theorem C5_witness :
    (Seg.clip ⟨⟨0,0⟩, ⟨2,2⟩⟩ (BBox.mk ⟨0,0⟩ ⟨1,1⟩)).bind
      (fun s2 => s2.clip (BBox.mk ⟨0,0⟩ ⟨1,1⟩)) =
    Seg.clip ⟨⟨0,0⟩, ⟨2,2⟩⟩ (BBox.mk ⟨0,0⟩ ⟨1,1⟩) :=
  C5_clip_idempotent ⟨⟨0,0⟩, ⟨2,2⟩⟩ (BBox.mk ⟨0,0⟩ ⟨1,1⟩) box01_valid
    box01_in_range

/-- Claim C6: against the box `[(0,0),(1,1)]`, the segment
`(0.5,1.6)-(1.6,0.5)` does not overlap, while `(-0.5,0.5)-(1.5,0.5)` does. -/
theorem C6_overlap_examples :
    Seg.bounded_by ⟨⟨1/2, 8/5⟩, ⟨8/5, 1/2⟩⟩ (BBox.new [⟨0,0⟩, ⟨1,1⟩]) = false ∧
    Seg.bounded_by ⟨⟨-1/2, 1/2⟩, ⟨3/2, 1/2⟩⟩ (BBox.new [⟨0,0⟩, ⟨1,1⟩]) = true :=
  ⟨c6_eval_no, c6_eval_yes⟩

/-- Claim C7, amended: the two source revisions of `Seg::bounded_by` agree
whenever both endpoint classifications are non-diagonal tags.  (They disagree
on some diagonal configurations, see the counterexample.) -/
theorem C7_revisions_agree_nondiagonal (s : Seg) (b : BBox)
    (h0 : b.check s.p0.x s.p0.y ≠ Bounds.BelowLeft ∧
          b.check s.p0.x s.p0.y ≠ Bounds.AboveLeft ∧
          b.check s.p0.x s.p0.y ≠ Bounds.BelowRight ∧
          b.check s.p0.x s.p0.y ≠ Bounds.AboveRight)
    (h1 : b.check s.p1.x s.p1.y ≠ Bounds.BelowLeft ∧
          b.check s.p1.x s.p1.y ≠ Bounds.AboveLeft ∧
          b.check s.p1.x s.p1.y ≠ Bounds.BelowRight ∧
          b.check s.p1.x s.p1.y ≠ Bounds.AboveRight) :
    s.bounded_by_old b = s.bounded_by b :=
  Seg.bounded_by_old_agrees s b h0 h1

/-- Claim C7, counterexample to the original statement: for the segment
`(-1/8,-1)-(1/2,2)` and the box `[(0,0),(1,1)]` (endpoint tags `BelowLeft` and
`Above`), the earlier revision answers `false` while the later answers
`true`. -/
theorem C7_counterexample :
    Seg.bounded_by_old ⟨⟨-1/8, -1⟩, ⟨1/2, 2⟩⟩ (BBox.new [⟨0,0⟩, ⟨1,1⟩]) = false ∧
    Seg.bounded_by ⟨⟨-1/8, -1⟩, ⟨1/2, 2⟩⟩ (BBox.new [⟨0,0⟩, ⟨1,1⟩]) = true :=
  ⟨c7_eval_old, c7_eval_new⟩

/-- Claim C7, witness: agreement at the segment `(-1/2,1/4)-(3/2,1/4)` against
the box `[(0,0),(1,1)]` (tags `Left` and `Right`). -/
theorem C7_witness :
    Seg.bounded_by_old ⟨⟨-1/2, 1/4⟩, ⟨3/2, 1/4⟩⟩ (BBox.mk ⟨0,0⟩ ⟨1,1⟩) =
    Seg.bounded_by ⟨⟨-1/2, 1/4⟩, ⟨3/2, 1/4⟩⟩ (BBox.mk ⟨0,0⟩ ⟨1,1⟩) := by
  have h0 : (BBox.mk ⟨0,0⟩ ⟨1,1⟩).check (-1/2 : ℚ) (1/4 : ℚ) = Bounds.Left := by
    rw [BBox.check_eq_Left]
    norm_num [BBox.x_min, BBox.x_max, BBox.y_min, BBox.y_max]
  have h1 : (BBox.mk ⟨0,0⟩ ⟨1,1⟩).check (3/2 : ℚ) (1/4 : ℚ) = Bounds.Right := by
    rw [BBox.check_eq_Right]
    norm_num [BBox.x_min, BBox.x_max, BBox.y_min, BBox.y_max]
  exact C7_revisions_agree_nondiagonal ⟨⟨-1/2, 1/4⟩, ⟨3/2, 1/4⟩⟩
    (BBox.mk ⟨0,0⟩ ⟨1,1⟩)
    ⟨by rw [h0]; decide, by rw [h0]; decide, by rw [h0]; decide, by rw [h0]; decide⟩
    ⟨by rw [h1]; decide, by rw [h1]; decide, by rw [h1]; decide, by rw [h1]; decide⟩

/-- Claim C8: when a line's two defining points are distinct, the intersection
inside `Line::project` always succeeds (the perpendicular through the queried
point is never parallel), so the source's `unwrap` cannot fail. -/
theorem C8_project_always_some (l : Line) (pt : Pt) (h : l.p0 ≠ l.p1) :
    (l.project pt).isSome = true :=
  C8_project_is_some l pt h

/-- Claim C8, witness: projecting `(5,7)` onto the line through `(0,0)` and
`(1,0)`. -/
theorem C8_witness :
    ((Line.mk ⟨0,0⟩ ⟨1,0⟩).project ⟨5,7⟩).isSome = true :=
  C8_project_always_some (Line.mk ⟨0,0⟩ ⟨1,0⟩) ⟨5,7⟩ (by
    intro hh
    have h3 := congrArg Pt.x hh
    norm_num at h3)

/-- Claim C9, amended: every point fails `bounded_by` against the default
(empty) box; a box fails whenever its `x_max` is strictly below `maxValue`;
a segment fails whenever all four endpoint coordinates are strictly below
`maxValue`.  (Without those range restrictions the box and segment parts are
false, see the counterexample.) -/
theorem C9_default_box_rejects :
    (∀ p : Pt, p.bounded_by BBox.default = false) ∧
    (∀ b : BBox, b.x_max < maxValue → b.bounded_by BBox.default = false) ∧
    (∀ s : Seg, s.p0.x < maxValue → s.p0.y < maxValue → s.p1.x < maxValue →
      s.p1.y < maxValue → s.bounded_by BBox.default = false) :=
  ⟨c9_pt_part, c9_box_part, c9_seg_part⟩

/-- Claim C9, counterexample to the original statement: the full-range box
`[(-max,-max),(max,max)]` and the segment `(0,0)-(max,max)` both test `true`
against the default box. -/
theorem C9_counterexample :
    (BBox.new [⟨-maxValue, -maxValue⟩, ⟨maxValue, maxValue⟩]).bounded_by
      BBox.default = true ∧
    Seg.bounded_by ⟨⟨0,0⟩, ⟨maxValue, maxValue⟩⟩ BBox.default = true :=
  ⟨c9_box_cex, c9_seg_cex⟩

/-- Claim C9, witness: the amended theorem applied to the point `(5,7)`, the
box `[(0,0),(1,1)]` and the segment `(0,0)-(1,1)`. -/
theorem C9_witness :
    Pt.bounded_by ⟨5, 7⟩ BBox.default = false ∧
    BBox.bounded_by (BBox.mk ⟨0,0⟩ ⟨1,1⟩) BBox.default = false ∧
    Seg.bounded_by ⟨⟨0,0⟩, ⟨1,1⟩⟩ BBox.default = false := by
  refine ⟨C9_default_box_rejects.1 ⟨5, 7⟩,
    C9_default_box_rejects.2.1 (BBox.mk ⟨0,0⟩ ⟨1,1⟩) ?_,
    C9_default_box_rejects.2.2 ⟨⟨0,0⟩, ⟨1,1⟩⟩ ?_ ?_ ?_ ?_⟩ <;>
    norm_num [BBox.x_max, maxValue]

/-- Claim C10 (spec-modelled `Line::canonical`): canonicalization is
idempotent, two nondegenerate representations of the same infinite line
canonicalize equally, and `Line::new((23,0),(0,-19))` canonicalizes to
`Line::new((0,-19),(23,0))`. -/
theorem C10_canonical_laws :
    (∀ l c : Line, l.canonical = some c → c.canonical = some c) ∧
    (∀ l1 l2 : Line, l1.p0 ≠ l1.p1 → l2.p0 ≠ l2.p1 →
      (l1.p1.sub l1.p0).cross (l2.p1.sub l2.p0) = 0 →
      onL l1.p0 l1.p1 l2.p0 → l1.canonical = l2.canonical) ∧
    Line.canonical ⟨⟨23, 0⟩, ⟨0, -19⟩⟩ = some ⟨⟨0, -19⟩, ⟨23, 0⟩⟩ :=
  ⟨Line.canonical_idem, Line.canonical_congr, c10_example⟩

/-- Claim C10, witness: idempotence applied to the canonical form of the
example line, and representation-independence applied to the two point orders
of the example line. -/
theorem C10_witness :
    Line.canonical ⟨⟨0, -19⟩, ⟨23, 0⟩⟩ = some ⟨⟨0, -19⟩, ⟨23, 0⟩⟩ ∧
    Line.canonical ⟨⟨23, 0⟩, ⟨0, -19⟩⟩ = Line.canonical ⟨⟨0, -19⟩, ⟨23, 0⟩⟩ := by
  constructor
  · exact C10_canonical_laws.1 ⟨⟨23, 0⟩, ⟨0, -19⟩⟩ ⟨⟨0, -19⟩, ⟨23, 0⟩⟩
      c10_example
  · refine C10_canonical_laws.2.1 ⟨⟨23, 0⟩, ⟨0, -19⟩⟩ ⟨⟨0, -19⟩, ⟨23, 0⟩⟩
      ?_ ?_ ?_ ?_
    · intro hh
      have h2 := congrArg Pt.x hh
      norm_num at h2
    · intro hh
      have h2 := congrArg Pt.x hh
      norm_num at h2
    · norm_num [Pt.sub, Pt.cross]
    · norm_num [onL, Pt.sub, Pt.cross]
